import Mathlib

/-!
# Cluster manager: event processing of `clusterm/manager/events.go`

A shallow embedding of the event types of the cluster manager and of their
`process` methods.  The manager is a record that is passed explicitly; the
inventory and configuration subsystems are collaborators whose behaviour is a
parameter (`Env`), every call that may change them being recorded in
`Manager.calls`.

Conventions of the embedding:

* Go strings are Lean strings (valid UTF-8 only).
* A Go `error` is an `errored.Error` value; `nil` is `none`.
* `reqQ` is the list of pending events, oldest first.  The channel holds at
  most `reqQCapacity` events; the sends of `events.go` are made by the
  goroutine of the event loop, the only receiver, so a send on the full
  channel never completes (`Outcome.blocked`).
* `range e.mgr.nodes` visits the entries of a Go map in an unspecified order:
  the order is an explicit argument `ord`, a permutation of the registry.
* A nil interface whose method is called makes the program panic
  (`Outcome.panicked`).
* `inventory/asset.go` and the inventory subsystem are not among the sources:
  the asset state machine (`Asset.SetStatus`, `NewAsset`) and the inventory of
  the end-to-end properties (`lifecycleEnv`) are modelled from the
  specification and from `asset_test.go`.
-/

set_option linter.dupNamespace false

namespace Cluster

/-! ## errored -/

/-- The vendored `errored.Error`: a code and a description.  The stack, and
the `trace` and `debug` switches (which nothing in the repository turns on),
are left out. -/
structure Error where
  Code : Int
  desc : String
deriving DecidableEq, Repr

/-- `(*Error).Error()` with tracing and debugging off. -/
def Error.Error (e : Error) : String :=
  if e.Code ≠ 0 then toString e.Code ++ " " ++ e.desc else e.desc

/-- `errored.Errorf`, applied to the text that `fmt.Sprintf` produced. -/
def Errorf (desc : String) : Error := { Code := 0, desc := desc }

deriving instance DecidableEq for Except

/-! ## The `%q` verb of package `fmt` (Go standard library, `strconv.Quote`) -/

/-- The character `"`. -/
def dquote : Char := Char.ofNat 34

/-- The character `\`. -/
def bslash : Char := Char.ofNat 92

/-- One digit of `lowerhex = "0123456789abcdef"`. -/
def hexDigit (n : Nat) : Char := "0123456789abcdef".data.getD (n % 16) (Char.ofNat 48)

/-- The `width` low hexadecimal digits of `n`, most significant first. -/
def hexDigits (width n : Nat) : List Char :=
  (List.range width).reverse.map (fun i => hexDigit (n / 16 ^ i))

/-- The function `appendEscapedRune` of `strconv` for the double quote, with
`ASCIIonly` and `graphicOnly` off.  The table `strconv.IsPrint` is the
argument `isPrint`. -/
def appendEscapedRune (isPrint : Char → Bool) (r : Char) : List Char :=
  if r = dquote ∨ r = bslash then [bslash, r]
  else if isPrint r then [r]
  else if r.toNat = 7 then [bslash, 'a']
  else if r.toNat = 8 then [bslash, 'b']
  else if r.toNat = 12 then [bslash, 'f']
  else if r.toNat = 10 then [bslash, 'n']
  else if r.toNat = 13 then [bslash, 'r']
  else if r.toNat = 9 then [bslash, 't']
  else if r.toNat = 11 then [bslash, 'v']
  else if r.toNat < 32 ∨ r.toNat = 127 then bslash :: 'x' :: hexDigits 2 r.toNat
  else if r.toNat < 65536 then bslash :: 'u' :: hexDigits 4 r.toNat
  else bslash :: 'U' :: hexDigits 8 r.toNat

/-- What `%q` prints for a string: `strconv.Quote`. -/
def goQuote (isPrint : Char → Bool) (s : String) : String :=
  String.mk (dquote :: (s.data.flatMap (appendEscapedRune isPrint) ++ [dquote]))

/-- The text `t` occurs in the text `s`. -/
def strContains (s t : String) : Prop := t.data <:+: s.data

instance (s t : String) : Decidable (strContains s t) := by
  unfold strContains; infer_instance

/-! ## The three views of a node -/

/-- Modelled from the spec: the package `monitor` is missing; a
`monitor.SubsysNode` is the presence snapshot of a node (label, serial,
management address) read by `GetLabel`, `GetSerial` and `GetMgmtAddress`. -/
structure SubsysNode where
  label : String
  serial : String
  mgmtAddr : String
deriving DecidableEq, Repr

/-- The lifecycle status of an asset (`inventory.AssetStatus`). -/
inductive AssetStatus where
  | Incomplete | Unallocated | Provisioning | Commissioned | Cancelled
  | Decommissioned | InMaintenance
deriving DecidableEq, Repr

/-- The presence state of an asset (`inventory.AssetState`). -/
inductive AssetState where
  | Unknown | Discovered | Disappeared
deriving DecidableEq, Repr

/-- The fields of `inventory.Asset` that `asset_test.go` builds (the client
handle apart). -/
structure Asset where
  name : String
  status : AssetStatus
  prevStatus : AssetStatus
  state : AssetState
  prevState : AssetState
deriving DecidableEq, Repr

/-- Modelled from the spec: the package `configuration` is missing; a host
descriptor (`configuration.AnsibleHost`) has an identity, an address, a
mutable group tag and a mutable bag of key/value variables.  It is taken to
be the only implementation of `configuration.SubsysHost`, so that the type
assertions of `events.go` succeed. -/
structure AnsibleHost where
  tag : String
  addr : String
  group : String
  vars : List (String × String)
deriving DecidableEq, Repr

/-- Writing `vars[k] = v` in a Go map kept as an association list. -/
def setVarList (k v : String) : List (String × String) → List (String × String)
  | [] => [(k, v)]
  | (k1, v1) :: t => if k1 = k then (k, v) :: t else (k1, v1) :: setVarList k v t

/-- Reading `vars[k]`. -/
def getVarList (k : String) : List (String × String) → Option String
  | [] => none
  | (k1, v1) :: t => if k1 = k then some v1 else getVarList k t

/-- `NewAnsibleHost(tag, addr, group, vars)`. -/
def NewAnsibleHost (tag addr group : String) (vars : List (String × String)) : AnsibleHost :=
  { tag := tag, addr := addr, group := group, vars := vars }

/-- `(*AnsibleHost).GetTag`. -/
def AnsibleHost.GetTag (h : AnsibleHost) : String := h.tag

/-- `(*AnsibleHost).SetGroup`. -/
def AnsibleHost.SetGroup (h : AnsibleHost) (group : String) : AnsibleHost :=
  { h with group := group }

/-- `(*AnsibleHost).SetVar`. -/
def AnsibleHost.SetVar (h : AnsibleHost) (k v : String) : AnsibleHost :=
  { h with vars := setVarList k v h.vars }

/-- The value of variable `k` of a host. -/
def AnsibleHost.getVar (h : AnsibleHost) (k : String) : Option String :=
  getVarList k h.vars

/-- The struct `node` of `manager.go`: each view is an interface value that
may be nil. -/
structure Node where
  Mon : Option SubsysNode
  Inv : Option Asset
  Cfg : Option AnsibleHost
deriving DecidableEq, Repr

/-! ## Events, collaborator calls and the manager -/

/-- The event types of `events.go`.  The `mgr` pointer every event carries is
the manager that is passed to `process`. -/
inductive Event where
  | nodeDiscovered (node : SubsysNode)
  | nodeDisappeared (node : SubsysNode)
  | nodeCommissioned (nodeName extraVars : String)
  | nodeDecommissioned (nodeName extraVars : String)
  | nodeInMaintenance (nodeName extraVars : String)
  | nodeConfigure (nodeName extraVars : String)
  | nodeCleanup (nodeName extraVars : String)
  | nodeUpgrade (nodeName extraVars : String)
  | nodeDiscover (nodeAddr extraVars : String)
  | setGlobals (extraVars : String)
  | waitableEvent (inEvent : Event)
deriving DecidableEq, Repr

/-- The mutating operations of `inventory.Subsys`. -/
inductive InvOp where
  | AddAsset | SetAssetDiscovered | SetAssetDisappeared | SetAssetProvisioning
  | SetAssetCommissioned | SetAssetCancelled | SetAssetDecommissioned
  | SetAssetInMaintenance | SetAssetUnallocated
deriving DecidableEq, Repr

/-- The operations of the configuration subsystem that run a playbook. -/
inductive CfgOp where
  | Configure | Cleanup | Upgrade
deriving DecidableEq, Repr

/-- One call made to a collaborator. -/
inductive Call where
  | inv (op : InvOp) (name : String)
  | cfg (op : CfgOp) (hosts : List AnsibleHost) (extraVars : String)
  | setGlobals (extraVars : String)
deriving DecidableEq, Repr

/-- The struct `Manager`: the registry `nodes`, the queue `reqQ`, the state
`world` of the collaborators, and the record `calls` of the calls made to
them (oldest first). -/
structure Manager (σ : Type) where
  nodes : List (String × Node)
  reqQ : List Event
  world : σ
  calls : List Call
deriving DecidableEq

/-- How a call of `process` ends: it returns an error value (`none` is
`nil`), the program panics, or the call is stopped for ever at a send on the
full queue and never returns. -/
inductive Outcome where
  | returned (err : Option Error)
  | panicked
  | blocked
deriving DecidableEq, Repr

/-- What `events.go` uses and the sources do not define: the constants of the
configuration groups and variables, the table `strconv.IsPrint`, the two
error constructors, the classification predicates of the registry (they read
the cached views of the registry, the inventory view being an object the
inventory subsystem owns), and the behaviour of the inventory and
configuration subsystems.  A playbook operation yields the lines of its
output stream (if any) and the value its completion channel delivers;
`getAsset` is the read `GetAsset` of the inventory (`none` is nil) and
`setGlobals` the operation `SetGlobals` of the configuration subsystem. -/
structure Env (σ : Type) where
  ansibleMasterGroupName : String
  ansibleWorkerGroupName : String
  ansibleDiscoverGroupName : String
  ansibleNodeNameHostVar : String
  ansibleNodeAddrHostVar : String
  ansibleEtcdMasterAddrHostVar : String
  ansibleEtcdMasterNameHostVar : String
  isPrint : Char → Bool
  nodeNotExistsError : String → Error
  nodeConfigNotExistsError : String → Error
  isMasterNode : List (String × Node) → σ → String → Except Error Bool
  isWorkerNode : List (String × Node) → σ → String → Except Error Bool
  isDiscoveredNode : List (String × Node) → σ → String → Except Error Bool
  isDiscoveredAndAllocatedNode : List (String × Node) → σ → String → Except Error Bool
  inventory : InvOp → String → σ → Option Error × σ
  configuration : CfgOp → List AnsibleHost → String → σ →
    (Option (List String) × Option Error) × σ
  getAsset : String → σ → Option Asset
  setGlobals : String → σ → Option Error × σ

variable {σ : Type}

/-- Reading `m.nodes[name]`. -/
def lookupNode (name : String) : List (String × Node) → Option Node
  | [] => none
  | (k, nd) :: t => if k = name then some nd else lookupNode name t

/-- Writing through the pointer `m.nodes[name]`: the node stored under `name`
becomes `f` of it. -/
def updateNode (name : String) (f : Node → Node) : List (String × Node) → List (String × Node)
  | [] => []
  | (k, nd) :: t => if k = name then (k, f nd) :: t else (k, nd) :: updateNode name f t

/-- Modelled from the spec: `Manager.findNode` is missing; it looks the name
up in the registry and fails with the node-not-exists error. -/
def findNode (K : Env σ) (m : Manager σ) (name : String) : Except Error Node :=
  match lookupNode name m.nodes with
  | some nd => .ok nd
  | none => .error (K.nodeNotExistsError name)

/-- One call of an inventory operation: the call is recorded and the
inventory moves on. -/
def callInventory (K : Env σ) (op : InvOp) (name : String) (m : Manager σ) :
    Option Error × Manager σ :=
  let r := K.inventory op name m.world
  (r.1, { m with world := r.2, calls := m.calls ++ [Call.inv op name] })

/-- The capacity of the channel `reqQ`: `make(chan event, 100)` in
`manager.go`. -/
def reqQCapacity : Nat := 100

/-- The send `e.mgr.reqQ <- ev`, made by the goroutine that is the only
receiver of the channel: with room in the buffer the event is appended; on a
full buffer the send never completes (`none`). -/
def enqueue (ev : Event) (m : Manager σ) : Option (Manager σ) :=
  if m.reqQ.length < reqQCapacity then some { m with reqQ := m.reqQ ++ [ev] } else none

/-- The helper `logOutputAndReturnStatus`: the lines of the reader (if there
is one) are logged and the value received on the error channel is returned.
The result is the lines logged and that value. -/
def logOutputAndReturnStatus (r : Option (List String)) (errCh : Option Error) :
    List String × Option Error :=
  match r with
  | none => ([], errCh)
  | some lines => (lines, errCh)

/-- One playbook operation of the configuration subsystem followed by
`logOutputAndReturnStatus` on what it returned. -/
def runPlaybook (K : Env σ) (op : CfgOp) (hosts : List AnsibleHost) (extraVars : String)
    (m : Manager σ) : Option Error × Manager σ :=
  let r := K.configuration op hosts extraVars m.world
  ((logOutputAndReturnStatus r.1.1 r.1.2).2,
    { m with world := r.2, calls := m.calls ++ [Call.cfg op hosts extraVars] })

/-! ## The `process` methods -/

/-- The method `nodeCommissioned.process`. -/
def nodeCommissioned.process (K : Env σ) (nodeName extraVars : String) (m : Manager σ) :
    Outcome × Manager σ :=
  match K.isDiscoveredNode m.nodes m.world nodeName with
  | .error err => (.returned (some err), m)
  | .ok isDiscovered =>
    if !isDiscovered then
      (.returned (some (Errorf ("node " ++ goQuote K.isPrint nodeName ++
        " has disappeared from monitoring subsystem, it can't be commissioned. Please check node's network reachability"))), m)
    else
      match callInventory K .SetAssetProvisioning nodeName m with
      | (some err, m1) => (.returned (some err), m1)
      | (none, m1) =>
        match enqueue (.nodeConfigure nodeName extraVars) m1 with
        | some m2 => (.returned none, m2)
        | none => (.blocked, m1)

/-- The loop of `nodeDecommissioned.process` over the entries that `range`
yields: `true` when it reaches the `return` of the error, that is when it
meets a node other than `nodeName` that is discovered and allocated, and a
worker; a node whose check fails is skipped. -/
def nodeDecommissioned.workerRemains (K : Env σ) (m : Manager σ) (nodeName : String) :
    List (String × Node) → Bool
  | [] => false
  | (name, _) :: rest =>
    if name = nodeName then nodeDecommissioned.workerRemains K m nodeName rest
    else
      match K.isDiscoveredAndAllocatedNode m.nodes m.world name with
      | .error _ => nodeDecommissioned.workerRemains K m nodeName rest
      | .ok false => nodeDecommissioned.workerRemains K m nodeName rest
      | .ok true =>
        match K.isWorkerNode m.nodes m.world name with
        | .error _ => nodeDecommissioned.workerRemains K m nodeName rest
        | .ok true => true
        | .ok false => nodeDecommissioned.workerRemains K m nodeName rest

/-- The method `nodeDecommissioned.process`; `ord` is the order in which
`range e.mgr.nodes` yields the registry. -/
def nodeDecommissioned.process (K : Env σ) (ord : List (String × Node))
    (nodeName extraVars : String) (m : Manager σ) : Outcome × Manager σ :=
  match K.isMasterNode m.nodes m.world nodeName with
  | .error err => (.returned (some err), m)
  | .ok isMasterNode =>
    if isMasterNode && nodeDecommissioned.workerRemains K m nodeName ord then
      (.returned (some (Errorf (goQuote K.isPrint nodeName ++
        " is a master node and it can only be decommissioned after all worker nodes have been decommissioned"))), m)
    else
      match callInventory K .SetAssetCancelled nodeName m with
      | (some err, m1) => (.returned (some err), m1)
      | (none, m1) =>
        match enqueue (.nodeCleanup nodeName extraVars) m1 with
        | some m2 => (.returned none, m2)
        | none => (.blocked, m1)

/-- The method `nodeInMaintenance.process`. -/
def nodeInMaintenance.process (K : Env σ) (nodeName extraVars : String) (m : Manager σ) :
    Outcome × Manager σ :=
  match callInventory K .SetAssetInMaintenance nodeName m with
  | (some err, m1) => (.returned (some err), m1)
  | (none, m1) =>
    match enqueue (.nodeUpgrade nodeName extraVars) m1 with
    | some m2 => (.returned none, m2)
    | none => (.blocked, m1)

/-- What the loop of `nodeConfigure.process` leaves in `nodeGroup`,
`masterAddr` and `masterName`, or a panic. -/
inductive RoleScan where
  | done (nodeGroup masterAddr masterName : String)
  | panicked
deriving DecidableEq, Repr

/-- The loop of `nodeConfigure.process` over the entries that `range` yields:
the first node other than `nodeName` that is discovered and allocated, and a
master, gives the address and the name of the master and makes this node a
worker; a node whose check fails is skipped.  Reading the address or the tag
through a nil view panics. -/
def nodeConfigure.roleScan (K : Env σ) (m : Manager σ) (nodeName : String) :
    List (String × Node) → RoleScan
  | [] => .done K.ansibleMasterGroupName "" ""
  | (name, node) :: rest =>
    if name = nodeName then nodeConfigure.roleScan K m nodeName rest
    else
      match K.isDiscoveredAndAllocatedNode m.nodes m.world name with
      | .error _ => nodeConfigure.roleScan K m nodeName rest
      | .ok false => nodeConfigure.roleScan K m nodeName rest
      | .ok true =>
        match K.isMasterNode m.nodes m.world name with
        | .error _ => nodeConfigure.roleScan K m nodeName rest
        | .ok false => nodeConfigure.roleScan K m nodeName rest
        | .ok true =>
          match node.Mon with
          | none => .panicked
          | some mon =>
            match node.Cfg with
            | none => .panicked
            | some cfg => .done K.ansibleWorkerGroupName mon.mgmtAddr cfg.GetTag

/-- The three writes `SetGroup`, `SetVar`, `SetVar` of `nodeConfigure.process`
on the host descriptor. -/
def nodeConfigure.assignRole (K : Env σ) (hostInfo : AnsibleHost)
    (nodeGroup masterAddr masterName : String) : AnsibleHost :=
  ((hostInfo.SetGroup nodeGroup).SetVar K.ansibleEtcdMasterAddrHostVar masterAddr).SetVar
    K.ansibleEtcdMasterNameHostVar masterName

/-- The method `nodeConfigure.process`; `ord` is the order in which
`range e.mgr.nodes` yields the registry.  The host descriptor is written
through the pointer held by the registry. -/
def nodeConfigure.process (K : Env σ) (ord : List (String × Node))
    (nodeName extraVars : String) (m : Manager σ) : Outcome × Manager σ :=
  match findNode K m nodeName with
  | .error err => (.returned (some err), m)
  | .ok node =>
    match node.Cfg with
    | none => (.returned (some (K.nodeConfigNotExistsError nodeName)), m)
    | some hostInfo =>
      match nodeConfigure.roleScan K m nodeName ord with
      | .panicked => (.panicked, m)
      | .done nodeGroup masterAddr masterName =>
        let hostInfo1 := nodeConfigure.assignRole K hostInfo nodeGroup masterAddr masterName
        let m1 : Manager σ :=
          { m with nodes := updateNode nodeName (fun nd => { nd with Cfg := some hostInfo1 }) m.nodes }
        match runPlaybook K .Configure [hostInfo1] extraVars m1 with
        | (some err, m2) =>
          match callInventory K .SetAssetUnallocated nodeName m2 with
          | (some err1, m3) => (.returned (some err1), m3)
          | (none, m3) => (.returned (some err), m3)
        | (none, m2) =>
          match callInventory K .SetAssetCommissioned nodeName m2 with
          | (some err, m3) => (.returned (some err), m3)
          | (none, m3) => (.returned none, m3)

/-- The method `nodeCleanup.process`. -/
def nodeCleanup.process (K : Env σ) (nodeName extraVars : String) (m : Manager σ) :
    Outcome × Manager σ :=
  match findNode K m nodeName with
  | .error err => (.returned (some err), m)
  | .ok node =>
    match node.Cfg with
    | none => (.returned (some (K.nodeConfigNotExistsError nodeName)), m)
    | some hostInfo =>
      match runPlaybook K .Cleanup [hostInfo] extraVars m with
      | (_, m1) =>
        match callInventory K .SetAssetDecommissioned nodeName m1 with
        | (some err, m2) => (.returned (some err), m2)
        | (none, m2) => (.returned none, m2)

/-- The method `nodeUpgrade.process`. -/
def nodeUpgrade.process (K : Env σ) (nodeName extraVars : String) (m : Manager σ) :
    Outcome × Manager σ :=
  match findNode K m nodeName with
  | .error err => (.returned (some err), m)
  | .ok node =>
    match node.Cfg with
    | none => (.returned (some (K.nodeConfigNotExistsError nodeName)), m)
    | some hostInfo =>
      match runPlaybook K .Upgrade [hostInfo] extraVars m with
      | (some err, m1) =>
        match callInventory K .SetAssetUnallocated nodeName m1 with
        | (some err1, m2) => (.returned (some err1), m2)
        | (none, m2) => (.returned (some err), m2)
      | (none, m1) =>
        match callInventory K .SetAssetCommissioned nodeName m1 with
        | (some err, m2) => (.returned (some err), m2)
        | (none, m2) => (.returned none, m2)

/-! ## Discovery, disappearance, bootstrap discovery and global variables -/

/-- The name of a node: `e.node.GetLabel() + "-" + e.node.GetSerial()`. -/
def nodeIdentity (node : SubsysNode) : String :=
  node.label ++ "-" ++ node.serial

/-- The map write `m.nodes[name] = nd`. -/
def setNode (name : String) (nd : Node) : List (String × Node) → List (String × Node)
  | [] => [(name, nd)]
  | (k, n) :: t => if k = name then (k, nd) :: t else (k, n) :: setNode name nd t

/-- The method `nodeDiscovered.process`.  When `findNode` finds the node its
error is nil, and the call `err.Error()` of the first test dereferences
nil: the program panics before anything is written. -/
def nodeDiscovered.process (K : Env σ) (node : SubsysNode) (m : Manager σ) :
    Outcome × Manager σ :=
  let name := nodeIdentity node
  match findNode K m name with
  | .ok _ => (.panicked, m)
  | .error err =>
    if err.Error = (K.nodeNotExistsError name).Error then
      let enode : Node :=
        { Mon := none, Inv := none,
          Cfg := some (NewAnsibleHost name node.mgmtAddr K.ansibleMasterGroupName
            [(K.ansibleNodeNameHostVar, name),
             (K.ansibleNodeAddrHostVar, node.mgmtAddr)]) }
      let m1 : Manager σ := { m with nodes := setNode name enode m.nodes }
      let inv := K.getAsset name m1.world
      let nodes2 := updateNode name (fun nd => { nd with Mon := some node, Inv := inv }) m1.nodes
      let m2 : Manager σ := { m1 with nodes := nodes2 }
      match inv with
      | none =>
        match callInventory K .AddAsset name m2 with
        | (some err1, m3) => (.returned (some err1), m3)
        | (none, m3) =>
          let nodes3 := updateNode name (fun nd => { nd with Inv := K.getAsset name m3.world })
            m3.nodes
          (.returned none, { m3 with nodes := nodes3 })
      | some _ =>
        match callInventory K .SetAssetDiscovered name m2 with
        | (some err1, m3) => (.returned (some err1), m3)
        | (none, m3) => (.returned none, m3)
    else (.returned (some err), m)

/-- The method `nodeDisappeared.process`. -/
def nodeDisappeared.process (K : Env σ) (node : SubsysNode) (m : Manager σ) :
    Outcome × Manager σ :=
  let name := nodeIdentity node
  match findNode K m name with
  | .error err => (.returned (some err), m)
  | .ok _ =>
    let nodes1 := updateNode name (fun nd => { nd with Mon := some node }) m.nodes
    let m1 : Manager σ := { m with nodes := nodes1 }
    match callInventory K .SetAssetDisappeared name m1 with
    | (some err, m2) => (.returned (some err), m2)
    | (none, m2) => (.returned none, m2)

/-- The linear scan of `findNodeByMgmtAddr` over the entries that `range`
yields: the first node whose monitoring view has the address. -/
def scanMgmtAddr (addr : String) : List (String × Node) → Option Node
  | [] => none
  | (_, nd) :: rest =>
    match nd.Mon with
    | some mon => if mon.mgmtAddr = addr then some nd else scanMgmtAddr addr rest
    | none => scanMgmtAddr addr rest

/-- Modelled from the spec: `Manager.findNodeByMgmtAddr` is missing; it is a
linear scan of the registry for a node whose monitoring management address is
`addr`, and fails with a not-exists error when there is none.  A node without
a monitoring view has no address and is passed over. -/
def findNodeByMgmtAddr (K : Env σ) (ord : List (String × Node)) (addr : String) :
    Except Error Node :=
  match scanMgmtAddr addr ord with
  | some nd => .ok nd
  | none => .error (K.nodeNotExistsError addr)

/-- The method `nodeDiscover.process`; `ord` is the order in which the scan
of `findNodeByMgmtAddr` visits the registry.  `node.Inv.GetTag()` panics when
the inventory view of the node found is nil. -/
def nodeDiscover.process (K : Env σ) (ord : List (String × Node))
    (nodeAddr extraVars : String) (m : Manager σ) : Outcome × Manager σ :=
  match findNodeByMgmtAddr K ord nodeAddr with
  | .ok node =>
    match node.Inv with
    | none => (.panicked, m)
    | some asset =>
      (.returned (some (Errorf ("a node " ++ goQuote K.isPrint asset.name ++
        " already exists with the management address " ++ goQuote K.isPrint nodeAddr))), m)
  | .error _ =>
    let hostCfg := NewAnsibleHost "node1" nodeAddr K.ansibleDiscoverGroupName
      [(K.ansibleNodeNameHostVar, "node1"), (K.ansibleNodeAddrHostVar, nodeAddr)]
    match runPlaybook K .Configure [hostCfg] extraVars m with
    | (some err, m1) => (.returned (some err), m1)
    | (none, m1) => (.returned none, m1)

/-- The method `setGlobals.process`. -/
def setGlobals.process (K : Env σ) (extraVars : String) (m : Manager σ) :
    Outcome × Manager σ :=
  let r := K.setGlobals extraVars m.world
  (.returned r.1, { m with world := r.2, calls := m.calls ++ [Call.setGlobals extraVars] })

/-! ## Waitable events and the event loop -/

/-- The method `waitableEvent.process`, given the `process` of the event it
holds: that is run, its result is sent on `statusCh` and returned.  The
second component is what was sent on `statusCh`; the unbuffered channel is
taken to have its reader waiting.  Nothing is sent when the held event
panics or never returns. -/
def waitableEvent.process (inEvent : Manager σ → Outcome × Manager σ) (m : Manager σ) :
    (Outcome × Manager σ) × List (Option Error) :=
  match inEvent m with
  | (.returned err, m1) => ((.returned err, m1), [err])
  | (.panicked, m1) => ((.panicked, m1), [])
  | (.blocked, m1) => ((.blocked, m1), [])

/-- The method `waitableEvent.waitForCompletion`: the first value received
on `statusCh` (`none`: nothing was sent, the caller keeps waiting). -/
def waitableEvent.waitForCompletion (statusCh : List (Option Error)) : Option (Option Error) :=
  statusCh.head?

/-- The call `me.process()` of the event loop, by the type of the event;
`ord` is the order in which a scan of the registry made by the event visits
it. -/
def Event.process (K : Env σ) (ord : List (String × Node)) :
    Event → Manager σ → Outcome × Manager σ
  | .nodeDiscovered node, m => nodeDiscovered.process K node m
  | .nodeDisappeared node, m => nodeDisappeared.process K node m
  | .nodeCommissioned nodeName extraVars, m => nodeCommissioned.process K nodeName extraVars m
  | .nodeDecommissioned nodeName extraVars, m =>
    nodeDecommissioned.process K ord nodeName extraVars m
  | .nodeInMaintenance nodeName extraVars, m => nodeInMaintenance.process K nodeName extraVars m
  | .nodeConfigure nodeName extraVars, m => nodeConfigure.process K ord nodeName extraVars m
  | .nodeCleanup nodeName extraVars, m => nodeCleanup.process K nodeName extraVars m
  | .nodeUpgrade nodeName extraVars, m => nodeUpgrade.process K nodeName extraVars m
  | .nodeDiscover nodeAddr extraVars, m => nodeDiscover.process K ord nodeAddr extraVars m
  | .setGlobals extraVars, m => setGlobals.process K extraVars m
  | .waitableEvent inEvent, m => (waitableEvent.process (Event.process K ord inEvent) m).1

/-- One turn of `Manager.eventLoop`: the event at the head of the queue is
received and processed (`none`: the queue is empty and the loop waits). -/
def eventLoopStep (K : Env σ) (ord : List (String × Node)) (m : Manager σ) :
    Option (Event × Outcome × Manager σ) :=
  match m.reqQ with
  | [] => none
  | me :: rest =>
    let r := Event.process K ord me { m with reqQ := rest }
    some (me, r.1, r.2)

/-- The method `Manager.eventLoop`, for as many turns as there are orders in
`ords` (one for each turn): the events processed with what their `process`
returned, oldest first, and the manager that is left.  The loop goes on
whatever error an event returns; it ends when the queue is empty (the loop
waits), when an event panics (the program stops) or when an event is stopped
at a send on the full queue (the loop never takes another event). -/
def eventLoop (K : Env σ) : List (List (String × Node)) → Manager σ →
    List (Event × Outcome) × Manager σ
  | [], m => ([], m)
  | ord :: ords, m =>
    match eventLoopStep K ord m with
    | none => ([], m)
    | some (me, .panicked, m1) => ([(me, .panicked)], m1)
    | some (me, .blocked, m1) => ([(me, .blocked)], m1)
    | some (me, .returned err, m1) =>
      let r := eventLoop K ords m1
      ((me, .returned err) :: r.1, r.2)

/-! ## A sample environment, to evaluate the model on concrete inputs -/

/-- The state of the sample collaborators: the inventory operations and the
playbook operations that fail, and the assets the inventory holds. -/
structure SampleWorld where
  failInv : List InvOp
  failCfg : List CfgOp
  assets : List Asset := []
deriving DecidableEq, Repr

/-- The asset the sample inventory creates for a name: unallocated and
discovered, as `TestNewAsset` expects of a new asset. -/
def sampleNewAsset (name : String) : Asset :=
  { name := name, status := AssetStatus.Unallocated, prevStatus := AssetStatus.Incomplete,
    state := AssetState.Discovered, prevState := AssetState.Unknown }

/-- The group of a node of the registry, read from its configuration view. -/
def sampleGroupIs (K : String → Error) (group : String) (nodes : List (String × Node))
    (name : String) : Except Error Bool :=
  match lookupNode name nodes with
  | none => .error (K name)
  | some nd =>
    match nd.Cfg with
    | none => .error (Errorf "no configuration view")
    | some cfg => .ok (cfg.group == group)

/-- The status and state of a node of the registry, read from its inventory
view. -/
def sampleAssetIs (K : String → Error) (p : Asset → Bool) (nodes : List (String × Node))
    (name : String) : Except Error Bool :=
  match lookupNode name nodes with
  | none => .error (K name)
  | some nd =>
    match nd.Inv with
    | none => .error (Errorf "no inventory view")
    | some a => .ok (p a)

/-- Modelled from the spec: a sample of what `events.go` leaves open.  The
classification predicates read the cached views of the registry (a master or
a worker is a node whose host descriptor is in that group, a discovered node
has state Discovered, an allocated one status Commissioned); an inventory or
playbook operation fails exactly when the world lists it; `AddAsset` adds a
new asset to the inventory, `GetAsset` finds an asset by its name. -/
def sampleEnv : Env SampleWorld where
  ansibleMasterGroupName := "service-master"
  ansibleWorkerGroupName := "service-worker"
  ansibleDiscoverGroupName := "cluster-node"
  ansibleNodeNameHostVar := "node_name"
  ansibleNodeAddrHostVar := "node_addr"
  ansibleEtcdMasterAddrHostVar := "etcd_master_addr"
  ansibleEtcdMasterNameHostVar := "etcd_master_name"
  isPrint := fun c => decide (32 ≤ c.toNat ∧ c.toNat < 127)
  nodeNotExistsError := fun name => Errorf ("node with name " ++ name ++ " doesn't exists")
  nodeConfigNotExistsError := fun name =>
    Errorf ("the configuration info for node " ++ name ++ " doesn't exist")
  isMasterNode := fun nodes _ name =>
    sampleGroupIs (fun n => Errorf ("node with name " ++ n ++ " doesn't exists"))
      "service-master" nodes name
  isWorkerNode := fun nodes _ name =>
    sampleGroupIs (fun n => Errorf ("node with name " ++ n ++ " doesn't exists"))
      "service-worker" nodes name
  isDiscoveredNode := fun nodes _ name =>
    sampleAssetIs (fun n => Errorf ("node with name " ++ n ++ " doesn't exists"))
      (fun a => a.state == AssetState.Discovered) nodes name
  isDiscoveredAndAllocatedNode := fun nodes _ name =>
    sampleAssetIs (fun n => Errorf ("node with name " ++ n ++ " doesn't exists"))
      (fun a => a.state == AssetState.Discovered && a.status == AssetStatus.Commissioned)
      nodes name
  inventory := fun op name w =>
    if op ∈ w.failInv then (some (Errorf "inventory failure"), w)
    else if op = InvOp.AddAsset then
      (none, { w with assets := w.assets ++ [sampleNewAsset name] })
    else (none, w)
  configuration := fun op _ _ w =>
    ((none, if op ∈ w.failCfg then some (Errorf "playbook failure") else none), w)
  getAsset := fun name w => w.assets.find? (fun a => a.name == name)
  setGlobals := fun _ w => (none, w)

/-- A node of the sample registry: discovered, with the given status, group
and address. -/
def sampleNode (name addr group : String) (status : AssetStatus) (state : AssetState) : Node :=
  { Mon := some { label := name, serial := "0", mgmtAddr := addr }
    Inv := some { name := name, status := status, prevStatus := AssetStatus.Provisioning,
                  state := state, prevState := AssetState.Unknown }
    Cfg := some (NewAnsibleHost name addr group [("node_name", name), ("node_addr", addr)]) }

/-- A sample manager over the given registry, with an empty queue, no call
made yet and collaborators that fail as listed. -/
def sampleManager (nodes : List (String × Node)) (failInv : List InvOp)
    (failCfg : List CfgOp) : Manager SampleWorld :=
  { nodes := nodes, reqQ := [], world := { failInv := failInv, failCfg := failCfg }, calls := [] }

/-- A registry with a commissioned master `n1` and a commissioned worker
`n2`. -/
def sampleTwoNodes : List (String × Node) :=
  [("n1", sampleNode "n1" "10.0.0.1" "service-master" AssetStatus.Commissioned AssetState.Discovered),
   ("n2", sampleNode "n2" "10.0.0.2" "service-worker" AssetStatus.Commissioned AssetState.Discovered)]

/-! ## Definitions used to state the properties -/

/-- A character that `%q` prints as itself. -/
def plainChar (isPrint : Char → Bool) (c : Char) : Prop :=
  c ≠ dquote ∧ c ≠ bslash ∧ isPrint c = true

instance (isPrint : Char → Bool) (c : Char) : Decidable (plainChar isPrint c) := by
  unfold plainChar; infer_instance

/-- The entry `p` of the registry is a node other than `B` that is discovered
and allocated, and a master: the node the loop of `nodeConfigure.process`
looks for. -/
def masterCandidate (K : Env σ) (m : Manager σ) (B : String) (p : String × Node) : Prop :=
  p.1 ≠ B ∧ K.isDiscoveredAndAllocatedNode m.nodes m.world p.1 = .ok true ∧
    K.isMasterNode m.nodes m.world p.1 = .ok true

/-- A node name with a double quote in it. -/
def sampleQuoteName : String := "n" ++ String.singleton dquote ++ "1"

/-- A registry whose master is named `sampleQuoteName` and whose worker is
`n2`. -/
def sampleQuoteNodes : List (String × Node) :=
  [(sampleQuoteName, sampleNode sampleQuoteName "10.0.0.1" "service-master"
      AssetStatus.Commissioned AssetState.Discovered),
   ("n2", sampleNode "n2" "10.0.0.2" "service-worker"
      AssetStatus.Commissioned AssetState.Discovered)]

/-- A registry whose only node `n1` has disappeared. -/
def sampleDisappeared : List (String × Node) :=
  [("n1", sampleNode "n1" "10.0.0.1" "service-master" AssetStatus.Unallocated
      AssetState.Disappeared)]

/-- A registry whose only node `n1` is discovered and unallocated. -/
def sampleFresh : List (String × Node) :=
  [("n1", sampleNode "n1" "10.0.0.1" "service-master" AssetStatus.Unallocated
      AssetState.Discovered)]

/-- A registry whose only node `n1` is being provisioned. -/
def sampleProvisioning : List (String × Node) :=
  [("n1", sampleNode "n1" "10.0.0.1" "service-master" AssetStatus.Provisioning
      AssetState.Discovered)]

/-- A registry whose only node `n1` is being provisioned and whose host
descriptor is in the worker group. -/
def sampleLoneWorker : List (String × Node) :=
  [("n1", sampleNode "n1" "10.0.0.1" "service-worker" AssetStatus.Provisioning
      AssetState.Discovered)]

/-- The presence snapshot of the node `n1-0` at the address `10.0.0.1`. -/
def sampleSnapshot : SubsysNode :=
  { label := "n1", serial := "0", mgmtAddr := "10.0.0.1" }

/-- The sample manager after the discovery of `sampleSnapshot` from an empty
registry, the inventory having no asset for it and creating one. -/
def sampleDiscoveredManager : Manager SampleWorld :=
  (nodeDiscovered.process sampleEnv sampleSnapshot (sampleManager [] [] [])).2

/-- The sample manager after the discovery of `sampleSnapshot` from an empty
registry, the inventory having no asset for it and `AddAsset` failing. -/
def sampleHalfDiscoveredManager : Manager SampleWorld :=
  (nodeDiscovered.process sampleEnv sampleSnapshot (sampleManager [] [.AddAsset] [])).2

/-- The sample manager over the registry of one fresh node `n1`, with three
events queued: a commission of `n1`, a waitable commission of a node `zz`
that is not in the registry, and a maintenance of `n1`. -/
def sampleQueueManager : Manager SampleWorld :=
  { sampleManager sampleFresh [] [] with
    reqQ := [.nodeCommissioned "n1" "v=1", .waitableEvent (.nodeCommissioned "zz" "v=1"),
             .nodeInMaintenance "n1" "v=1"] }

/-! ## The asset state machine (`inventory/asset.go`) -/

/-- One call made to the inventory client (`inventory.SubsysClient`). -/
inductive ClientCall where
  | CreateAsset (tag status : String)
  | SetAssetStatus (tag status state reason : String)
deriving DecidableEq, Repr

/-- The inventory client of an asset: the two operations of
`inventory.SubsysClient` that `asset_test.go` expects, on a state `γ` of the
client. -/
structure Client (γ : Type) where
  CreateAsset : String → String → γ → Option Error × γ
  SetAssetStatus : String → String → String → String → γ → Option Error × γ

/-- What `asset.go` defines and neither the spec nor `asset_test.go` gives in
full: the names that `String()` gives to statuses and states, the table
`StateDescription`, and the states permitted for each status. -/
structure AssetTables where
  statusString : AssetStatus → String
  stateString : AssetState → String
  StateDescription : AssetState → String
  stateAllowed : AssetStatus → AssetState → Bool

/-- Modelled from the spec: `asset.go` is missing; the adjacency table of the
statuses, as section 4.2 of the spec words it: Incomplete/Unallocated ⇄
Provisioning; Provisioning → Commissioned; Commissioned → Cancelled →
Decommissioned; Commissioned ⇄ InMaintenance; Provisioning → Unallocated;
InMaintenance → Unallocated. -/
def statusTransitionAllowed : AssetStatus → AssetStatus → Bool
  | .Incomplete, .Provisioning => true
  | .Unallocated, .Provisioning => true
  | .Provisioning, .Incomplete => true
  | .Provisioning, .Unallocated => true
  | .Provisioning, .Commissioned => true
  | .Commissioned, .Cancelled => true
  | .Cancelled, .Decommissioned => true
  | .Commissioned, .InMaintenance => true
  | .InMaintenance, .Commissioned => true
  | .InMaintenance, .Unallocated => true
  | _, _ => false

/-- Modelled from the spec: the invalid-transition error of `SetStatus`; of
its text only the pattern `transition from.*is not allowed` of
`TestSetStatusInvalidStatusTransition` is known. -/
def errInvalidStatusTransition (T : AssetTables) (old new : AssetStatus) : Error :=
  Errorf ("transition from " ++ T.statusString old ++ " to " ++ T.statusString new ++
    " is not allowed")

/-- Modelled from the spec: the invalid-state error of `SetStatus`; of its
text only the pattern `.*is not a valid state when asset is in.*status` of
`TestSetStatusUnallowedState` is known. -/
def errInvalidStateTransition (T : AssetTables) (status : AssetStatus) (state : AssetState) :
    Error :=
  Errorf (T.stateString state ++ " is not a valid state when asset is in " ++
    T.statusString status ++ " status")

/-- What a call of `SetStatus` leaves: how it ended, the asset, the state of
the client and the calls made to the client. -/
structure SetStatusResult (γ : Type) where
  outcome : Outcome
  asset : Asset
  world : γ
  calls : List ClientCall
deriving DecidableEq

/-- Modelled from the spec: `(*Asset).SetStatus` of `asset.go` is missing;
the four steps of section 4.2 of the spec.  (1) The same status and state: a
no-op.  (2) A change of status is checked against the adjacency table; a
status that is kept passes, as `TestSetStatusUnallowedState` shows.  (3) The
state is checked against the states permitted for the status.  (4) The
fields are shifted and set and the client is called (a nil client panics);
when the client fails the fields are rolled back and its error is
returned. -/
def Asset.SetStatus {γ : Type} (T : AssetTables) (client : Option (Client γ)) (a : Asset)
    (status : AssetStatus) (state : AssetState) (w : γ) : SetStatusResult γ :=
  if a.status = status ∧ a.state = state then
    { outcome := .returned none, asset := a, world := w, calls := [] }
  else if a.status ≠ status ∧ statusTransitionAllowed a.status status = false then
    { outcome := .returned (some (errInvalidStatusTransition T a.status status)),
      asset := a, world := w, calls := [] }
  else if T.stateAllowed status state = false then
    { outcome := .returned (some (errInvalidStateTransition T status state)),
      asset := a, world := w, calls := [] }
  else
    let a1 : Asset :=
      { a with status := status, state := state, prevStatus := a.status, prevState := a.state }
    match client with
    | none => { outcome := .panicked, asset := a1, world := w, calls := [] }
    | some c =>
      let r := c.SetAssetStatus a.name (T.statusString status) (T.stateString state)
        (T.StateDescription state) w
      match r.1 with
      | some err =>
        { outcome := .returned (some err), asset := a, world := r.2,
          calls := [ClientCall.SetAssetStatus a.name (T.statusString status)
            (T.stateString state) (T.StateDescription state)] }
      | none =>
        { outcome := .returned none, asset := a1, world := r.2,
          calls := [ClientCall.SetAssetStatus a.name (T.statusString status)
            (T.stateString state) (T.StateDescription state)] }

/-- The name of a status in the sample tables. -/
def sampleStatusString : AssetStatus → String
  | .Incomplete => "Incomplete"
  | .Unallocated => "Unallocated"
  | .Provisioning => "Provisioning"
  | .Commissioned => "Allocated"
  | .Cancelled => "Cancelled"
  | .Decommissioned => "Decommissioned"
  | .InMaintenance => "Maintenance"

/-- The name of a state in the sample tables. -/
def sampleStateString : AssetState → String
  | .Unknown => "Unknown"
  | .Discovered => "Discovered"
  | .Disappeared => "Disappeared"

/-- Sample tables, to evaluate `SetStatus` on concrete inputs: every state is
permitted for every status, except Disappeared for Incomplete (see
`TestSetStatusUnallowedState`) and Unknown for Decommissioned (the example of
the spec). -/
def sampleTables : AssetTables where
  statusString := sampleStatusString
  stateString := sampleStateString
  StateDescription := fun t => "node is " ++ sampleStateString t
  stateAllowed := fun s t =>
    !(s == AssetStatus.Incomplete && t == AssetState.Disappeared) &&
    !(s == AssetStatus.Decommissioned && t == AssetState.Unknown)

/-- A sample client without a state of its own: both operations fail when
`fails` is set. -/
def sampleClient (fails : Bool) : Client Unit where
  CreateAsset := fun _ _ w => (if fails then some (Errorf "test error") else none, w)
  SetAssetStatus := fun _ _ _ _ w => (if fails then some (Errorf "test failure") else none, w)

/-- The asset `foo` of `asset_test.go`: unallocated and discovered. -/
def sampleAssetFoo : Asset :=
  { name := "foo", status := AssetStatus.Unallocated, prevStatus := AssetStatus.Incomplete,
    state := AssetState.Discovered, prevState := AssetState.Unknown }

/-- What a call of `NewAsset` leaves: how it ended, the asset returned (if
any), the state of the client and the calls made to the client. -/
structure NewAssetResult (γ : Type) where
  outcome : Outcome
  asset : Option Asset
  world : γ
  calls : List ClientCall
deriving DecidableEq

/-- Modelled from the spec: `NewAsset` of `asset.go` is missing; it is what
`TestNewAsset`, `TestNewAssetCreateFailure` and `TestNewAssetSetStatusFailure`
expect: the client creates the asset with the name of the status Unallocated,
then records the status Unallocated and the state Discovered with the
description of that state; the asset returned has these, with Incomplete and
Unknown as previous status and state.  An error of the client is returned
and no asset is; a nil client panics. -/
def NewAsset {γ : Type} (T : AssetTables) (client : Option (Client γ)) (name : String)
    (w : γ) : NewAssetResult γ :=
  match client with
  | none => { outcome := .panicked, asset := none, world := w, calls := [] }
  | some c =>
    let r1 := c.CreateAsset name (T.statusString .Unallocated) w
    match r1.1 with
    | some err =>
      { outcome := .returned (some err), asset := none, world := r1.2,
        calls := [ClientCall.CreateAsset name (T.statusString .Unallocated)] }
    | none =>
      let r2 := c.SetAssetStatus name (T.statusString .Unallocated)
        (T.stateString .Discovered) (T.StateDescription .Discovered) r1.2
      match r2.1 with
      | some err =>
        { outcome := .returned (some err), asset := none, world := r2.2,
          calls := [ClientCall.CreateAsset name (T.statusString .Unallocated),
            ClientCall.SetAssetStatus name (T.statusString .Unallocated)
              (T.stateString .Discovered) (T.StateDescription .Discovered)] }
      | none =>
        { outcome := .returned none,
          asset := some { name := name, status := .Unallocated, prevStatus := .Incomplete,
                          state := .Discovered, prevState := .Unknown },
          world := r2.2,
          calls := [ClientCall.CreateAsset name (T.statusString .Unallocated),
            ClientCall.SetAssetStatus name (T.statusString .Unallocated)
              (T.stateString .Discovered) (T.StateDescription .Discovered)] }

/-- A sample client that keeps count of its calls and fails at the calls
whose numbers (from 0) are listed. -/
def sampleCountingClient (failAt : List Nat) : Client Nat where
  CreateAsset := fun _ _ n => (if n ∈ failAt then some (Errorf "test error") else none, n + 1)
  SetAssetStatus := fun _ _ _ _ n =>
    (if n ∈ failAt then some (Errorf "test error") else none, n + 1)

/-- The asset of `TestSetStatusUnallowedState`: incomplete and discovered. -/
def sampleAssetIncomplete : Asset :=
  { name := "foo", status := AssetStatus.Incomplete, prevStatus := AssetStatus.Incomplete,
    state := AssetState.Discovered, prevState := AssetState.Unknown }

/-- The loop of `logOutputAndReturnStatus` when there is a reader.  `lines`
are the tokens that the scanner still yields before `Scan` returns false,
`logged` the lines logged so far, and `ticks` the number of times the ticker
is served before the error channel delivers `errCh`: at each of them one
token is scanned and logged if there is one; when the error channel
delivers, what is left is scanned and logged and the value is returned. -/
def logOutputAndReturnStatus.loop (errCh : Option Error) :
    Nat → List String → List String → List String × Option Error
  | 0, lines, logged => (logged ++ lines, errCh)
  | ticks + 1, [], logged => logOutputAndReturnStatus.loop errCh ticks [] logged
  | ticks + 1, line :: lines, logged =>
    logOutputAndReturnStatus.loop errCh ticks lines (logged ++ [line])

/-- The helper `logOutputAndReturnStatus` with the `select` written out: a
nil reader makes it return what the error channel delivers; otherwise the
loop runs, the ticker being served `ticks` times before the error channel
delivers.  The result is the lines logged and the value returned. -/
def logOutputAndReturnStatus.select (r : Option (List String)) (ticks : Nat)
    (errCh : Option Error) : List String × Option Error :=
  match r with
  | none => ([], errCh)
  | some lines => logOutputAndReturnStatus.loop errCh ticks lines []

/-- A registry whose only node `bare` has a monitoring view and an inventory
view but no configuration view. -/
def sampleBare : List (String × Node) :=
  [("bare", { sampleNode "bare" "10.0.0.5" "service-master" AssetStatus.Unallocated
      AssetState.Discovered with Cfg := none })]

/-! ## An inventory that keeps the assets, for the end-to-end properties -/

/-- The state of the lifecycle collaborators: the assets the inventory holds
and the playbook operations that fail. -/
structure LifecycleWorld where
  assets : List Asset
  failCfg : List CfgOp := []
deriving DecidableEq, Repr

/-- The asset of a name in the inventory. -/
def findAsset (name : String) (assets : List Asset) : Option Asset :=
  assets.find? (fun a => a.name == name)

/-- The inventory after the asset of the name of `a` has become `a`. -/
def replaceAsset (a : Asset) (assets : List Asset) : List Asset :=
  assets.map (fun b => if b.name = a.name then a else b)

/-- The status and state that an operation of the inventory asks for: a
`SetAsset...` operation named after a status sets that status and keeps the
state, `SetAssetDiscovered` and `SetAssetDisappeared` set the state and keep
the status. -/
def lifecycleTarget (op : InvOp) (a : Asset) : AssetStatus × AssetState :=
  match op with
  | .AddAsset => (a.status, a.state)
  | .SetAssetDiscovered => (a.status, .Discovered)
  | .SetAssetDisappeared => (a.status, .Disappeared)
  | .SetAssetProvisioning => (.Provisioning, a.state)
  | .SetAssetCommissioned => (.Commissioned, a.state)
  | .SetAssetCancelled => (.Cancelled, a.state)
  | .SetAssetDecommissioned => (.Decommissioned, a.state)
  | .SetAssetInMaintenance => (.InMaintenance, a.state)
  | .SetAssetUnallocated => (.Unallocated, a.state)

/-- Modelled from the spec: the inventory subsystem behind `inventory.Subsys`
is missing; `AddAsset` creates the asset with `NewAsset`, and every other
operation is `SetStatus`, to the status or state the operation is named
after, on the asset of that name (an error when there is none).  The client
of the assets always succeeds. -/
def lifecycleInventory (op : InvOp) (name : String) (w : LifecycleWorld) :
    Option Error × LifecycleWorld :=
  match op with
  | .AddAsset =>
    match (NewAsset sampleTables (some (sampleClient false)) name ()).asset with
    | some a => (none, { w with assets := w.assets ++ [a] })
    | none => (some (Errorf "the asset could not be created"), w)
  | _ =>
    match findAsset name w.assets with
    | none => (some (Errorf ("the asset " ++ name ++ " doesn't exist")), w)
    | some a =>
      let r := Asset.SetStatus sampleTables (some (sampleClient false)) a
        (lifecycleTarget op a).1 (lifecycleTarget op a).2 ()
      match r.outcome with
      | .returned none => (none, { w with assets := replaceAsset r.asset w.assets })
      | .returned (some err) => (some err, w)
      | .panicked => (some (Errorf "the inventory panicked"), w)
      | .blocked => (some (Errorf "the inventory never returned"), w)

/-- The status and state of a node of the registry, read through its
inventory view: the view is a pointer to the asset that the inventory holds
under the name of the node, whose fields are read in the world. -/
def lifecycleAssetIs (p : Asset → Bool) (nodes : List (String × Node)) (w : LifecycleWorld)
    (name : String) : Except Error Bool :=
  match lookupNode name nodes with
  | none => .error (Errorf ("node with name " ++ name ++ " doesn't exists"))
  | some nd =>
    match nd.Inv with
    | none => .error (Errorf "no inventory view")
    | some _ =>
      match findAsset name w.assets with
      | none => .error (Errorf "no asset")
      | some a => .ok (p a)

/-- Modelled from the spec: the classification predicates of the registry
and the inventory subsystem are missing.  A master or a worker is a node
whose host descriptor is in that group; a discovered node is one whose asset
has state Discovered; a discovered and allocated node is one whose asset has
state Discovered and status Commissioned (`SetAssetCommissioned`: commissioned
aka allocated).  The inventory is `lifecycleInventory`; a playbook operation
fails exactly when the world lists it. -/
def lifecycleEnv : Env LifecycleWorld where
  ansibleMasterGroupName := "service-master"
  ansibleWorkerGroupName := "service-worker"
  ansibleDiscoverGroupName := "cluster-node"
  ansibleNodeNameHostVar := "node_name"
  ansibleNodeAddrHostVar := "node_addr"
  ansibleEtcdMasterAddrHostVar := "etcd_master_addr"
  ansibleEtcdMasterNameHostVar := "etcd_master_name"
  isPrint := fun c => decide (32 ≤ c.toNat ∧ c.toNat < 127)
  nodeNotExistsError := fun name => Errorf ("node with name " ++ name ++ " doesn't exists")
  nodeConfigNotExistsError := fun name =>
    Errorf ("the configuration info for node " ++ name ++ " doesn't exist")
  isMasterNode := fun nodes _ name =>
    sampleGroupIs (fun n => Errorf ("node with name " ++ n ++ " doesn't exists"))
      "service-master" nodes name
  isWorkerNode := fun nodes _ name =>
    sampleGroupIs (fun n => Errorf ("node with name " ++ n ++ " doesn't exists"))
      "service-worker" nodes name
  isDiscoveredNode := lifecycleAssetIs (fun a => a.state == AssetState.Discovered)
  isDiscoveredAndAllocatedNode := lifecycleAssetIs
    (fun a => a.state == AssetState.Discovered && a.status == AssetStatus.Commissioned)
  inventory := lifecycleInventory
  configuration := fun op _ _ w =>
    ((none, if op ∈ w.failCfg then some (Errorf "playbook failure") else none), w)
  getAsset := fun name w => findAsset name w.assets
  setGlobals := fun _ w => (none, w)

/-- A manager of the lifecycle environment over a registry, whose inventory
holds the assets that are the inventory views of the registry; the queue is
empty and no call has been made. -/
def lifecycleManager (nodes : List (String × Node)) : Manager LifecycleWorld :=
  { nodes := nodes, reqQ := [],
    world := { assets := nodes.filterMap (fun p => p.2.Inv) }, calls := [] }

/-- The event loop when every scan of the registry visits it in the order in
which the registry is kept, for at most the given number of turns. -/
def eventLoopInOrder (K : Env σ) : Nat → Manager σ → List (Event × Outcome) × Manager σ
  | 0, m => ([], m)
  | turns + 1, m =>
    match eventLoopStep K m.nodes m with
    | none => ([], m)
    | some (me, .panicked, m1) => ([(me, .panicked)], m1)
    | some (me, .blocked, m1) => ([(me, .blocked)], m1)
    | some (me, .returned err, m1) =>
      let r := eventLoopInOrder K turns m1
      ((me, .returned err) :: r.1, r.2)

/-- The nodes of the registry that are, at once, discovered and allocated,
and masters. -/
def allocatedMasters (K : Env σ) (m : Manager σ) : List String :=
  (m.nodes.filter (fun p =>
    K.isDiscoveredAndAllocatedNode m.nodes m.world p.1 == .ok true &&
    K.isMasterNode m.nodes m.world p.1 == .ok true)).map Prod.fst

/-- The presence snapshot of the node `n2-0` at the address `10.0.0.2`. -/
def sampleSnapshot2 : SubsysNode :=
  { label := "n2", serial := "0", mgmtAddr := "10.0.0.2" }

/-- The calls to the inventory among the calls made. -/
def inventoryCalls (calls : List Call) : List Call :=
  calls.filter (fun c => match c with
    | .inv _ _ => true
    | _ => false)

/-- A registry whose only node `n1` is in the master group, with a new asset:
unallocated and discovered. -/
def lifecycleFresh : List (String × Node) :=
  [("n1", { sampleNode "n1" "10.0.0.1" "service-master" AssetStatus.Unallocated
      AssetState.Discovered with Inv := some (sampleNewAsset "n1") })]

/-- The commission of `n1`, end to end: the lifecycle manager over
`lifecycleFresh` with only `nodeCommissioned(n1)` queued, run for at most
three turns. -/
def commissionRun : List (Event × Outcome) × Manager LifecycleWorld :=
  eventLoop lifecycleEnv (List.replicate 3 lifecycleFresh)
    { lifecycleManager lifecycleFresh with reqQ := [.nodeCommissioned "n1" "v=1"] }

/-- The decommission of the master `n1` of the sample registry of two
commissioned nodes, run for at most three turns; `ord` is the order of the
scans. -/
def decommissionMasterFirst (ord : List (String × Node)) :
    List (Event × Outcome) × Manager LifecycleWorld :=
  eventLoop lifecycleEnv (List.replicate 3 ord)
    { lifecycleManager sampleTwoNodes with reqQ := [.nodeDecommissioned "n1" "v=1"] }

/-- After `decommissionMasterFirst`, the decommission of the worker `n2`. -/
def decommissionWorker (ord : List (String × Node)) :
    List (Event × Outcome) × Manager LifecycleWorld :=
  eventLoop lifecycleEnv (List.replicate 3 ord)
    { (decommissionMasterFirst ord).2 with reqQ := [.nodeDecommissioned "n2" "v=1"] }

/-- After `decommissionWorker`, the decommission of the master `n1` again. -/
def decommissionMasterLast (ord : List (String × Node)) :
    List (Event × Outcome) × Manager LifecycleWorld :=
  eventLoop lifecycleEnv (List.replicate 3 ord)
    { (decommissionWorker ord).2 with reqQ := [.nodeDecommissioned "n1" "v=1"] }

/-- From an empty registry and an empty inventory: the nodes `n1-0` and
`n2-0` are discovered and `n1-0` is commissioned; the loop runs until the
queue is empty. -/
def firstMasterRun : List (Event × Outcome) × Manager LifecycleWorld :=
  eventLoopInOrder lifecycleEnv 10
    { lifecycleManager [] with
      reqQ := [.nodeDiscovered sampleSnapshot, .nodeDiscovered sampleSnapshot2,
               .nodeCommissioned "n1-0" "v=1"] }

/-- After `firstMasterRun`: a commission of `n2-0` and a maintenance of
`n1-0` are queued, in this order; the loop runs until the queue is empty. -/
def secondMasterRun : List (Event × Outcome) × Manager LifecycleWorld :=
  eventLoopInOrder lifecycleEnv 10
    { firstMasterRun.2 with
      reqQ := [.nodeCommissioned "n2-0" "v=1", .nodeInMaintenance "n1-0" "v=1"] }

/-- A full queue: as many pending events as the channel `reqQ` holds, each a
request to set the globals. -/
def sampleFullQueue : List Event :=
  List.replicate reqQCapacity (.setGlobals "v=1")

/-- The sample manager over the given registry, with a full queue. -/
def sampleFullManager (nodes : List (String × Node)) : Manager SampleWorld :=
  { sampleManager nodes [] [] with reqQ := sampleFullQueue }

/-! ## Lemmas on texts -/

theorem Errorf_text (d : String) : (Errorf d).Error = d := by
  simp [Errorf, Error.Error]

theorem strContains_mid (a b c : String) : strContains (a ++ b ++ c) b :=
  ⟨a.data, c.data, by simp [String.data_append]⟩

theorem strContains_left (a b : String) : strContains (a ++ b) a :=
  ⟨[], b.data, by simp [String.data_append]⟩

theorem strContains_right (a b : String) : strContains (a ++ b) b :=
  ⟨a.data, [], by simp [String.data_append]⟩

theorem strContains_trans {a b c : String} (h1 : strContains a b) (h2 : strContains b c) :
    strContains a c := by
  obtain ⟨p1, q1, e1⟩ := h1
  obtain ⟨p2, q2, e2⟩ := h2
  exact ⟨p1 ++ p2, q2 ++ q1, by rw [← e1, ← e2]; simp [List.append_assoc]⟩

theorem flatMap_appendEscapedRune_plain (isPrint : Char → Bool) :
    ∀ l : List Char, (∀ c ∈ l, plainChar isPrint c) →
      l.flatMap (appendEscapedRune isPrint) = l
  | [], _ => rfl
  | c :: t, h => by
    have hc := h c (List.mem_cons_self c t)
    have ht := flatMap_appendEscapedRune_plain isPrint t
      (fun d hd => h d (List.mem_cons_of_mem c hd))
    simp [List.flatMap_cons, appendEscapedRune, hc.1, hc.2.1, hc.2.2, ht]

theorem strContains_goQuote (isPrint : Char → Bool) (s : String)
    (h : ∀ c ∈ s.data, plainChar isPrint c) : strContains (goQuote isPrint s) s := by
  refine ⟨[dquote], [dquote], ?_⟩
  simp [goQuote, flatMap_appendEscapedRune_plain isPrint s.data h]

/-! ## Lemmas on the two scans of the registry -/

theorem workerRemains_of_mem (K : Env σ) (m : Manager σ) (N : String) :
    ∀ ord : List (String × Node),
      (∃ M nd, (M, nd) ∈ ord ∧ M ≠ N ∧
        K.isDiscoveredAndAllocatedNode m.nodes m.world M = .ok true ∧
        K.isWorkerNode m.nodes m.world M = .ok true) →
      nodeDecommissioned.workerRemains K m N ord = true
  | [], h => by
    obtain ⟨M, nd, hmem, _⟩ := h
    cases hmem
  | (name, node) :: rest, h => by
    obtain ⟨M, nd, hmem, hne, hda, hw⟩ := h
    rw [List.mem_cons] at hmem
    by_cases hMn : M = name
    · subst hMn
      simp [nodeDecommissioned.workerRemains, hne, hda, hw]
    · have hrest : (M, nd) ∈ rest := by
        rcases hmem with heq | hin
        · exact absurd (congrArg Prod.fst heq) hMn
        · exact hin
      have ih := workerRemains_of_mem K m N rest ⟨M, nd, hrest, hne, hda, hw⟩
      unfold nodeDecommissioned.workerRemains
      split
      · exact ih
      · split
        · exact ih
        · exact ih
        · split
          · exact ih
          · rfl
          · exact ih

theorem workerRemains_false (K : Env σ) (m : Manager σ) (N : String) :
    ∀ ord : List (String × Node),
      (∀ M nd, (M, nd) ∈ ord → M ≠ N →
        ¬ (K.isDiscoveredAndAllocatedNode m.nodes m.world M = .ok true ∧
           K.isWorkerNode m.nodes m.world M = .ok true)) →
      nodeDecommissioned.workerRemains K m N ord = false
  | [], _ => rfl
  | (name, node) :: rest, h => by
    have ih := workerRemains_false K m N rest
      (fun M nd hmem => h M nd (List.mem_cons_of_mem _ hmem))
    have hhead := h name node (List.mem_cons_self _ _)
    unfold nodeDecommissioned.workerRemains
    split
    · exact ih
    · rename_i hne
      split
      · exact ih
      · exact ih
      · rename_i hda
        split
        · exact ih
        · rename_i hw
          exact absurd ⟨hda, hw⟩ (hhead hne)
        · exact ih

theorem roleScan_cons_skip (K : Env σ) (m : Manager σ) (B : String) (p : String × Node)
    (rest : List (String × Node)) (h : ¬ masterCandidate K m B p) :
    nodeConfigure.roleScan K m B (p :: rest) = nodeConfigure.roleScan K m B rest := by
  obtain ⟨name, node⟩ := p
  unfold masterCandidate at h
  conv_lhs => unfold nodeConfigure.roleScan
  split
  · rfl
  · rename_i hne
    split
    · rfl
    · rfl
    · rename_i hda
      split
      · rfl
      · rfl
      · rename_i hm
        exact absurd ⟨hne, hda, hm⟩ h

theorem roleScan_cons_hit (K : Env σ) (m : Manager σ) (B : String) (p : String × Node)
    (rest : List (String × Node)) (h : masterCandidate K m B p) :
    nodeConfigure.roleScan K m B (p :: rest) =
      match p.2.Mon with
      | none => .panicked
      | some mon =>
        match p.2.Cfg with
        | none => .panicked
        | some cfg => .done K.ansibleWorkerGroupName mon.mgmtAddr cfg.GetTag := by
  obtain ⟨name, node⟩ := p
  obtain ⟨hne, hda, hm⟩ := h
  simp only [] at hne hda hm
  conv_lhs => unfold nodeConfigure.roleScan
  simp [hne, hda, hm]

theorem roleScan_none (K : Env σ) (m : Manager σ) (B : String) :
    ∀ ord : List (String × Node), (∀ p ∈ ord, ¬ masterCandidate K m B p) →
      nodeConfigure.roleScan K m B ord = .done K.ansibleMasterGroupName "" ""
  | [], _ => rfl
  | p :: rest, h => by
    rw [roleScan_cons_skip K m B p rest (h p (List.mem_cons_self _ _))]
    exact roleScan_none K m B rest (fun q hq => h q (List.mem_cons_of_mem _ hq))

theorem roleScan_done_of_candidate (K : Env σ) (m : Manager σ) (B : String) :
    ∀ ord : List (String × Node), (∃ p ∈ ord, masterCandidate K m B p) →
      ∀ g a nm, nodeConfigure.roleScan K m B ord = .done g a nm →
        ∃ p ∈ ord, masterCandidate K m B p ∧ ∃ mon cfg, p.2.Mon = some mon ∧
          p.2.Cfg = some cfg ∧ g = K.ansibleWorkerGroupName ∧ a = mon.mgmtAddr ∧
          nm = cfg.tag
  | [], h => by
    obtain ⟨p, hp, _⟩ := h
    cases hp
  | q :: rest, h => by
    intro g a nm hdone
    by_cases hq : masterCandidate K m B q
    · rw [roleScan_cons_hit K m B q rest hq] at hdone
      cases hmon : q.2.Mon with
      | none => simp [hmon] at hdone
      | some mon =>
        cases hcfg : q.2.Cfg with
        | none => simp [hmon, hcfg] at hdone
        | some cfg =>
          simp [hmon, hcfg, AnsibleHost.GetTag] at hdone
          exact ⟨q, List.mem_cons_self _ _, hq, mon, cfg, hmon, hcfg,
            hdone.1.symm, hdone.2.1.symm, hdone.2.2.symm⟩
    · rw [roleScan_cons_skip K m B q rest hq] at hdone
      have hrest : ∃ p ∈ rest, masterCandidate K m B p := by
        obtain ⟨p, hp, hcand⟩ := h
        rcases List.mem_cons.1 hp with heq | hin
        · exact absurd (heq ▸ hcand) hq
        · exact ⟨p, hin, hcand⟩
      obtain ⟨p, hp, rest1⟩ := roleScan_done_of_candidate K m B rest hrest g a nm hdone
      exact ⟨p, List.mem_cons_of_mem _ hp, rest1⟩

theorem roleScan_not_panicked (K : Env σ) (m : Manager σ) (B : String) :
    ∀ ord : List (String × Node),
      (∀ p ∈ ord, masterCandidate K m B p → p.2.Mon ≠ none ∧ p.2.Cfg ≠ none) →
      nodeConfigure.roleScan K m B ord ≠ .panicked
  | [], _ => by simp [nodeConfigure.roleScan]
  | q :: rest, h => by
    by_cases hq : masterCandidate K m B q
    · rw [roleScan_cons_hit K m B q rest hq]
      have hv := h q (List.mem_cons_self _ _) hq
      cases hmon : q.2.Mon with
      | none => exact absurd hmon hv.1
      | some mon =>
        cases hcfg : q.2.Cfg with
        | none => exact absurd hcfg hv.2
        | some cfg => simp
    · rw [roleScan_cons_skip K m B q rest hq]
      exact roleScan_not_panicked K m B rest (fun p hp => h p (List.mem_cons_of_mem _ hp))

/-! ## Lemmas on host descriptors and on `nodeConfigure.process` -/

theorem getVarList_setVarList_same (k v : String) :
    ∀ l : List (String × String), getVarList k (setVarList k v l) = some v
  | [] => by simp [setVarList, getVarList]
  | (k1, v1) :: t => by
    by_cases h : k1 = k
    · simp [setVarList, getVarList, h]
    · simp [setVarList, getVarList, h, getVarList_setVarList_same k v t]

theorem getVarList_setVarList_other (k k2 v : String) (hne : k2 ≠ k) :
    ∀ l : List (String × String), getVarList k (setVarList k2 v l) = getVarList k l
  | [] => by simp [setVarList, getVarList, hne]
  | (k1, v1) :: t => by
    by_cases h : k1 = k2
    · subst h
      simp [setVarList, getVarList, hne]
    · by_cases h2 : k1 = k
      · subst h2
        simp [setVarList, getVarList, h]
      · simp [setVarList, getVarList, h, h2, getVarList_setVarList_other k k2 v hne t]

theorem assignRole_group (K : Env σ) (h : AnsibleHost) (g a nm : String) :
    (nodeConfigure.assignRole K h g a nm).group = g := rfl

theorem assignRole_name (K : Env σ) (h : AnsibleHost) (g a nm : String) :
    (nodeConfigure.assignRole K h g a nm).getVar K.ansibleEtcdMasterNameHostVar = some nm := by
  simp [nodeConfigure.assignRole, AnsibleHost.getVar, AnsibleHost.SetVar,
    getVarList_setVarList_same]

theorem assignRole_addr (K : Env σ) (h : AnsibleHost) (g a nm : String)
    (hkeys : K.ansibleEtcdMasterAddrHostVar ≠ K.ansibleEtcdMasterNameHostVar) :
    (nodeConfigure.assignRole K h g a nm).getVar K.ansibleEtcdMasterAddrHostVar = some a := by
  simp only [nodeConfigure.assignRole, AnsibleHost.getVar, AnsibleHost.SetVar,
    AnsibleHost.SetGroup]
  rw [getVarList_setVarList_other _ _ _ (Ne.symm hkeys), getVarList_setVarList_same]

theorem logOutputAndReturnStatus_status (r : Option (List String)) (v : Option Error) :
    (logOutputAndReturnStatus r v).2 = v := by
  cases r <;> rfl

theorem runPlaybook_eq (K : Env σ) (op : CfgOp) (hosts : List AnsibleHost) (V : String)
    (m : Manager σ) :
    runPlaybook K op hosts V m =
      ((K.configuration op hosts V m.world).1.2,
        { nodes := m.nodes, reqQ := m.reqQ, world := (K.configuration op hosts V m.world).2,
          calls := m.calls ++ [Call.cfg op hosts V] }) := by
  simp [runPlaybook, logOutputAndReturnStatus_status]

/-- What `nodeConfigure.process` does once the loop has left `g`, `a` and
`nm`: the host descriptor is written, Configure runs on it, and one inventory
call follows, `SetAssetUnallocated` or `SetAssetCommissioned`. -/
theorem nodeConfigure_done (K : Env σ) (ord : List (String × Node)) (N V : String)
    (m : Manager σ) (node : Node) (h0 : AnsibleHost) (g a nm : String)
    (hfind : findNode K m N = .ok node) (hcfg : node.Cfg = some h0)
    (hscan : nodeConfigure.roleScan K m N ord = .done g a nm) :
    (nodeConfigure.process K ord N V m).1 ≠ .panicked ∧
    (nodeConfigure.process K ord N V m).2.nodes =
      updateNode N (fun nd => { nd with Cfg := some (nodeConfigure.assignRole K h0 g a nm) })
        m.nodes ∧
    (nodeConfigure.process K ord N V m).2.reqQ = m.reqQ ∧
    ∃ op, (nodeConfigure.process K ord N V m).2.calls =
      m.calls ++ [Call.cfg .Configure [nodeConfigure.assignRole K h0 g a nm] V,
        Call.inv op N] := by
  unfold nodeConfigure.process
  simp only [hfind, hcfg, hscan, runPlaybook_eq, callInventory]
  cases hres : (K.configuration .Configure [nodeConfigure.assignRole K h0 g a nm] V m.world).1.2 with
  | none =>
    cases hinv : (K.inventory .SetAssetCommissioned N
        (K.configuration .Configure [nodeConfigure.assignRole K h0 g a nm] V m.world).2).1 with
    | none =>
      exact ⟨by simp [hinv], by simp [hinv], by simp [hinv], InvOp.SetAssetCommissioned, by simp [hinv]⟩
    | some e1 =>
      exact ⟨by simp [hinv], by simp [hinv], by simp [hinv], InvOp.SetAssetCommissioned, by simp [hinv]⟩
  | some e =>
    cases hinv : (K.inventory .SetAssetUnallocated N
        (K.configuration .Configure [nodeConfigure.assignRole K h0 g a nm] V m.world).2).1 with
    | none =>
      exact ⟨by simp [hinv], by simp [hinv], by simp [hinv], InvOp.SetAssetUnallocated, by simp [hinv]⟩
    | some e1 =>
      exact ⟨by simp [hinv], by simp [hinv], by simp [hinv], InvOp.SetAssetUnallocated, by simp [hinv]⟩

theorem nodeConfigure_panicked (K : Env σ) (ord : List (String × Node)) (N V : String)
    (m : Manager σ) (node : Node) (h0 : AnsibleHost)
    (hfind : findNode K m N = .ok node) (hcfg : node.Cfg = some h0)
    (hscan : nodeConfigure.roleScan K m N ord = .panicked) :
    nodeConfigure.process K ord N V m = (.panicked, m) := by
  unfold nodeConfigure.process
  simp only [hfind, hcfg, hscan]

theorem nodeConfigure_congr (K : Env σ) (ord1 ord2 : List (String × Node)) (N V : String)
    (m : Manager σ)
    (h : nodeConfigure.roleScan K m N ord1 = nodeConfigure.roleScan K m N ord2) :
    nodeConfigure.process K ord1 N V m = nodeConfigure.process K ord2 N V m := by
  simp only [nodeConfigure.process, h]

theorem roleScan_unique (K : Env σ) (m : Manager σ) (B : String) (ord : List (String × Node))
    (p : String × Node) (mon : SubsysNode) (cfg : AnsibleHost)
    (hmem : p ∈ ord) (hcand : masterCandidate K m B p)
    (honly : ∀ q ∈ ord, masterCandidate K m B q → q = p)
    (hmon : p.2.Mon = some mon) (hcfg : p.2.Cfg = some cfg) :
    nodeConfigure.roleScan K m B ord = .done K.ansibleWorkerGroupName mon.mgmtAddr cfg.tag := by
  have hnp : nodeConfigure.roleScan K m B ord ≠ .panicked :=
    roleScan_not_panicked K m B ord (fun q hq hqc => by
      rw [honly q hq hqc]; simp [hmon, hcfg])
  cases hscan : nodeConfigure.roleScan K m B ord with
  | panicked => exact absurd hscan hnp
  | done g a nm =>
    obtain ⟨q, hq, hqc, mon1, cfg1, hmon1, hcfg1, hg, ha, hnm⟩ :=
      roleScan_done_of_candidate K m B ord ⟨p, hmem, hcand⟩ g a nm hscan
    rw [honly q hq hqc] at hmon1 hcfg1
    rw [hmon] at hmon1
    rw [hcfg] at hcfg1
    cases hmon1
    cases hcfg1
    rw [hg, ha, hnm]

/-! ## Decommissioning a master while a worker remains (C1) -/

set_option maxRecDepth 100000 in
/-- C1, as stated, fails: the master `n"1` has a commissioned worker `n2`
left, decommissioning it is refused and nothing is mutated, but the text of
the error shows the name as `%q` prints it, `"n\"1"`, in which the name
itself does not occur. -/
theorem c1_counterexample_quoted_name :
    sampleEnv.isMasterNode sampleQuoteNodes (sampleManager sampleQuoteNodes [] []).world
        sampleQuoteName = .ok true ∧
    sampleEnv.isDiscoveredAndAllocatedNode sampleQuoteNodes
        (sampleManager sampleQuoteNodes [] []).world "n2" = .ok true ∧
    sampleEnv.isWorkerNode sampleQuoteNodes (sampleManager sampleQuoteNodes [] []).world
        "n2" = .ok true ∧
    ∃ err, nodeDecommissioned.process sampleEnv sampleQuoteNodes sampleQuoteName ""
        (sampleManager sampleQuoteNodes [] []) =
          (.returned (some err), sampleManager sampleQuoteNodes [] []) ∧
      ¬ strContains err.Error sampleQuoteName := by
  refine ⟨by decide, by decide, by decide, ?_⟩
  refine ⟨Errorf (goQuote sampleEnv.isPrint sampleQuoteName ++
    " is a master node and it can only be decommissioned after all worker nodes have been decommissioned"),
    by decide, by decide⟩

/-- C1 (amended): when `isMasterNode(N)` is true and another node of the
registry is discovered and allocated, and a worker, then whatever the order of
the scan `nodeDecommissioned.process` returns the error whose text is `N` as
`%q` prints it followed by ` is a master node and it can only be
decommissioned after all worker nodes have been decommissioned`, and the
manager is left as it was: no call to the inventory (so no
`SetAssetCancelled`), nothing enqueued, the registry unchanged.  The text
contains the quoted name and the sentence, and it contains `N` itself when
`%q` prints every character of `N` as it is. -/
theorem c1_master_with_worker_rejected (K : Env σ) (ord : List (String × Node))
    (N V : String) (m : Manager σ)
    (hord : ord.Perm m.nodes)
    (hmaster : K.isMasterNode m.nodes m.world N = .ok true)
    (hworker : ∃ M nd, (M, nd) ∈ m.nodes ∧ M ≠ N ∧
      K.isDiscoveredAndAllocatedNode m.nodes m.world M = .ok true ∧
      K.isWorkerNode m.nodes m.world M = .ok true) :
    ∃ err, nodeDecommissioned.process K ord N V m = (.returned (some err), m) ∧
      err.Error = goQuote K.isPrint N ++
        " is a master node and it can only be decommissioned after all worker nodes have been decommissioned" ∧
      strContains err.Error (goQuote K.isPrint N) ∧
      strContains err.Error
        "can only be decommissioned after all worker nodes have been decommissioned" ∧
      ((∀ c ∈ N.data, plainChar K.isPrint c) → strContains err.Error N) := by
  have hscan : nodeDecommissioned.workerRemains K m N ord = true := by
    obtain ⟨M, nd, hmem, hrest⟩ := hworker
    exact workerRemains_of_mem K m N ord ⟨M, nd, (hord.mem_iff).2 hmem, hrest⟩
  refine ⟨Errorf (goQuote K.isPrint N ++
    " is a master node and it can only be decommissioned after all worker nodes have been decommissioned"),
    ?_, Errorf_text _, ?_, ?_, ?_⟩
  · simp [nodeDecommissioned.process, hmaster, hscan]
  · rw [Errorf_text]; exact strContains_left _ _
  · rw [Errorf_text]
    have hsplit : (" is a master node and it can only be decommissioned after all worker nodes have been decommissioned" : String)
        = " is a master node and it " ++
          "can only be decommissioned after all worker nodes have been decommissioned" := by
      decide
    rw [hsplit]
    exact strContains_trans (strContains_right _ _) (strContains_right _ _)
  · intro hplain
    rw [Errorf_text]
    exact strContains_trans (strContains_left _ _) (strContains_goQuote K.isPrint N hplain)

/-- C1 (amended), at the sample registry of a master `n1` and a worker `n2`,
scanned in reverse: the refusal leaves the manager as it was and its text
contains the name `n1`. -/
theorem c1_master_with_worker_rejected_witness :
    ∃ err, nodeDecommissioned.process sampleEnv sampleTwoNodes.reverse "n1" ""
        (sampleManager sampleTwoNodes [] []) =
          (.returned (some err), sampleManager sampleTwoNodes [] []) ∧
      strContains err.Error
        "can only be decommissioned after all worker nodes have been decommissioned" ∧
      strContains err.Error "n1" :=
  match c1_master_with_worker_rejected sampleEnv sampleTwoNodes.reverse "n1" ""
    (sampleManager sampleTwoNodes [] []) (List.reverse_perm _) (by decide)
    ⟨"n2", _, List.mem_cons_of_mem _ (List.mem_cons_self _ _), by decide, by decide,
      by decide⟩ with
  | ⟨err, hres, _, _, hphrase, hname⟩ => ⟨err, hres, hphrase, hname (by decide)⟩

/-! ## Commissioning a node that is not discovered (C2) -/

/-- C2: when `isDiscoveredNode(N)` returns `(false, nil)`,
`nodeCommissioned.process` returns the error `node <N as %q prints it> has
disappeared from monitoring subsystem, it can't be commissioned. Please check
node's network reachability`, which names the node and its network
reachability; when `isDiscoveredNode(N)` returns an error, it returns that
error.  In both cases the manager is left as it was: no inventory call is
made (so no `SetAssetProvisioning`) and nothing is enqueued. -/
theorem c2_commission_refused (K : Env σ) (N V : String) (m : Manager σ) :
    (K.isDiscoveredNode m.nodes m.world N = .ok false →
      ∃ err, nodeCommissioned.process K N V m = (.returned (some err), m) ∧
        err.Error = "node " ++ goQuote K.isPrint N ++
          " has disappeared from monitoring subsystem, it can't be commissioned. Please check node's network reachability" ∧
        strContains err.Error (goQuote K.isPrint N) ∧
        strContains err.Error "has disappeared from monitoring subsystem" ∧
        strContains err.Error "network reachability") ∧
    (∀ e, K.isDiscoveredNode m.nodes m.world N = .error e →
      nodeCommissioned.process K N V m = (.returned (some e), m)) := by
  constructor
  · intro h
    refine ⟨Errorf ("node " ++ goQuote K.isPrint N ++
      " has disappeared from monitoring subsystem, it can't be commissioned. Please check node's network reachability"),
      ?_, Errorf_text _, ?_, ?_, ?_⟩
    · simp [nodeCommissioned.process, h]
    · rw [Errorf_text]; exact strContains_mid _ _ _
    · rw [Errorf_text]
      have hsplit : (" has disappeared from monitoring subsystem, it can't be commissioned. Please check node's network reachability" : String)
          = " " ++ "has disappeared from monitoring subsystem" ++
            ", it can't be commissioned. Please check node's network reachability" := by
        decide
      rw [hsplit]
      exact strContains_trans (strContains_right _ _) (strContains_mid _ _ _)
    · rw [Errorf_text]
      have hsplit : (" has disappeared from monitoring subsystem, it can't be commissioned. Please check node's network reachability" : String)
          = " has disappeared from monitoring subsystem, it can't be commissioned. Please check node's " ++
            "network reachability" := by
        decide
      rw [hsplit]
      exact strContains_trans (strContains_right _ _) (strContains_right _ _)
  · intro e h
    simp [nodeCommissioned.process, h]

/-- C2, at a registry whose node `n1` has disappeared, for `n1` and for a
name `ghost` that is not in the registry. -/
theorem c2_commission_refused_witness :
    (∃ err, nodeCommissioned.process sampleEnv "n1" "" (sampleManager sampleDisappeared [] []) =
        (.returned (some err), sampleManager sampleDisappeared [] []) ∧
      err.Error = "node " ++ goQuote sampleEnv.isPrint "n1" ++
        " has disappeared from monitoring subsystem, it can't be commissioned. Please check node's network reachability" ∧
      strContains err.Error (goQuote sampleEnv.isPrint "n1") ∧
      strContains err.Error "has disappeared from monitoring subsystem" ∧
      strContains err.Error "network reachability")
    ∧ nodeCommissioned.process sampleEnv "ghost" "" (sampleManager sampleDisappeared [] []) =
        (.returned (some (sampleEnv.nodeNotExistsError "ghost")),
          sampleManager sampleDisappeared [] []) :=
  ⟨(c2_commission_refused sampleEnv "n1" "" (sampleManager sampleDisappeared [] [])).1
      (by decide),
   (c2_commission_refused sampleEnv "ghost" "" (sampleManager sampleDisappeared [] [])).2
      _ (by decide)⟩

/-! ## Commissioning a discovered node (C6) -/

set_option maxRecDepth 100000 in
/-- C6, as stated, fails: the node `n1` is discovered,
`SetAssetProvisioning(n1)` returns nil and the queue holds the 100 events
that the channel can hold.  `nodeCommissioned.process` makes the call and is
then stopped at the send of the follow-up: it does not return nil, and the
queue is left as it was, without a `nodeConfigure`. -/
theorem c6_full_queue_counterexample :
    sampleEnv.isDiscoveredNode (sampleFullManager sampleFresh).nodes
        (sampleFullManager sampleFresh).world "n1" = .ok true ∧
    (sampleEnv.inventory .SetAssetProvisioning "n1"
        (sampleFullManager sampleFresh).world).1 = none ∧
    (sampleFullManager sampleFresh).reqQ.length = 100 ∧
    nodeCommissioned.process sampleEnv "n1" "v=1" (sampleFullManager sampleFresh) =
      (.blocked,
        { nodes := sampleFresh
          reqQ := sampleFullQueue
          world := { failInv := [], failCfg := [] }
          calls := [Call.inv .SetAssetProvisioning "n1"] }) ∧
    (nodeCommissioned.process sampleEnv "n1" "v=1" (sampleFullManager sampleFresh)).1 ≠
      .returned none ∧
    (nodeCommissioned.process sampleEnv "n1" "v=1" (sampleFullManager sampleFresh)).2.reqQ ≠
      (sampleFullManager sampleFresh).reqQ ++ [Event.nodeConfigure "n1" "v=1"] := by
  decide

/-- C6, amended: when `isDiscoveredNode(N)` returns `(true, nil)` and
`SetAssetProvisioning(N)` returns nil, then, if the queue holds fewer events
than the channel can hold (100), `nodeCommissioned.process` returns nil and
leaves the manager with exactly one more call, `SetAssetProvisioning(N)` (no
operation of the configuration subsystem), and exactly one more event at the
tail of the queue, `nodeConfigure` with the same `N` and the same extra-vars;
the registry is not touched.  If the queue is full, process makes the same
one call and is stopped at the send: it never returns and the queue is as it
was. -/
theorem c6_commission_accepted (K : Env σ) (N V : String) (m : Manager σ)
    (hdisc : K.isDiscoveredNode m.nodes m.world N = .ok true)
    (hinv : (K.inventory .SetAssetProvisioning N m.world).1 = none) :
    (m.reqQ.length < reqQCapacity →
      nodeCommissioned.process K N V m =
        (.returned none,
          { nodes := m.nodes
            reqQ := m.reqQ ++ [Event.nodeConfigure N V]
            world := (K.inventory .SetAssetProvisioning N m.world).2
            calls := m.calls ++ [Call.inv .SetAssetProvisioning N] })) ∧
    (reqQCapacity ≤ m.reqQ.length →
      nodeCommissioned.process K N V m =
        (.blocked,
          { nodes := m.nodes
            reqQ := m.reqQ
            world := (K.inventory .SetAssetProvisioning N m.world).2
            calls := m.calls ++ [Call.inv .SetAssetProvisioning N] })) := by
  refine ⟨fun hroom => ?_, fun hfull => ?_⟩
  · simp [nodeCommissioned.process, hdisc, callInventory, hinv, enqueue, hroom]
  · simp [nodeCommissioned.process, hdisc, callInventory, hinv, enqueue, Nat.not_lt.2 hfull]

set_option maxRecDepth 100000 in
/-- C6, at a registry whose node `n1` is discovered and unallocated, with an
empty queue and with a full queue. -/
theorem c6_commission_accepted_witness :
    nodeCommissioned.process sampleEnv "n1" "v=1" (sampleManager sampleFresh [] []) =
      (.returned none,
        { nodes := sampleFresh
          reqQ := [Event.nodeConfigure "n1" "v=1"]
          world := { failInv := [], failCfg := [] }
          calls := [Call.inv .SetAssetProvisioning "n1"] }) ∧
    nodeCommissioned.process sampleEnv "n1" "v=1" (sampleFullManager sampleFresh) =
      (.blocked,
        { nodes := sampleFresh
          reqQ := sampleFullQueue
          world := { failInv := [], failCfg := [] }
          calls := [Call.inv .SetAssetProvisioning "n1"] }) :=
  ⟨(c6_commission_accepted sampleEnv "n1" "v=1" (sampleManager sampleFresh [] [])
      (by decide) (by decide)).1 (by decide),
   (c6_commission_accepted sampleEnv "n1" "v=1" (sampleFullManager sampleFresh)
      (by decide) (by decide)).2 (by decide)⟩

/-! ## Decommissioning a node that no worker holds back (C7) -/

set_option maxRecDepth 100000 in
/-- C7, as stated, fails: `n2` is a registered node that is not a master,
`SetAssetCancelled(n2)` returns nil and the queue holds the 100 events that
the channel can hold.  `nodeDecommissioned.process` makes the call and is
then stopped at the send of the follow-up: it does not return nil, and no
`nodeCleanup` is added to the queue. -/
theorem c7_full_queue_counterexample :
    sampleEnv.isMasterNode (sampleFullManager sampleTwoNodes).nodes
        (sampleFullManager sampleTwoNodes).world "n2" = .ok false ∧
    (sampleEnv.inventory .SetAssetCancelled "n2"
        (sampleFullManager sampleTwoNodes).world).1 = none ∧
    (sampleFullManager sampleTwoNodes).reqQ.length = 100 ∧
    nodeDecommissioned.process sampleEnv sampleTwoNodes "n2" "v=1"
        (sampleFullManager sampleTwoNodes) =
      (.blocked,
        { nodes := sampleTwoNodes
          reqQ := sampleFullQueue
          world := { failInv := [], failCfg := [] }
          calls := [Call.inv .SetAssetCancelled "n2"] }) ∧
    (nodeDecommissioned.process sampleEnv sampleTwoNodes "n2" "v=1"
        (sampleFullManager sampleTwoNodes)).1 ≠ .returned none ∧
    (nodeDecommissioned.process sampleEnv sampleTwoNodes "n2" "v=1"
        (sampleFullManager sampleTwoNodes)).2.reqQ ≠
      (sampleFullManager sampleTwoNodes).reqQ ++ [Event.nodeCleanup "n2" "v=1"] := by
  decide

/-- C7, amended: when `isMasterNode(N)` returns `(b, nil)` and either `b` is
false or no other node of the registry is both discovered and allocated, and
a worker (a node whose check fails does not count), then whatever the order
of the scan `nodeDecommissioned.process` makes exactly one call,
`SetAssetCancelled(N)`; if that call returns nil and the queue holds fewer
events than the channel can hold (100), process returns nil and exactly one
event, `nodeCleanup` with the same `N` and extra-vars, is added at the tail of
the queue; if the call returns nil and the queue is full, process is stopped
at the send: it never returns and the queue is as it was; if the call returns
an error, process returns it and the queue is unchanged.  For a node that is
not a master nothing is asked of the other nodes. -/
theorem c7_decommission_accepted (K : Env σ) (ord : List (String × Node))
    (N V : String) (m : Manager σ) (b : Bool)
    (hord : ord.Perm m.nodes)
    (hmaster : K.isMasterNode m.nodes m.world N = .ok b)
    (hfree : b = false ∨ ∀ M nd, (M, nd) ∈ m.nodes → M ≠ N →
      ¬ (K.isDiscoveredAndAllocatedNode m.nodes m.world M = .ok true ∧
         K.isWorkerNode m.nodes m.world M = .ok true)) :
    (nodeDecommissioned.process K ord N V m).2.calls =
        m.calls ++ [Call.inv .SetAssetCancelled N] ∧
    (nodeDecommissioned.process K ord N V m).2.nodes = m.nodes ∧
    ((K.inventory .SetAssetCancelled N m.world).1 = none →
      m.reqQ.length < reqQCapacity →
      nodeDecommissioned.process K ord N V m =
        (.returned none,
          { nodes := m.nodes
            reqQ := m.reqQ ++ [Event.nodeCleanup N V]
            world := (K.inventory .SetAssetCancelled N m.world).2
            calls := m.calls ++ [Call.inv .SetAssetCancelled N] })) ∧
    ((K.inventory .SetAssetCancelled N m.world).1 = none →
      reqQCapacity ≤ m.reqQ.length →
      nodeDecommissioned.process K ord N V m =
        (.blocked,
          { nodes := m.nodes
            reqQ := m.reqQ
            world := (K.inventory .SetAssetCancelled N m.world).2
            calls := m.calls ++ [Call.inv .SetAssetCancelled N] })) ∧
    (∀ e, (K.inventory .SetAssetCancelled N m.world).1 = some e →
      (nodeDecommissioned.process K ord N V m).1 = .returned (some e) ∧
      (nodeDecommissioned.process K ord N V m).2.reqQ = m.reqQ) := by
  have hguard : (b && nodeDecommissioned.workerRemains K m N ord) = false := by
    rcases hfree with hb | hnone
    · simp [hb]
    · have := workerRemains_false K m N ord
        (fun M nd hmem => hnone M nd ((hord.mem_iff).1 hmem))
      simp [this]
  unfold nodeDecommissioned.process
  simp only [hmaster, hguard]
  cases hres : (K.inventory .SetAssetCancelled N m.world).1 with
  | none =>
    by_cases hroom : m.reqQ.length < reqQCapacity
    · simp [callInventory, hres, enqueue, hroom]
    · simp [callInventory, hres, enqueue, hroom]
  | some e => simp [callInventory, hres]

set_option maxRecDepth 100000 in
/-- C7, at the sample registry: the worker `n2` is decommissioned while the
master `n1` is there, the master of a registry of one node is decommissioned,
and the decommission of `n2` on a full queue is stopped at the send. -/
theorem c7_decommission_accepted_witness :
    nodeDecommissioned.process sampleEnv sampleTwoNodes "n2" "v=1"
        (sampleManager sampleTwoNodes [] []) =
      (.returned none,
        { nodes := sampleTwoNodes
          reqQ := [Event.nodeCleanup "n2" "v=1"]
          world := { failInv := [], failCfg := [] }
          calls := [Call.inv .SetAssetCancelled "n2"] }) ∧
    nodeDecommissioned.process sampleEnv sampleFresh "n1" "v=1"
        (sampleManager sampleFresh [] []) =
      (.returned none,
        { nodes := sampleFresh
          reqQ := [Event.nodeCleanup "n1" "v=1"]
          world := { failInv := [], failCfg := [] }
          calls := [Call.inv .SetAssetCancelled "n1"] }) ∧
    nodeDecommissioned.process sampleEnv sampleTwoNodes "n2" "v=1"
        (sampleFullManager sampleTwoNodes) =
      (.blocked,
        { nodes := sampleTwoNodes
          reqQ := sampleFullQueue
          world := { failInv := [], failCfg := [] }
          calls := [Call.inv .SetAssetCancelled "n2"] }) :=
  ⟨(c7_decommission_accepted sampleEnv sampleTwoNodes "n2" "v=1"
      (sampleManager sampleTwoNodes [] []) false (List.Perm.refl _) (by decide)
      (Or.inl rfl)).2.2.1 (by decide) (by decide),
   (c7_decommission_accepted sampleEnv sampleFresh "n1" "v=1"
      (sampleManager sampleFresh [] []) true (List.Perm.refl _) (by decide)
      (Or.inr (by
        intro M nd hmem hne
        simp [sampleManager, sampleFresh] at hmem
        exact absurd hmem.1 hne))).2.2.1 (by decide) (by decide),
   (c7_decommission_accepted sampleEnv sampleTwoNodes "n2" "v=1"
      (sampleFullManager sampleTwoNodes) false (List.Perm.refl _) (by decide)
      (Or.inl rfl)).2.2.2.1 (by decide) (by decide)⟩

/-! ## Putting a node in maintenance (C10) -/

set_option maxRecDepth 100000 in
/-- C10, as stated, fails: `SetAssetInMaintenance(n1)` returns nil and the
queue holds the 100 events that the channel can hold.
`nodeInMaintenance.process` makes the call and is then stopped at the send of
the follow-up: it does not return nil, and no `nodeUpgrade` is added to the
queue. -/
theorem c10_full_queue_counterexample :
    (sampleEnv.inventory .SetAssetInMaintenance "n1"
        (sampleFullManager sampleTwoNodes).world).1 = none ∧
    (sampleFullManager sampleTwoNodes).reqQ.length = 100 ∧
    nodeInMaintenance.process sampleEnv "n1" "v=1" (sampleFullManager sampleTwoNodes) =
      (.blocked,
        { nodes := sampleTwoNodes
          reqQ := sampleFullQueue
          world := { failInv := [], failCfg := [] }
          calls := [Call.inv .SetAssetInMaintenance "n1"] }) ∧
    (nodeInMaintenance.process sampleEnv "n1" "v=1" (sampleFullManager sampleTwoNodes)).1 ≠
      .returned none ∧
    (nodeInMaintenance.process sampleEnv "n1" "v=1"
        (sampleFullManager sampleTwoNodes)).2.reqQ ≠
      (sampleFullManager sampleTwoNodes).reqQ ++ [Event.nodeUpgrade "n1" "v=1"] := by
  decide

/-- C10, amended: `nodeInMaintenance.process` makes exactly one call,
`SetAssetInMaintenance(N)` (so it does not run the Upgrade operation); when
that call returns nil and the queue holds fewer events than the channel can
hold (100), process returns nil and exactly one event, `nodeUpgrade` with the
same `N` and extra-vars, is added at the tail of the queue; when that call
returns nil and the queue is full, process is stopped at the send: it never
returns and the queue is as it was. -/
theorem c10_maintenance_enqueues_upgrade (K : Env σ) (N V : String) (m : Manager σ) :
    (nodeInMaintenance.process K N V m).2.calls =
        m.calls ++ [Call.inv .SetAssetInMaintenance N] ∧
    ((K.inventory .SetAssetInMaintenance N m.world).1 = none →
      m.reqQ.length < reqQCapacity →
      nodeInMaintenance.process K N V m =
        (.returned none,
          { nodes := m.nodes
            reqQ := m.reqQ ++ [Event.nodeUpgrade N V]
            world := (K.inventory .SetAssetInMaintenance N m.world).2
            calls := m.calls ++ [Call.inv .SetAssetInMaintenance N] })) ∧
    ((K.inventory .SetAssetInMaintenance N m.world).1 = none →
      reqQCapacity ≤ m.reqQ.length →
      nodeInMaintenance.process K N V m =
        (.blocked,
          { nodes := m.nodes
            reqQ := m.reqQ
            world := (K.inventory .SetAssetInMaintenance N m.world).2
            calls := m.calls ++ [Call.inv .SetAssetInMaintenance N] })) := by
  unfold nodeInMaintenance.process
  cases hres : (K.inventory .SetAssetInMaintenance N m.world).1 with
  | none =>
    by_cases hroom : m.reqQ.length < reqQCapacity
    · simp [callInventory, hres, enqueue, hroom]
    · simp [callInventory, hres, enqueue, hroom]
  | some e => simp [callInventory, hres]

set_option maxRecDepth 100000 in
/-- C10, at the sample registry, with an empty queue and with a full
queue. -/
theorem c10_maintenance_enqueues_upgrade_witness :
    nodeInMaintenance.process sampleEnv "n1" "v=1" (sampleManager sampleTwoNodes [] []) =
      (.returned none,
        { nodes := sampleTwoNodes
          reqQ := [Event.nodeUpgrade "n1" "v=1"]
          world := { failInv := [], failCfg := [] }
          calls := [Call.inv .SetAssetInMaintenance "n1"] }) ∧
    nodeInMaintenance.process sampleEnv "n1" "v=1" (sampleFullManager sampleTwoNodes) =
      (.blocked,
        { nodes := sampleTwoNodes
          reqQ := sampleFullQueue
          world := { failInv := [], failCfg := [] }
          calls := [Call.inv .SetAssetInMaintenance "n1"] }) :=
  ⟨(c10_maintenance_enqueues_upgrade sampleEnv "n1" "v=1"
      (sampleManager sampleTwoNodes [] [])).2.1 (by decide) (by decide),
   (c10_maintenance_enqueues_upgrade sampleEnv "n1" "v=1"
      (sampleFullManager sampleTwoNodes)).2.2 (by decide) (by decide)⟩

/-! ## A failure of Configure (C3) -/

/-- C3, as stated, fails: Configure on the registered node `n1` completes with
the error `playbook failure`, `SetAssetUnallocated(n1)` is called and fails
with `inventory failure`, and process returns the error of
`SetAssetUnallocated`, not the error of Configure. -/
theorem c3_counterexample_rollback_error :
    (sampleEnv.configuration .Configure
        [nodeConfigure.assignRole sampleEnv
          (NewAnsibleHost "n1" "10.0.0.1" "service-master"
            [("node_name", "n1"), ("node_addr", "10.0.0.1")]) "service-master" "" ""] "v=1"
        (sampleManager sampleProvisioning [.SetAssetUnallocated] [.Configure]).world).1.2 =
      some (Errorf "playbook failure") ∧
    (nodeConfigure.process sampleEnv sampleProvisioning "n1" "v=1"
        (sampleManager sampleProvisioning [.SetAssetUnallocated] [.Configure])).2.calls =
      [Call.cfg .Configure
        [nodeConfigure.assignRole sampleEnv
          (NewAnsibleHost "n1" "10.0.0.1" "service-master"
            [("node_name", "n1"), ("node_addr", "10.0.0.1")]) "service-master" "" ""] "v=1",
       Call.inv .SetAssetUnallocated "n1"] ∧
    (nodeConfigure.process sampleEnv sampleProvisioning "n1" "v=1"
        (sampleManager sampleProvisioning [.SetAssetUnallocated] [.Configure])).1 =
      .returned (some (Errorf "inventory failure")) ∧
    (nodeConfigure.process sampleEnv sampleProvisioning "n1" "v=1"
        (sampleManager sampleProvisioning [.SetAssetUnallocated] [.Configure])).1 ≠
      .returned (some (Errorf "playbook failure")) := by
  refine ⟨by decide, by decide, by decide, by decide⟩

/-- C3 (amended): on a registered node `N` with a configuration view, when
the scan of the registry ends (leaving `g`, `a`, `nm`) and Configure, run on
the host descriptor so assigned, completes with the error `e`, then
`nodeConfigure.process` makes exactly two calls, that Configure and then
`SetAssetUnallocated(N)` (so `SetAssetCommissioned(N)` is not called); it
returns `e` when `SetAssetUnallocated(N)` returns nil, and the error of
`SetAssetUnallocated(N)` when that call fails. -/
theorem c3_configure_failure_reverts (K : Env σ) (ord : List (String × Node))
    (N V : String) (m : Manager σ) (node : Node) (h0 : AnsibleHost) (g a nm : String)
    (e : Error)
    (hfind : findNode K m N = .ok node) (hcfg : node.Cfg = some h0)
    (hscan : nodeConfigure.roleScan K m N ord = .done g a nm)
    (hfail : (K.configuration .Configure [nodeConfigure.assignRole K h0 g a nm] V
      m.world).1.2 = some e) :
    (nodeConfigure.process K ord N V m).2.calls =
      m.calls ++ [Call.cfg .Configure [nodeConfigure.assignRole K h0 g a nm] V,
        Call.inv .SetAssetUnallocated N] ∧
    ((K.inventory .SetAssetUnallocated N
        (K.configuration .Configure [nodeConfigure.assignRole K h0 g a nm] V m.world).2).1
        = none →
      (nodeConfigure.process K ord N V m).1 = .returned (some e)) ∧
    (∀ err1, (K.inventory .SetAssetUnallocated N
        (K.configuration .Configure [nodeConfigure.assignRole K h0 g a nm] V m.world).2).1
        = some err1 →
      (nodeConfigure.process K ord N V m).1 = .returned (some err1)) := by
  unfold nodeConfigure.process
  simp only [hfind, hcfg, hscan, runPlaybook_eq, callInventory, hfail]
  cases hinv : (K.inventory .SetAssetUnallocated N
      (K.configuration .Configure [nodeConfigure.assignRole K h0 g a nm] V m.world).2).1 with
  | none => simp [hinv]
  | some e1 => simp [hinv]

/-- C3 (amended), at a registry of one node being provisioned, with a
Configure that fails and a `SetAssetUnallocated` that succeeds. -/
theorem c3_configure_failure_reverts_witness :
    (nodeConfigure.process sampleEnv sampleProvisioning "n1" "v=1"
        (sampleManager sampleProvisioning [] [.Configure])).2.calls =
      [] ++ [Call.cfg .Configure
        [nodeConfigure.assignRole sampleEnv
          (NewAnsibleHost "n1" "10.0.0.1" "service-master"
            [("node_name", "n1"), ("node_addr", "10.0.0.1")]) "service-master" "" ""] "v=1",
       Call.inv .SetAssetUnallocated "n1"] ∧
    (nodeConfigure.process sampleEnv sampleProvisioning "n1" "v=1"
        (sampleManager sampleProvisioning [] [.Configure])).1 =
      .returned (some (Errorf "playbook failure")) :=
  have h := c3_configure_failure_reverts sampleEnv sampleProvisioning "n1" "v=1"
    (sampleManager sampleProvisioning [] [.Configure])
    (sampleNode "n1" "10.0.0.1" "service-master" AssetStatus.Provisioning
      AssetState.Discovered)
    (NewAnsibleHost "n1" "10.0.0.1" "service-master"
      [("node_name", "n1"), ("node_addr", "10.0.0.1")])
    "service-master" "" "" (Errorf "playbook failure")
    (by decide) (by decide) (by decide) (by decide)
  ⟨h.1, h.2.1 (by decide)⟩

/-! ## The role a node is given (C4, C5) -/

/-- C4: let `B` be a registered node with a configuration view `h0`, and let
the registry hold another node `A` that is discovered and allocated, and a
master; the two variables of the master are distinct keys.  Then, whatever
the order of the scan: (i) unless process panics, the host descriptor of `B`
in the registry and in the one call of Configure has the worker group, and
its etcd-master-address and etcd-master-name variables are the management
address and the configuration tag of one and the same qualifying node; (ii)
process does not panic when every qualifying node has a monitoring and a
configuration view; (iii) when `A` is the only qualifying node, the values
are those of `A` and process gives the same result for every order of the
scan. -/
theorem c4_later_node_is_worker (K : Env σ) (ord : List (String × Node)) (B V : String)
    (m : Manager σ) (node : Node) (h0 : AnsibleHost) (A : String) (ndA : Node)
    (hord : ord.Perm m.nodes)
    (hfind : findNode K m B = .ok node) (hcfg : node.Cfg = some h0)
    (hkeys : K.ansibleEtcdMasterAddrHostVar ≠ K.ansibleEtcdMasterNameHostVar)
    (hA : (A, ndA) ∈ m.nodes) (hAB : A ≠ B)
    (hda : K.isDiscoveredAndAllocatedNode m.nodes m.world A = .ok true)
    (hma : K.isMasterNode m.nodes m.world A = .ok true) :
    ((nodeConfigure.process K ord B V m).1 ≠ .panicked →
      ∃ M nd mon cfg h1, (M, nd) ∈ m.nodes ∧ M ≠ B ∧
        K.isDiscoveredAndAllocatedNode m.nodes m.world M = .ok true ∧
        K.isMasterNode m.nodes m.world M = .ok true ∧
        nd.Mon = some mon ∧ nd.Cfg = some cfg ∧
        h1.group = K.ansibleWorkerGroupName ∧
        h1.getVar K.ansibleEtcdMasterAddrHostVar = some mon.mgmtAddr ∧
        h1.getVar K.ansibleEtcdMasterNameHostVar = some cfg.tag ∧
        (nodeConfigure.process K ord B V m).2.nodes =
          updateNode B (fun n => { n with Cfg := some h1 }) m.nodes ∧
        ∃ op, (nodeConfigure.process K ord B V m).2.calls =
          m.calls ++ [Call.cfg .Configure [h1] V, Call.inv op B]) ∧
    ((∀ M nd, (M, nd) ∈ m.nodes → M ≠ B →
        K.isDiscoveredAndAllocatedNode m.nodes m.world M = .ok true →
        K.isMasterNode m.nodes m.world M = .ok true → nd.Mon ≠ none ∧ nd.Cfg ≠ none) →
      (nodeConfigure.process K ord B V m).1 ≠ .panicked) ∧
    ((∀ M nd, (M, nd) ∈ m.nodes → M ≠ B →
        K.isDiscoveredAndAllocatedNode m.nodes m.world M = .ok true →
        K.isMasterNode m.nodes m.world M = .ok true → (M, nd) = (A, ndA)) →
      ∀ mon cfg, ndA.Mon = some mon → ndA.Cfg = some cfg →
        (∃ op, (nodeConfigure.process K ord B V m).2.calls =
          m.calls ++ [Call.cfg .Configure
            [nodeConfigure.assignRole K h0 K.ansibleWorkerGroupName mon.mgmtAddr cfg.tag] V,
            Call.inv op B]) ∧
        ∀ ord2 : List (String × Node), ord2.Perm m.nodes →
          nodeConfigure.process K ord2 B V m = nodeConfigure.process K ord B V m) := by
  have hcandA : masterCandidate K m B (A, ndA) := ⟨hAB, hda, hma⟩
  refine ⟨?_, ?_, ?_⟩
  · intro hnp
    cases hscan : nodeConfigure.roleScan K m B ord with
    | panicked =>
      rw [nodeConfigure_panicked K ord B V m node h0 hfind hcfg hscan] at hnp
      exact absurd rfl hnp
    | done g a nm =>
      obtain ⟨p, hp, hpc, mon, cfg, hmon, hcfg1, hg, ha, hnm⟩ :=
        roleScan_done_of_candidate K m B ord ⟨(A, ndA), (hord.mem_iff).2 hA, hcandA⟩
          g a nm hscan
      obtain ⟨_, hnodes, _, hcalls⟩ := nodeConfigure_done K ord B V m node h0 g a nm
        hfind hcfg hscan
      refine ⟨p.1, p.2, mon, cfg, nodeConfigure.assignRole K h0 g a nm,
        (hord.mem_iff).1 hp, hpc.1, hpc.2.1, hpc.2.2, hmon, hcfg1, ?_, ?_, ?_, hnodes, hcalls⟩
      · rw [assignRole_group, hg]
      · rw [assignRole_addr K h0 g a nm hkeys, ha]
      · rw [assignRole_name, hnm]
  · intro hviews
    have hnp := roleScan_not_panicked K m B ord (fun p hp hpc =>
      hviews p.1 p.2 ((hord.mem_iff).1 hp) hpc.1 hpc.2.1 hpc.2.2)
    cases hscan : nodeConfigure.roleScan K m B ord with
    | panicked => exact absurd hscan hnp
    | done g a nm => exact (nodeConfigure_done K ord B V m node h0 g a nm hfind hcfg hscan).1
  · intro honly mon cfg hmon hcfgA
    have hscan : ∀ o : List (String × Node), o.Perm m.nodes →
        nodeConfigure.roleScan K m B o =
          .done K.ansibleWorkerGroupName mon.mgmtAddr cfg.tag := fun o ho =>
      roleScan_unique K m B o (A, ndA) mon cfg ((ho.mem_iff).2 hA) hcandA
        (fun q hq hqc => honly q.1 q.2 ((ho.mem_iff).1 hq) hqc.1 hqc.2.1 hqc.2.2)
        hmon hcfgA
    refine ⟨(nodeConfigure_done K ord B V m node h0 _ _ _ hfind hcfg (hscan ord hord)).2.2.2,
      fun ord2 hord2 => nodeConfigure_congr K ord2 ord B V m ?_⟩
    rw [hscan ord2 hord2, hscan ord hord]

/-- C4, at the sample registry, scanned in reverse: `n2` is configured as a
worker of the master `n1`. -/
theorem c4_later_node_is_worker_witness :
    ∃ op, (nodeConfigure.process sampleEnv sampleTwoNodes.reverse "n2" "v=1"
        (sampleManager sampleTwoNodes [] [])).2.calls =
      [] ++ [Call.cfg .Configure
        [nodeConfigure.assignRole sampleEnv
          (NewAnsibleHost "n2" "10.0.0.2" "service-worker"
            [("node_name", "n2"), ("node_addr", "10.0.0.2")])
          "service-worker" "10.0.0.1" "n1"] "v=1",
        Call.inv op "n2"] :=
  ((c4_later_node_is_worker sampleEnv sampleTwoNodes.reverse "n2" "v=1"
    (sampleManager sampleTwoNodes [] [])
    (sampleNode "n2" "10.0.0.2" "service-worker" AssetStatus.Commissioned
      AssetState.Discovered)
    (NewAnsibleHost "n2" "10.0.0.2" "service-worker"
      [("node_name", "n2"), ("node_addr", "10.0.0.2")])
    "n1"
    (sampleNode "n1" "10.0.0.1" "service-master" AssetStatus.Commissioned
      AssetState.Discovered)
    (List.reverse_perm _) (by decide) (by decide) (by decide)
    (List.mem_cons_self _ _) (by decide) (by decide) (by decide)).2.2
    (by
      intro M nd hmem hne _ _
      simp only [sampleManager, sampleTwoNodes, List.mem_cons, List.mem_singleton,
        List.not_mem_nil, or_false] at hmem
      rcases hmem with h | h
      · exact h
      · exact absurd (congrArg Prod.fst h) hne)
    { label := "n1", serial := "0", mgmtAddr := "10.0.0.1" }
    (NewAnsibleHost "n1" "10.0.0.1" "service-master"
      [("node_name", "n1"), ("node_addr", "10.0.0.1")])
    rfl rfl).1

/-- C5: let `N` be a registered node with a configuration view `h0`, and let
no other node of the registry be both discovered and allocated, and a master
(a node whose check fails does not count, and `N` itself is not looked at).
Then, whatever the order of the scan and whatever the group of `h0`, process
does not panic, and the host descriptor of `N` in the registry and in the one
call of Configure has the master group and the etcd-master-address and
etcd-master-name variables set to the empty string. -/
theorem c5_first_node_is_master (K : Env σ) (ord : List (String × Node)) (N V : String)
    (m : Manager σ) (node : Node) (h0 : AnsibleHost)
    (hord : ord.Perm m.nodes)
    (hfind : findNode K m N = .ok node) (hcfg : node.Cfg = some h0)
    (hnone : ∀ M nd, (M, nd) ∈ m.nodes → M ≠ N →
      ¬ (K.isDiscoveredAndAllocatedNode m.nodes m.world M = .ok true ∧
         K.isMasterNode m.nodes m.world M = .ok true)) :
    (nodeConfigure.process K ord N V m).1 ≠ .panicked ∧
    ∃ h1 : AnsibleHost, h1.group = K.ansibleMasterGroupName ∧
      h1.getVar K.ansibleEtcdMasterAddrHostVar = some "" ∧
      h1.getVar K.ansibleEtcdMasterNameHostVar = some "" ∧
      (nodeConfigure.process K ord N V m).2.nodes =
        updateNode N (fun n => { n with Cfg := some h1 }) m.nodes ∧
      ∃ op, (nodeConfigure.process K ord N V m).2.calls =
        m.calls ++ [Call.cfg .Configure [h1] V, Call.inv op N] := by
  have hscan : nodeConfigure.roleScan K m N ord = .done K.ansibleMasterGroupName "" "" :=
    roleScan_none K m N ord (fun p hp hpc =>
      hnone p.1 p.2 ((hord.mem_iff).1 hp) hpc.1 ⟨hpc.2.1, hpc.2.2⟩)
  obtain ⟨hnp, hnodes, _, hcalls⟩ :=
    nodeConfigure_done K ord N V m node h0 _ _ _ hfind hcfg hscan
  refine ⟨hnp, nodeConfigure.assignRole K h0 K.ansibleMasterGroupName "" "",
    assignRole_group K h0 _ _ _, ?_, assignRole_name K h0 _ _ _, hnodes, hcalls⟩
  by_cases hkeys : K.ansibleEtcdMasterAddrHostVar = K.ansibleEtcdMasterNameHostVar
  · rw [hkeys]; exact assignRole_name K h0 _ _ _
  · exact assignRole_addr K h0 _ _ _ hkeys

/-- C5, at a registry of one node whose descriptor was in the worker group. -/
theorem c5_first_node_is_master_witness :
    (nodeConfigure.process sampleEnv sampleLoneWorker "n1" "v=1"
        (sampleManager sampleLoneWorker [] [])).1 ≠ .panicked ∧
    ∃ h1 : AnsibleHost, h1.group = "service-master" ∧
      h1.getVar "etcd_master_addr" = some "" ∧
      h1.getVar "etcd_master_name" = some "" ∧
      (nodeConfigure.process sampleEnv sampleLoneWorker "n1" "v=1"
          (sampleManager sampleLoneWorker [] [])).2.nodes =
        updateNode "n1" (fun n => { n with Cfg := some h1 }) sampleLoneWorker ∧
      ∃ op, (nodeConfigure.process sampleEnv sampleLoneWorker "n1" "v=1"
          (sampleManager sampleLoneWorker [] [])).2.calls =
        [] ++ [Call.cfg .Configure [h1] "v=1", Call.inv op "n1"] :=
  c5_first_node_is_master sampleEnv sampleLoneWorker "n1" "v=1"
    (sampleManager sampleLoneWorker [] [])
    (sampleNode "n1" "10.0.0.1" "service-worker" AssetStatus.Provisioning
      AssetState.Discovered)
    (NewAnsibleHost "n1" "10.0.0.1" "service-worker"
      [("node_name", "n1"), ("node_addr", "10.0.0.1")])
    (List.Perm.refl _) (by decide) (by decide)
    (by
      intro M nd hmem hne
      simp only [sampleManager, sampleLoneWorker, List.mem_singleton] at hmem
      exact absurd (congrArg Prod.fst hmem) hne)

/-! ## Cleanup (C8) -/

/-- C8: on a registered node `N` with a configuration view `h0`,
`nodeCleanup.process` makes exactly two calls, Cleanup on `h0` and then
`SetAssetDecommissioned(N)`, whatever value Cleanup completes with (nil or an
error); no `SetAssetUnallocated` or `SetAssetCancelled` is called, the
registry and the queue are unchanged, and what process returns is exactly
what `SetAssetDecommissioned(N)` returned, so the error of Cleanup is not
returned. -/
theorem c8_cleanup_always_decommissions (K : Env σ) (N V : String) (m : Manager σ)
    (node : Node) (h0 : AnsibleHost)
    (hfind : findNode K m N = .ok node) (hcfg : node.Cfg = some h0) :
    nodeCleanup.process K N V m =
      (.returned (K.inventory .SetAssetDecommissioned N
          (K.configuration .Cleanup [h0] V m.world).2).1,
        { nodes := m.nodes
          reqQ := m.reqQ
          world := (K.inventory .SetAssetDecommissioned N
            (K.configuration .Cleanup [h0] V m.world).2).2
          calls := m.calls ++ [Call.cfg .Cleanup [h0] V,
            Call.inv .SetAssetDecommissioned N] }) := by
  unfold nodeCleanup.process
  simp only [hfind, hcfg, runPlaybook_eq, callInventory]
  cases hinv : (K.inventory .SetAssetDecommissioned N
      (K.configuration .Cleanup [h0] V m.world).2).1 with
  | none => simp [hinv]
  | some e1 => simp [hinv]

/-- C8, at the sample registry with a Cleanup that fails: the asset is still
marked decommissioned and process returns nil. -/
theorem c8_cleanup_always_decommissions_witness :
    (sampleEnv.configuration .Cleanup
        [NewAnsibleHost "n2" "10.0.0.2" "service-worker"
          [("node_name", "n2"), ("node_addr", "10.0.0.2")]] "v=1"
        (sampleManager sampleTwoNodes [] [.Cleanup]).world).1.2 =
      some (Errorf "playbook failure") ∧
    nodeCleanup.process sampleEnv "n2" "v=1" (sampleManager sampleTwoNodes [] [.Cleanup]) =
      (.returned none,
        { nodes := sampleTwoNodes
          reqQ := []
          world := { failInv := [], failCfg := [.Cleanup] }
          calls := [] ++ [Call.cfg .Cleanup
              [NewAnsibleHost "n2" "10.0.0.2" "service-worker"
                [("node_name", "n2"), ("node_addr", "10.0.0.2")]] "v=1",
            Call.inv .SetAssetDecommissioned "n2"] }) :=
  ⟨by decide,
   c8_cleanup_always_decommissions sampleEnv "n2" "v=1"
    (sampleManager sampleTwoNodes [] [.Cleanup])
    (sampleNode "n2" "10.0.0.2" "service-worker" AssetStatus.Commissioned
      AssetState.Discovered)
    (NewAnsibleHost "n2" "10.0.0.2" "service-worker"
      [("node_name", "n2"), ("node_addr", "10.0.0.2")])
    (by decide) (by decide)⟩

/-! ## Upgrade (C9) -/

/-- C9, as stated, fails: Upgrade on the registered node `n1` completes with
the error `playbook failure`, `SetAssetUnallocated(n1)` is called and fails
with `inventory failure`, and process returns the error of
`SetAssetUnallocated`, not the error of Upgrade. -/
theorem c9_counterexample_rollback_error :
    (sampleEnv.configuration .Upgrade
        [NewAnsibleHost "n1" "10.0.0.1" "service-master"
          [("node_name", "n1"), ("node_addr", "10.0.0.1")]] "v=1"
        (sampleManager sampleTwoNodes [.SetAssetUnallocated] [.Upgrade]).world).1.2 =
      some (Errorf "playbook failure") ∧
    (nodeUpgrade.process sampleEnv "n1" "v=1"
        (sampleManager sampleTwoNodes [.SetAssetUnallocated] [.Upgrade])).2.calls =
      [Call.cfg .Upgrade
        [NewAnsibleHost "n1" "10.0.0.1" "service-master"
          [("node_name", "n1"), ("node_addr", "10.0.0.1")]] "v=1",
       Call.inv .SetAssetUnallocated "n1"] ∧
    (nodeUpgrade.process sampleEnv "n1" "v=1"
        (sampleManager sampleTwoNodes [.SetAssetUnallocated] [.Upgrade])).1 =
      .returned (some (Errorf "inventory failure")) ∧
    (nodeUpgrade.process sampleEnv "n1" "v=1"
        (sampleManager sampleTwoNodes [.SetAssetUnallocated] [.Upgrade])).1 ≠
      .returned (some (Errorf "playbook failure")) := by
  refine ⟨by decide, by decide, by decide, by decide⟩

/-- C9 (amended): on a registered node `N` with a configuration view `h0`,
`nodeUpgrade.process` makes exactly two calls, Upgrade on `h0` and then one
inventory call.  If Upgrade completes with an error `e`, that call is
`SetAssetUnallocated(N)` (never `SetAssetCommissioned(N)`), and process
returns `e` when `SetAssetUnallocated(N)` returns nil and the error of
`SetAssetUnallocated(N)` when that call fails.  If Upgrade completes with nil,
that call is `SetAssetCommissioned(N)` (never `SetAssetUnallocated(N)`), and
process returns what it returned. -/
theorem c9_upgrade_outcome (K : Env σ) (N V : String) (m : Manager σ)
    (node : Node) (h0 : AnsibleHost)
    (hfind : findNode K m N = .ok node) (hcfg : node.Cfg = some h0) :
    (∀ e, (K.configuration .Upgrade [h0] V m.world).1.2 = some e →
      (nodeUpgrade.process K N V m).2.calls =
        m.calls ++ [Call.cfg .Upgrade [h0] V, Call.inv .SetAssetUnallocated N] ∧
      ((K.inventory .SetAssetUnallocated N (K.configuration .Upgrade [h0] V m.world).2).1
          = none →
        (nodeUpgrade.process K N V m).1 = .returned (some e)) ∧
      (∀ err1, (K.inventory .SetAssetUnallocated N
          (K.configuration .Upgrade [h0] V m.world).2).1 = some err1 →
        (nodeUpgrade.process K N V m).1 = .returned (some err1))) ∧
    ((K.configuration .Upgrade [h0] V m.world).1.2 = none →
      (nodeUpgrade.process K N V m).2.calls =
        m.calls ++ [Call.cfg .Upgrade [h0] V, Call.inv .SetAssetCommissioned N] ∧
      (nodeUpgrade.process K N V m).1 =
        .returned (K.inventory .SetAssetCommissioned N
          (K.configuration .Upgrade [h0] V m.world).2).1) := by
  unfold nodeUpgrade.process
  simp only [hfind, hcfg, runPlaybook_eq, callInventory]
  constructor
  · intro e hfail
    simp only [hfail]
    cases hinv : (K.inventory .SetAssetUnallocated N
        (K.configuration .Upgrade [h0] V m.world).2).1 with
    | none => simp [hinv]
    | some e1 => simp [hinv]
  · intro hok
    simp only [hok]
    cases hinv : (K.inventory .SetAssetCommissioned N
        (K.configuration .Upgrade [h0] V m.world).2).1 with
    | none => simp [hinv]
    | some e1 => simp [hinv]

/-- C9 (amended), at the sample registry: with an Upgrade that fails the
asset of `n1` is set unallocated and the error of Upgrade is returned; with
an Upgrade that succeeds it is set commissioned and nil is returned. -/
theorem c9_upgrade_outcome_witness :
    ((nodeUpgrade.process sampleEnv "n1" "v=1"
        (sampleManager sampleTwoNodes [] [.Upgrade])).2.calls =
      [] ++ [Call.cfg .Upgrade
        [NewAnsibleHost "n1" "10.0.0.1" "service-master"
          [("node_name", "n1"), ("node_addr", "10.0.0.1")]] "v=1",
        Call.inv .SetAssetUnallocated "n1"] ∧
     (nodeUpgrade.process sampleEnv "n1" "v=1"
        (sampleManager sampleTwoNodes [] [.Upgrade])).1 =
      .returned (some (Errorf "playbook failure"))) ∧
    ((nodeUpgrade.process sampleEnv "n1" "v=1"
        (sampleManager sampleTwoNodes [] [])).2.calls =
      [] ++ [Call.cfg .Upgrade
        [NewAnsibleHost "n1" "10.0.0.1" "service-master"
          [("node_name", "n1"), ("node_addr", "10.0.0.1")]] "v=1",
        Call.inv .SetAssetCommissioned "n1"] ∧
     (nodeUpgrade.process sampleEnv "n1" "v=1"
        (sampleManager sampleTwoNodes [] [])).1 = .returned none) :=
  have hfailing := (c9_upgrade_outcome sampleEnv "n1" "v=1"
    (sampleManager sampleTwoNodes [] [.Upgrade])
    (sampleNode "n1" "10.0.0.1" "service-master" AssetStatus.Commissioned
      AssetState.Discovered)
    (NewAnsibleHost "n1" "10.0.0.1" "service-master"
      [("node_name", "n1"), ("node_addr", "10.0.0.1")])
    (by decide) (by decide)).1 (Errorf "playbook failure") (by decide)
  have hpassing := (c9_upgrade_outcome sampleEnv "n1" "v=1"
    (sampleManager sampleTwoNodes [] [])
    (sampleNode "n1" "10.0.0.1" "service-master" AssetStatus.Commissioned
      AssetState.Discovered)
    (NewAnsibleHost "n1" "10.0.0.1" "service-master"
      [("node_name", "n1"), ("node_addr", "10.0.0.1")])
    (by decide) (by decide)).2 (by decide)
  ⟨⟨hfailing.1, hfailing.2.1 (by decide)⟩, hpassing⟩

/-! ## Lemmas on the registry -/

theorem lookupNode_setNode (k name : String) (nd : Node) :
    ∀ l : List (String × Node),
      lookupNode k (setNode name nd l) = if k = name then some nd else lookupNode k l
  | [] => by
    by_cases h : k = name
    · simp [setNode, lookupNode, h]
    · simp [setNode, lookupNode, h, Ne.symm h]
  | (k1, n1) :: t => by
    by_cases h1 : k1 = name
    · subst h1
      by_cases h : k = k1
      · simp [setNode, lookupNode, h]
      · simp [setNode, lookupNode, h, Ne.symm h]
    · by_cases h2 : k1 = k
      · subst h2
        simp [setNode, lookupNode, h1]
      · simp [setNode, lookupNode, h1, h2, lookupNode_setNode k name nd t]

theorem lookupNode_updateNode (k name : String) (f : Node → Node) :
    ∀ l : List (String × Node),
      lookupNode k (updateNode name f l) =
        if k = name then (lookupNode name l).map f else lookupNode k l
  | [] => by simp [updateNode, lookupNode]
  | (k1, n1) :: t => by
    by_cases h1 : k1 = name
    · subst h1
      by_cases h : k = k1
      · simp [updateNode, lookupNode, h]
      · simp [updateNode, lookupNode, h, Ne.symm h]
    · by_cases h2 : k1 = k
      · subst h2
        simp [updateNode, lookupNode, h1]
      · simp [updateNode, lookupNode, h1, h2, lookupNode_updateNode k name f t]

/-- An event of discovery for a node that is in the registry panics and
leaves the manager as it was. -/
theorem nodeDiscovered_existing (K : Env σ) (node : SubsysNode) (m : Manager σ) (nd : Node)
    (h : lookupNode (nodeIdentity node) m.nodes = some nd) :
    nodeDiscovered.process K node m = (.panicked, m) := by
  simp [nodeDiscovered.process, findNode, h]

/-- The node that the discovery of a new identity leaves in the registry
under that identity. -/
theorem nodeDiscovered_new_lookup (K : Env σ) (node : SubsysNode) (m : Manager σ)
    (hnew : lookupNode (nodeIdentity node) m.nodes = none) :
    ∃ inv, lookupNode (nodeIdentity node) (nodeDiscovered.process K node m).2.nodes =
      some { Mon := some node, Inv := inv,
             Cfg := some (NewAnsibleHost (nodeIdentity node) node.mgmtAddr
               K.ansibleMasterGroupName
               [(K.ansibleNodeNameHostVar, nodeIdentity node),
                (K.ansibleNodeAddrHostVar, node.mgmtAddr)]) } := by
  unfold nodeDiscovered.process
  simp only [findNode, hnew, if_true]
  cases hget : K.getAsset (nodeIdentity node) m.world with
  | none =>
    cases hinv : (K.inventory .AddAsset (nodeIdentity node) m.world).1 with
    | none =>
      exact ⟨K.getAsset (nodeIdentity node) (K.inventory .AddAsset (nodeIdentity node) m.world).2,
        by simp [callInventory, hinv, lookupNode_updateNode, lookupNode_setNode]⟩
    | some e =>
      exact ⟨none, by simp [callInventory, hinv, lookupNode_updateNode, lookupNode_setNode]⟩
  | some a =>
    cases hinv : (K.inventory .SetAssetDiscovered (nodeIdentity node) m.world).1 with
    | none =>
      exact ⟨some a, by simp [callInventory, hinv, lookupNode_updateNode, lookupNode_setNode]⟩
    | some e =>
      exact ⟨some a, by simp [callInventory, hinv, lookupNode_updateNode, lookupNode_setNode]⟩

/-! ## Discovery of a new node (C12) -/

/-- C12: let the identity `label + "-" + serial` of the snapshot not be a key
of the registry, and let the node-name and node-address variables be distinct
keys.  After `nodeDiscovered.process`, on every path, the registry holds the
identity; its node has the snapshot of the event as monitoring view and, as
configuration view, a host whose tag is the identity, whose address is that
of the snapshot, in the master group, with the node-name variable equal to
the identity and the node-address variable equal to the address; every key
that was in the registry is still there with the same node.  The identity is
a function of the label and the serial only. -/
theorem c12_discovery_creates_node (K : Env σ) (node : SubsysNode) (m : Manager σ)
    (hnew : lookupNode (nodeIdentity node) m.nodes = none)
    (hkeys : K.ansibleNodeNameHostVar ≠ K.ansibleNodeAddrHostVar) :
    nodeIdentity node = node.label ++ "-" ++ node.serial ∧
    (∀ other : SubsysNode, other.label = node.label → other.serial = node.serial →
      nodeIdentity other = nodeIdentity node) ∧
    (∃ nd cfg, lookupNode (nodeIdentity node) (nodeDiscovered.process K node m).2.nodes = some nd ∧
      nd.Mon = some node ∧ nd.Cfg = some cfg ∧
      cfg.tag = nodeIdentity node ∧ cfg.addr = node.mgmtAddr ∧
      cfg.group = K.ansibleMasterGroupName ∧
      cfg.getVar K.ansibleNodeNameHostVar = some (nodeIdentity node) ∧
      cfg.getVar K.ansibleNodeAddrHostVar = some node.mgmtAddr) ∧
    (∀ k nd, lookupNode k m.nodes = some nd →
      lookupNode k (nodeDiscovered.process K node m).2.nodes = some nd) := by
  refine ⟨rfl, ?_, ?_, ?_⟩
  · intro other hl hs
    simp [nodeIdentity, hl, hs]
  · obtain ⟨inv, hlook⟩ := nodeDiscovered_new_lookup K node m hnew
    refine ⟨_, _, hlook, rfl, rfl, rfl, rfl, rfl, ?_, ?_⟩
    · simp [AnsibleHost.getVar, NewAnsibleHost, getVarList]
    · simp [AnsibleHost.getVar, NewAnsibleHost, getVarList, hkeys]
  · intro k nd hk
    have hne : k ≠ nodeIdentity node := by
      intro heq
      rw [heq, hnew] at hk
      cases hk
    unfold nodeDiscovered.process
    simp only [findNode, hnew, if_true]
    cases hget : K.getAsset (nodeIdentity node) m.world with
    | none =>
      cases hinv : (K.inventory .AddAsset (nodeIdentity node) m.world).1 with
      | none => simp [callInventory, hinv, lookupNode_updateNode, lookupNode_setNode, hne, hk]
      | some e => simp [callInventory, hinv, lookupNode_updateNode, lookupNode_setNode, hne, hk]
    | some a =>
      cases hinv : (K.inventory .SetAssetDiscovered (nodeIdentity node) m.world).1 with
      | none => simp [callInventory, hinv, lookupNode_updateNode, lookupNode_setNode, hne, hk]
      | some e => simp [callInventory, hinv, lookupNode_updateNode, lookupNode_setNode, hne, hk]

/-- C12, at the discovery of `n1-0` in the sample registry of `n1` and `n2`. -/
theorem c12_discovery_creates_node_witness :
    (∃ nd cfg, lookupNode "n1-0"
        (nodeDiscovered.process sampleEnv sampleSnapshot
          (sampleManager sampleTwoNodes [] [])).2.nodes = some nd ∧
      nd.Mon = some sampleSnapshot ∧ nd.Cfg = some cfg ∧
      cfg.tag = "n1-0" ∧ cfg.addr = "10.0.0.1" ∧ cfg.group = "service-master" ∧
      cfg.getVar "node_name" = some "n1-0" ∧ cfg.getVar "node_addr" = some "10.0.0.1") ∧
    lookupNode "n2"
        (nodeDiscovered.process sampleEnv sampleSnapshot
          (sampleManager sampleTwoNodes [] [])).2.nodes =
      some (sampleNode "n2" "10.0.0.2" "service-worker" AssetStatus.Commissioned
        AssetState.Discovered) :=
  have h := c12_discovery_creates_node sampleEnv sampleSnapshot
    (sampleManager sampleTwoNodes [] []) (by decide) (by decide)
  ⟨h.2.2.1, h.2.2.2 "n2" _ (by decide)⟩

/-! ## Discovery of a node that is in the registry (C13) -/

/-- C13 fails on the code: the node `n1-0` is discovered from an empty
registry (process returns nil and the registry holds it), and the same
snapshot is discovered again; `findNode` then returns a nil error, whose
method `Error` the first test of `nodeDiscovered.process` calls: the program
panics, no inventory call is made and the manager is left as it was. -/
theorem c13_rediscovery_panics :
    (nodeDiscovered.process sampleEnv sampleSnapshot (sampleManager [] [] [])).1 =
      .returned none ∧
    (∃ nd, lookupNode (nodeIdentity sampleSnapshot) sampleDiscoveredManager.nodes = some nd) ∧
    nodeDiscovered.process sampleEnv sampleSnapshot sampleDiscoveredManager =
      (.panicked, sampleDiscoveredManager) ∧
    Call.inv .SetAssetDiscovered "n1-0" ∉
      (nodeDiscovered.process sampleEnv sampleSnapshot sampleDiscoveredManager).2.calls := by
  refine ⟨by decide, ⟨_, rfl⟩, by decide, by decide⟩

/-! ## The inventory step of a discovery (C14) -/

/-- C14: let the identity of the snapshot not be a key of the registry, so
that `nodeDiscovered.process` reaches the inventory step.  When
`GetAsset(name)` is nil the one call made is `AddAsset(name)`: if it fails
process returns its error, and if it succeeds process returns nil and the
inventory view of the node is what `GetAsset(name)` returns after it.  When
`GetAsset(name)` is an asset the one call made is `SetAssetDiscovered(name)`
and process returns what it returned. -/
theorem c14_discovery_inventory_step (K : Env σ) (node : SubsysNode) (m : Manager σ)
    (hnew : lookupNode (nodeIdentity node) m.nodes = none) :
    (K.getAsset (nodeIdentity node) m.world = none →
      (nodeDiscovered.process K node m).2.calls =
        m.calls ++ [Call.inv .AddAsset (nodeIdentity node)] ∧
      (nodeDiscovered.process K node m).1 =
        .returned (K.inventory .AddAsset (nodeIdentity node) m.world).1 ∧
      ((K.inventory .AddAsset (nodeIdentity node) m.world).1 = none →
        ∃ nd, lookupNode (nodeIdentity node) (nodeDiscovered.process K node m).2.nodes =
            some nd ∧
          nd.Inv = K.getAsset (nodeIdentity node)
            (K.inventory .AddAsset (nodeIdentity node) m.world).2)) ∧
    (∀ a, K.getAsset (nodeIdentity node) m.world = some a →
      (nodeDiscovered.process K node m).2.calls =
        m.calls ++ [Call.inv .SetAssetDiscovered (nodeIdentity node)] ∧
      (nodeDiscovered.process K node m).1 =
        .returned (K.inventory .SetAssetDiscovered (nodeIdentity node) m.world).1) := by
  unfold nodeDiscovered.process
  simp only [findNode, hnew, if_true]
  constructor
  · intro hget
    simp only [hget]
    cases hinv : (K.inventory .AddAsset (nodeIdentity node) m.world).1 with
    | none => simp [callInventory, hinv, lookupNode_updateNode, lookupNode_setNode]
    | some e => simp [callInventory, hinv]
  · intro a hget
    simp only [hget]
    cases hinv : (K.inventory .SetAssetDiscovered (nodeIdentity node) m.world).1 with
    | none => simp [callInventory, hinv]
    | some e => simp [callInventory, hinv]

/-- C14, at the discovery of `n1-0` from an empty registry: with no asset in
the inventory `AddAsset` is called and the new asset becomes the inventory
view; with an asset already there `SetAssetDiscovered` is called. -/
theorem c14_discovery_inventory_step_witness :
    ((nodeDiscovered.process sampleEnv sampleSnapshot (sampleManager [] [] [])).2.calls =
        [] ++ [Call.inv .AddAsset "n1-0"] ∧
      ∃ nd, lookupNode "n1-0"
          (nodeDiscovered.process sampleEnv sampleSnapshot (sampleManager [] [] [])).2.nodes =
          some nd ∧
        nd.Inv = some (sampleNewAsset "n1-0")) ∧
    ((nodeDiscovered.process sampleEnv sampleSnapshot
        { sampleManager [] [] [] with world := sampleDiscoveredManager.world }).2.calls =
        [] ++ [Call.inv .SetAssetDiscovered "n1-0"] ∧
      (nodeDiscovered.process sampleEnv sampleSnapshot
        { sampleManager [] [] [] with world := sampleDiscoveredManager.world }).1 =
        .returned none) :=
  have hadd := (c14_discovery_inventory_step sampleEnv sampleSnapshot (sampleManager [] [] [])
    (by decide)).1 (by decide)
  have hset := (c14_discovery_inventory_step sampleEnv sampleSnapshot
    { sampleManager [] [] [] with world := sampleDiscoveredManager.world }
    (by decide)).2 (sampleNewAsset "n1-0") (by decide)
  ⟨⟨hadd.1, hadd.2.2 (by decide)⟩, hset⟩

/-! ## Disappearance (C15) -/

/-- C15: when the identity `label + "-" + serial` of the snapshot is not in
the registry, `nodeDisappeared.process` returns the node-not-exists error and
leaves the manager as it was (no inventory call, the registry unchanged).
When it is, the monitoring view of the node becomes the snapshot of the event
(the other nodes and views are untouched), exactly one call is made,
`SetAssetDisappeared(identity)`, and process returns what it returned. -/
theorem c15_disappearance (K : Env σ) (node : SubsysNode) (m : Manager σ) :
    (lookupNode (nodeIdentity node) m.nodes = none →
      nodeDisappeared.process K node m =
        (.returned (some (K.nodeNotExistsError (nodeIdentity node))), m)) ∧
    (∀ nd, lookupNode (nodeIdentity node) m.nodes = some nd →
      nodeDisappeared.process K node m =
        (.returned (K.inventory .SetAssetDisappeared (nodeIdentity node) m.world).1,
          { nodes := updateNode (nodeIdentity node) (fun n => { n with Mon := some node })
              m.nodes
            reqQ := m.reqQ
            world := (K.inventory .SetAssetDisappeared (nodeIdentity node) m.world).2
            calls := m.calls ++ [Call.inv .SetAssetDisappeared (nodeIdentity node)] }) ∧
      lookupNode (nodeIdentity node) (nodeDisappeared.process K node m).2.nodes =
        some { nd with Mon := some node } ∧
      ∀ k, k ≠ nodeIdentity node →
        lookupNode k (nodeDisappeared.process K node m).2.nodes = lookupNode k m.nodes) := by
  constructor
  · intro h
    simp [nodeDisappeared.process, findNode, h]
  · intro nd h
    have hproc : nodeDisappeared.process K node m =
        (.returned (K.inventory .SetAssetDisappeared (nodeIdentity node) m.world).1,
          { nodes := updateNode (nodeIdentity node) (fun n => { n with Mon := some node })
              m.nodes
            reqQ := m.reqQ
            world := (K.inventory .SetAssetDisappeared (nodeIdentity node) m.world).2
            calls := m.calls ++ [Call.inv .SetAssetDisappeared (nodeIdentity node)] }) := by
      unfold nodeDisappeared.process
      simp only [findNode, h]
      cases hinv : (K.inventory .SetAssetDisappeared (nodeIdentity node) m.world).1 with
      | none => simp [callInventory, hinv]
      | some e => simp [callInventory, hinv]
    refine ⟨hproc, ?_, ?_⟩
    · rw [hproc]
      simp [lookupNode_updateNode, h]
    · intro k hk
      rw [hproc]
      simp [lookupNode_updateNode, hk]

/-- C15, at the manager that discovered `n1-0`: the disappearance of a node
that is not in the registry is refused, that of `n1-0` (seen at a new
address) is recorded. -/
theorem c15_disappearance_witness :
    nodeDisappeared.process sampleEnv { label := "n9", serial := "0", mgmtAddr := "10.0.0.9" }
        sampleDiscoveredManager =
      (.returned (some (sampleEnv.nodeNotExistsError "n9-0")), sampleDiscoveredManager) ∧
    (nodeDisappeared.process sampleEnv { label := "n1", serial := "0", mgmtAddr := "10.0.0.7" }
        sampleDiscoveredManager).1 = .returned none ∧
    (nodeDisappeared.process sampleEnv { label := "n1", serial := "0", mgmtAddr := "10.0.0.7" }
        sampleDiscoveredManager).2.calls =
      sampleDiscoveredManager.calls ++ [Call.inv .SetAssetDisappeared "n1-0"] :=
  have hgone := (c15_disappearance sampleEnv
    { label := "n9", serial := "0", mgmtAddr := "10.0.0.9" } sampleDiscoveredManager).1
    (by decide)
  have hseen := ((c15_disappearance sampleEnv
    { label := "n1", serial := "0", mgmtAddr := "10.0.0.7" } sampleDiscoveredManager).2
    _ rfl).1
  ⟨hgone, congrArg Prod.fst hseen, congrArg (fun r => r.2.calls) hseen⟩

/-! ## Bootstrap discovery (C11) -/

theorem scanMgmtAddr_none (addr : String) :
    ∀ ord : List (String × Node),
      (∀ p ∈ ord, ∀ mon, p.2.Mon = some mon → mon.mgmtAddr ≠ addr) →
      scanMgmtAddr addr ord = none
  | [], _ => rfl
  | (k, nd) :: rest, h => by
    have ih := scanMgmtAddr_none addr rest (fun p hp => h p (List.mem_cons_of_mem _ hp))
    have hhead := h (k, nd) (List.mem_cons_self _ _)
    unfold scanMgmtAddr
    cases hmon : nd.Mon with
    | none => simpa using ih
    | some mon => simpa [hhead mon hmon] using ih

theorem scanMgmtAddr_found (addr : String) :
    ∀ ord : List (String × Node),
      (∃ p ∈ ord, ∃ mon, p.2.Mon = some mon ∧ mon.mgmtAddr = addr) →
      ∃ p ∈ ord, ∃ mon, p.2.Mon = some mon ∧ mon.mgmtAddr = addr ∧
        scanMgmtAddr addr ord = some p.2
  | [], h => by
    obtain ⟨p, hp, _⟩ := h
    cases hp
  | (k, nd) :: rest, h => by
    by_cases hhead : ∃ mon, nd.Mon = some mon ∧ mon.mgmtAddr = addr
    · obtain ⟨mon, hmon, haddr⟩ := hhead
      refine ⟨(k, nd), List.mem_cons_self _ _, mon, hmon, haddr, ?_⟩
      simp [scanMgmtAddr, hmon, haddr]
    · have hrest : ∃ p ∈ rest, ∃ mon, p.2.Mon = some mon ∧ mon.mgmtAddr = addr := by
        obtain ⟨p, hp, mon, hmon, haddr⟩ := h
        rcases List.mem_cons.1 hp with heq | hin
        · rw [heq] at hmon
          exact absurd ⟨mon, hmon, haddr⟩ hhead
        · exact ⟨p, hin, mon, hmon, haddr⟩
      obtain ⟨p, hp, mon, hmon, haddr, hscan⟩ := scanMgmtAddr_found addr rest hrest
      refine ⟨p, List.mem_cons_of_mem _ hp, mon, hmon, haddr, ?_⟩
      cases hm : nd.Mon with
      | none => simp [scanMgmtAddr, hm, hscan]
      | some mon1 =>
        have hne : mon1.mgmtAddr ≠ addr := fun heq => hhead ⟨mon1, hm, heq⟩
        simp [scanMgmtAddr, hm, hne, hscan]

/-- What `nodeDiscover.process` does when no node of the registry has the
address: Configure runs once, on one temporary host named `node1` in the
discover group, and process returns the value it completes with; the
registry and the queue are unchanged. -/
theorem nodeDiscover_absent (K : Env σ) (ord : List (String × Node)) (addr V : String)
    (m : Manager σ)
    (h : ∀ p ∈ ord, ∀ mon, p.2.Mon = some mon → mon.mgmtAddr ≠ addr) :
    nodeDiscover.process K ord addr V m =
      (.returned (K.configuration .Configure
          [NewAnsibleHost "node1" addr K.ansibleDiscoverGroupName
            [(K.ansibleNodeNameHostVar, "node1"), (K.ansibleNodeAddrHostVar, addr)]] V
          m.world).1.2,
        { nodes := m.nodes
          reqQ := m.reqQ
          world := (K.configuration .Configure
            [NewAnsibleHost "node1" addr K.ansibleDiscoverGroupName
              [(K.ansibleNodeNameHostVar, "node1"), (K.ansibleNodeAddrHostVar, addr)]] V
            m.world).2
          calls := m.calls ++ [Call.cfg .Configure
            [NewAnsibleHost "node1" addr K.ansibleDiscoverGroupName
              [(K.ansibleNodeNameHostVar, "node1"), (K.ansibleNodeAddrHostVar, addr)]] V] }) := by
  unfold nodeDiscover.process
  simp only [findNodeByMgmtAddr, scanMgmtAddr_none addr ord h, runPlaybook_eq]
  cases hres : (K.configuration .Configure
      [NewAnsibleHost "node1" addr K.ansibleDiscoverGroupName
        [(K.ansibleNodeNameHostVar, "node1"), (K.ansibleNodeAddrHostVar, addr)]] V
      m.world).1.2 with
  | none => simp [hres]
  | some e => simp [hres]

/-- What `nodeDiscover.process` does when a node of the registry has the
address: the manager is left as it was (Configure is not run); the node the
scan finds has the address, and process returns the already-exists error
with its inventory tag when it has an inventory view, and panics when it has
none. -/
theorem nodeDiscover_found (K : Env σ) (ord : List (String × Node)) (addr V : String)
    (m : Manager σ)
    (h : ∃ p ∈ ord, ∃ mon, p.2.Mon = some mon ∧ mon.mgmtAddr = addr) :
    (nodeDiscover.process K ord addr V m).2 = m ∧
    ∃ p ∈ ord, ∃ mon, p.2.Mon = some mon ∧ mon.mgmtAddr = addr ∧
      (p.2.Inv = none → (nodeDiscover.process K ord addr V m).1 = .panicked) ∧
      (∀ asset, p.2.Inv = some asset →
        (nodeDiscover.process K ord addr V m).1 =
          .returned (some (Errorf ("a node " ++ goQuote K.isPrint asset.name ++
            " already exists with the management address " ++ goQuote K.isPrint addr)))) := by
  obtain ⟨p, hp, mon, hmon, haddr, hscan⟩ := scanMgmtAddr_found addr ord h
  unfold nodeDiscover.process
  simp only [findNodeByMgmtAddr, hscan]
  cases hinv : p.2.Inv with
  | none => exact ⟨rfl, p, hp, mon, hmon, haddr, by simp [hinv], by simp [hinv]⟩
  | some a => exact ⟨rfl, p, hp, mon, hmon, haddr, by simp [hinv], by simp [hinv]⟩

/-- C11 fails on the code: the node `n1-0` at `10.0.0.1` is discovered while
`AddAsset` fails, so that it stays in the registry with a monitoring view and
no inventory view; a bootstrap discovery of `10.0.0.1` then finds that node
and `node.Inv.GetTag()` is called on a nil view: the program panics and no
error is returned.  (Configure is not run.) -/
theorem c11_discover_panics_without_inventory_view :
    (nodeDiscovered.process sampleEnv sampleSnapshot (sampleManager [] [.AddAsset] [])).1 =
      .returned (some (Errorf "inventory failure")) ∧
    lookupNode "n1-0" sampleHalfDiscoveredManager.nodes =
      some { Mon := some sampleSnapshot, Inv := none,
             Cfg := some (NewAnsibleHost "n1-0" "10.0.0.1" "service-master"
               [("node_name", "n1-0"), ("node_addr", "10.0.0.1")]) } ∧
    nodeDiscover.process sampleEnv sampleHalfDiscoveredManager.nodes "10.0.0.1" "v=1"
        sampleHalfDiscoveredManager = (.panicked, sampleHalfDiscoveredManager) := by
  refine ⟨by decide, by decide, by decide⟩

/-! ## Every `process` leaves the queue with, at most, one event added at its tail,
and is not stopped at a send when the queue has room -/

theorem nodeCommissioned_reqQ (K : Env σ) (N V : String) (m : Manager σ) :
    m.reqQ <+: (nodeCommissioned.process K N V m).2.reqQ ∧
    (nodeCommissioned.process K N V m).2.reqQ.length ≤ m.reqQ.length + 1 ∧
    (m.reqQ.length < reqQCapacity → (nodeCommissioned.process K N V m).1 ≠ .blocked) := by
  unfold nodeCommissioned.process
  cases hd : K.isDiscoveredNode m.nodes m.world N with
  | error e => simp
  | ok b =>
    cases b with
    | false => simp
    | true =>
      cases hinv : (K.inventory .SetAssetProvisioning N m.world).1 with
      | none =>
        by_cases hroom : m.reqQ.length < reqQCapacity
        · simp [callInventory, hinv, enqueue, hroom]
        · simp [callInventory, hinv, enqueue, hroom]
      | some e => simp [callInventory, hinv]

theorem nodeDecommissioned_reqQ (K : Env σ) (ord : List (String × Node)) (N V : String)
    (m : Manager σ) : m.reqQ <+: (nodeDecommissioned.process K ord N V m).2.reqQ ∧
    (nodeDecommissioned.process K ord N V m).2.reqQ.length ≤ m.reqQ.length + 1 ∧
    (m.reqQ.length < reqQCapacity → (nodeDecommissioned.process K ord N V m).1 ≠ .blocked) := by
  unfold nodeDecommissioned.process
  cases hd : K.isMasterNode m.nodes m.world N with
  | error e => simp
  | ok b =>
    cases hg : (b && nodeDecommissioned.workerRemains K m N ord) with
    | true => simp [hg]
    | false =>
      cases hinv : (K.inventory .SetAssetCancelled N m.world).1 with
      | none =>
        by_cases hroom : m.reqQ.length < reqQCapacity
        · simp [hg, callInventory, hinv, enqueue, hroom]
        · simp [hg, callInventory, hinv, enqueue, hroom]
      | some e => simp [hg, callInventory, hinv]

theorem nodeInMaintenance_reqQ (K : Env σ) (N V : String) (m : Manager σ) :
    m.reqQ <+: (nodeInMaintenance.process K N V m).2.reqQ ∧
    (nodeInMaintenance.process K N V m).2.reqQ.length ≤ m.reqQ.length + 1 ∧
    (m.reqQ.length < reqQCapacity → (nodeInMaintenance.process K N V m).1 ≠ .blocked) := by
  unfold nodeInMaintenance.process
  cases hinv : (K.inventory .SetAssetInMaintenance N m.world).1 with
  | none =>
    by_cases hroom : m.reqQ.length < reqQCapacity
    · simp [callInventory, hinv, enqueue, hroom]
    · simp [callInventory, hinv, enqueue, hroom]
  | some e => simp [callInventory, hinv]

theorem nodeConfigure_not_blocked (K : Env σ) (ord : List (String × Node)) (N V : String)
    (m : Manager σ) : (nodeConfigure.process K ord N V m).1 ≠ .blocked := by
  cases hfind : findNode K m N with
  | error e => simp [nodeConfigure.process, hfind]
  | ok node =>
    cases hcfg : node.Cfg with
    | none => simp [nodeConfigure.process, hfind, hcfg]
    | some h0 =>
      cases hscan : nodeConfigure.roleScan K m N ord with
      | panicked => simp [nodeConfigure_panicked K ord N V m node h0 hfind hcfg hscan]
      | done g a nm =>
        unfold nodeConfigure.process
        simp only [hfind, hcfg, hscan, runPlaybook_eq, callInventory]
        cases hres : (K.configuration .Configure [nodeConfigure.assignRole K h0 g a nm] V
            m.world).1.2 with
        | none =>
          cases hinv : (K.inventory .SetAssetCommissioned N
              (K.configuration .Configure [nodeConfigure.assignRole K h0 g a nm] V
                m.world).2).1 with
          | none => simp [hinv]
          | some e1 => simp [hinv]
        | some e =>
          cases hinv : (K.inventory .SetAssetUnallocated N
              (K.configuration .Configure [nodeConfigure.assignRole K h0 g a nm] V
                m.world).2).1 with
          | none => simp [hinv]
          | some e1 => simp [hinv]

theorem nodeConfigure_reqQ (K : Env σ) (ord : List (String × Node)) (N V : String)
    (m : Manager σ) : m.reqQ <+: (nodeConfigure.process K ord N V m).2.reqQ ∧
    (nodeConfigure.process K ord N V m).2.reqQ.length ≤ m.reqQ.length + 1 ∧
    (m.reqQ.length < reqQCapacity → (nodeConfigure.process K ord N V m).1 ≠ .blocked) := by
  cases hfind : findNode K m N with
  | error e => simp [nodeConfigure.process, hfind]
  | ok node =>
    cases hcfg : node.Cfg with
    | none => simp [nodeConfigure.process, hfind, hcfg]
    | some h0 =>
      cases hscan : nodeConfigure.roleScan K m N ord with
      | panicked => simp [nodeConfigure_panicked K ord N V m node h0 hfind hcfg hscan]
      | done g a nm =>
        rw [(nodeConfigure_done K ord N V m node h0 g a nm hfind hcfg hscan).2.2.1]
        exact ⟨List.prefix_refl _, Nat.le_succ _, fun _ => nodeConfigure_not_blocked K ord N V m⟩

theorem nodeCleanup_reqQ (K : Env σ) (N V : String) (m : Manager σ) :
    m.reqQ <+: (nodeCleanup.process K N V m).2.reqQ ∧
    (nodeCleanup.process K N V m).2.reqQ.length ≤ m.reqQ.length + 1 ∧
    (m.reqQ.length < reqQCapacity → (nodeCleanup.process K N V m).1 ≠ .blocked) := by
  unfold nodeCleanup.process
  cases hfind : findNode K m N with
  | error e => simp
  | ok node =>
    cases hcfg : node.Cfg with
    | none => simp [hcfg]
    | some h0 =>
      simp only [hcfg, runPlaybook_eq, callInventory]
      cases hinv : (K.inventory .SetAssetDecommissioned N
          (K.configuration .Cleanup [h0] V m.world).2).1 with
      | none => simp [hinv]
      | some e => simp [hinv]

theorem nodeUpgrade_reqQ (K : Env σ) (N V : String) (m : Manager σ) :
    m.reqQ <+: (nodeUpgrade.process K N V m).2.reqQ ∧
    (nodeUpgrade.process K N V m).2.reqQ.length ≤ m.reqQ.length + 1 ∧
    (m.reqQ.length < reqQCapacity → (nodeUpgrade.process K N V m).1 ≠ .blocked) := by
  unfold nodeUpgrade.process
  cases hfind : findNode K m N with
  | error e => simp
  | ok node =>
    cases hcfg : node.Cfg with
    | none => simp [hcfg]
    | some h0 =>
      simp only [hcfg, runPlaybook_eq, callInventory]
      cases hres : (K.configuration .Upgrade [h0] V m.world).1.2 with
      | none =>
        cases hinv : (K.inventory .SetAssetCommissioned N
            (K.configuration .Upgrade [h0] V m.world).2).1 with
        | none => simp [hinv]
        | some e => simp [hinv]
      | some e0 =>
        cases hinv : (K.inventory .SetAssetUnallocated N
            (K.configuration .Upgrade [h0] V m.world).2).1 with
        | none => simp [hinv]
        | some e => simp [hinv]

theorem nodeDiscovered_reqQ (K : Env σ) (node : SubsysNode) (m : Manager σ) :
    m.reqQ <+: (nodeDiscovered.process K node m).2.reqQ ∧
    (nodeDiscovered.process K node m).2.reqQ.length ≤ m.reqQ.length + 1 ∧
    (m.reqQ.length < reqQCapacity → (nodeDiscovered.process K node m).1 ≠ .blocked) := by
  cases hfind : findNode K m (nodeIdentity node) with
  | ok nd => simp [nodeDiscovered.process, hfind]
  | error err =>
    by_cases htxt : err.Error = (K.nodeNotExistsError (nodeIdentity node)).Error
    · cases hget : K.getAsset (nodeIdentity node) m.world with
      | none =>
        cases hinv : (K.inventory .AddAsset (nodeIdentity node) m.world).1 with
        | none => simp [nodeDiscovered.process, hfind, htxt, hget, callInventory, hinv]
        | some e => simp [nodeDiscovered.process, hfind, htxt, hget, callInventory, hinv]
      | some a =>
        cases hinv : (K.inventory .SetAssetDiscovered (nodeIdentity node) m.world).1 with
        | none => simp [nodeDiscovered.process, hfind, htxt, hget, callInventory, hinv]
        | some e => simp [nodeDiscovered.process, hfind, htxt, hget, callInventory, hinv]
    · simp [nodeDiscovered.process, hfind, htxt]

theorem nodeDisappeared_reqQ (K : Env σ) (node : SubsysNode) (m : Manager σ) :
    m.reqQ <+: (nodeDisappeared.process K node m).2.reqQ ∧
    (nodeDisappeared.process K node m).2.reqQ.length ≤ m.reqQ.length + 1 ∧
    (m.reqQ.length < reqQCapacity → (nodeDisappeared.process K node m).1 ≠ .blocked) := by
  cases hfind : findNode K m (nodeIdentity node) with
  | error err => simp [nodeDisappeared.process, hfind]
  | ok nd =>
    cases hinv : (K.inventory .SetAssetDisappeared (nodeIdentity node) m.world).1 with
    | none => simp [nodeDisappeared.process, hfind, callInventory, hinv]
    | some e => simp [nodeDisappeared.process, hfind, callInventory, hinv]

theorem nodeDiscover_reqQ (K : Env σ) (ord : List (String × Node)) (addr V : String)
    (m : Manager σ) : m.reqQ <+: (nodeDiscover.process K ord addr V m).2.reqQ ∧
    (nodeDiscover.process K ord addr V m).2.reqQ.length ≤ m.reqQ.length + 1 ∧
    (m.reqQ.length < reqQCapacity → (nodeDiscover.process K ord addr V m).1 ≠ .blocked) := by
  cases hfind : findNodeByMgmtAddr K ord addr with
  | ok nd =>
    cases hinv : nd.Inv with
    | none => simp [nodeDiscover.process, hfind, hinv]
    | some a => simp [nodeDiscover.process, hfind, hinv]
  | error err =>
    cases hres : (K.configuration .Configure
        [NewAnsibleHost "node1" addr K.ansibleDiscoverGroupName
          [(K.ansibleNodeNameHostVar, "node1"), (K.ansibleNodeAddrHostVar, addr)]] V
        m.world).1.2 with
    | none => simp [nodeDiscover.process, hfind, runPlaybook_eq, hres]
    | some e => simp [nodeDiscover.process, hfind, runPlaybook_eq, hres]

theorem waitableEvent_process_fst (inEvent : Manager σ → Outcome × Manager σ)
    (m : Manager σ) : (waitableEvent.process inEvent m).1 = inEvent m := by
  unfold waitableEvent.process
  cases h : inEvent m with
  | mk out m1 =>
    cases out with
    | returned err => rfl
    | panicked => rfl
    | blocked => rfl

theorem Event_process_reqQ (K : Env σ) (ord : List (String × Node)) :
    ∀ (ev : Event) (m : Manager σ), m.reqQ <+: (Event.process K ord ev m).2.reqQ ∧
    (Event.process K ord ev m).2.reqQ.length ≤ m.reqQ.length + 1 ∧
    (m.reqQ.length < reqQCapacity → (Event.process K ord ev m).1 ≠ .blocked)
  | .nodeDiscovered node, m => nodeDiscovered_reqQ K node m
  | .nodeDisappeared node, m => nodeDisappeared_reqQ K node m
  | .nodeCommissioned N V, m => nodeCommissioned_reqQ K N V m
  | .nodeDecommissioned N V, m => nodeDecommissioned_reqQ K ord N V m
  | .nodeInMaintenance N V, m => nodeInMaintenance_reqQ K N V m
  | .nodeConfigure N V, m => nodeConfigure_reqQ K ord N V m
  | .nodeCleanup N V, m => nodeCleanup_reqQ K N V m
  | .nodeUpgrade N V, m => nodeUpgrade_reqQ K N V m
  | .nodeDiscover addr V, m => nodeDiscover_reqQ K ord addr V m
  | .setGlobals V, m => by simp [Event.process, setGlobals.process]
  | .waitableEvent e, m => by
    have ih := Event_process_reqQ K ord e m
    simp only [Event.process, waitableEvent_process_fst]
    exact ih

/-! ## Lemmas on the event loop -/

theorem eventLoop_empty (K : Env σ) (ord : List (String × Node))
    (ords : List (List (String × Node))) (m : Manager σ) (h : m.reqQ = []) :
    eventLoop K (ord :: ords) m = ([], m) := by
  simp [eventLoop, eventLoopStep, h]

theorem eventLoop_panicked (K : Env σ) (ord : List (String × Node))
    (ords : List (List (String × Node))) (m : Manager σ) (me : Event) (rest : List Event)
    (h : m.reqQ = me :: rest)
    (hp : (Event.process K ord me { m with reqQ := rest }).1 = .panicked) :
    eventLoop K (ord :: ords) m =
      ([(me, .panicked)], (Event.process K ord me { m with reqQ := rest }).2) := by
  simp [eventLoop, eventLoopStep, h, hp]

theorem eventLoop_blocked (K : Env σ) (ord : List (String × Node))
    (ords : List (List (String × Node))) (m : Manager σ) (me : Event) (rest : List Event)
    (h : m.reqQ = me :: rest)
    (hp : (Event.process K ord me { m with reqQ := rest }).1 = .blocked) :
    eventLoop K (ord :: ords) m =
      ([(me, .blocked)], (Event.process K ord me { m with reqQ := rest }).2) := by
  simp [eventLoop, eventLoopStep, h, hp]

theorem eventLoop_returned (K : Env σ) (ord : List (String × Node))
    (ords : List (List (String × Node))) (m : Manager σ) (me : Event) (rest : List Event)
    (err : Option Error) (h : m.reqQ = me :: rest)
    (hp : (Event.process K ord me { m with reqQ := rest }).1 = .returned err) :
    eventLoop K (ord :: ords) m =
      ((me, .returned err) ::
          (eventLoop K ords (Event.process K ord me { m with reqQ := rest }).2).1,
        (eventLoop K ords (Event.process K ord me { m with reqQ := rest }).2).2) := by
  simp [eventLoop, eventLoopStep, h, hp]

theorem eventLoop_trace (K : Env σ) :
    ∀ (ords : List (List (String × Node))) (m : Manager σ),
      ∃ F, (eventLoop K ords m).1.map Prod.fst ++ (eventLoop K ords m).2.reqQ = m.reqQ ++ F
  | [], m => ⟨[], by simp [eventLoop]⟩
  | ord :: ords, m => by
    cases hq : m.reqQ with
    | nil => exact ⟨[], by simp [eventLoop_empty K ord ords m hq, hq]⟩
    | cons me rest =>
      obtain ⟨f, hf⟩ := (Event_process_reqQ K ord me { m with reqQ := rest }).1
      simp only [] at hf
      cases hp : (Event.process K ord me { m with reqQ := rest }).1 with
      | panicked =>
        refine ⟨f, ?_⟩
        rw [eventLoop_panicked K ord ords m me rest hq hp]
        simp [← hf]
      | blocked =>
        refine ⟨f, ?_⟩
        rw [eventLoop_blocked K ord ords m me rest hq hp]
        simp [← hf]
      | returned err =>
        obtain ⟨F, hF⟩ := eventLoop_trace K ords (Event.process K ord me { m with reqQ := rest }).2
        refine ⟨f ++ F, ?_⟩
        rw [eventLoop_returned K ord ords m me rest err hq hp]
        simp only [List.map_cons, List.cons_append, hF, ← hf, List.append_assoc]

theorem eventLoop_complete (K : Env σ) :
    ∀ (ords : List (List (String × Node))) (m : Manager σ),
      (∀ p ∈ (eventLoop K ords m).1, p.2 ≠ .panicked ∧ p.2 ≠ .blocked) →
      (eventLoop K ords m).1.length = ords.length ∨ (eventLoop K ords m).2.reqQ = []
  | [], m, _ => Or.inl (by simp [eventLoop])
  | ord :: ords, m, hnp => by
    cases hq : m.reqQ with
    | nil => exact Or.inr (by simp [eventLoop_empty K ord ords m hq, hq])
    | cons me rest =>
      cases hp : (Event.process K ord me { m with reqQ := rest }).1 with
      | panicked =>
        rw [eventLoop_panicked K ord ords m me rest hq hp] at hnp
        exact absurd rfl (hnp (me, .panicked) (List.mem_singleton.2 rfl)).1
      | blocked =>
        rw [eventLoop_blocked K ord ords m me rest hq hp] at hnp
        exact absurd rfl (hnp (me, .blocked) (List.mem_singleton.2 rfl)).2
      | returned err =>
        rw [eventLoop_returned K ord ords m me rest err hq hp] at hnp ⊢
        have ih := eventLoop_complete K ords (Event.process K ord me { m with reqQ := rest }).2
          (fun p hp1 => hnp p (List.mem_cons_of_mem _ hp1))
        rcases ih with h1 | h2
        · exact Or.inl (by simp [h1])
        · exact Or.inr h2

/-- A loop that starts on a queue within the capacity of the channel is
never stopped at a send: a turn takes an event from the queue before the
`process` of that event adds, at most, one. -/
theorem eventLoop_not_blocked (K : Env σ) :
    ∀ (ords : List (List (String × Node))) (m : Manager σ),
      m.reqQ.length ≤ reqQCapacity → ∀ p ∈ (eventLoop K ords m).1, p.2 ≠ .blocked
  | [], m, _ => by simp [eventLoop]
  | ord :: ords, m, hcap => by
    cases hq : m.reqQ with
    | nil => simp [eventLoop_empty K ord ords m hq]
    | cons me rest =>
      have hroom : rest.length < reqQCapacity := by
        rw [hq] at hcap
        exact Nat.lt_of_succ_le hcap
      have hstep := Event_process_reqQ K ord me { m with reqQ := rest }
      have hnb := hstep.2.2 hroom
      cases hp : (Event.process K ord me { m with reqQ := rest }).1 with
      | panicked =>
        rw [eventLoop_panicked K ord ords m me rest hq hp]
        simp
      | blocked => exact absurd hp hnb
      | returned err =>
        rw [eventLoop_returned K ord ords m me rest err hq hp]
        have hlen : (Event.process K ord me { m with reqQ := rest }).2.reqQ.length ≤
            reqQCapacity := Nat.le_trans hstep.2.1 (Nat.succ_le_of_lt hroom)
        have ih := eventLoop_not_blocked K ords
          (Event.process K ord me { m with reqQ := rest }).2 hlen
        intro p hp1
        rcases List.mem_cons.1 hp1 with h1 | h1
        · rw [h1]; simp
        · exact ih p h1

/-! ## Waitable events (C16) -/

/-- C16: when the `process` of the event `e` returns `r` (nil or an error)
and leaves the manager `m1`, the `process` of the waitable event that holds
`e` runs it once (the manager left is `m1`), sends exactly one value on
`statusCh`, that `r`, and returns `r`; `waitForCompletion` then receives
`r`. -/
theorem c16_waitable_event (K : Env σ) (ord : List (String × Node)) (e : Event)
    (m m1 : Manager σ) (r : Option Error)
    (h : Event.process K ord e m = (.returned r, m1)) :
    waitableEvent.process (Event.process K ord e) m = ((.returned r, m1), [r]) ∧
    Event.process K ord (.waitableEvent e) m = (.returned r, m1) ∧
    waitableEvent.waitForCompletion (waitableEvent.process (Event.process K ord e) m).2 =
      some r := by
  have hw : waitableEvent.process (Event.process K ord e) m = ((.returned r, m1), [r]) := by
    simp [waitableEvent.process, h]
  refine ⟨hw, ?_, ?_⟩
  · simp [Event.process, hw]
  · simp [hw, waitableEvent.waitForCompletion]

/-- C16, at a commission that fails (the node `zz` is not in the registry)
and at one that succeeds: in both cases the result is sent and returned. -/
theorem c16_waitable_event_witness :
    (waitableEvent.process
        (Event.process sampleEnv sampleFresh (.nodeCommissioned "zz" "v=1"))
        (sampleManager sampleFresh [] [])).2 =
      [some (sampleEnv.nodeNotExistsError "zz")] ∧
    (waitableEvent.process
        (Event.process sampleEnv sampleFresh (.nodeCommissioned "n1" "v=1"))
        (sampleManager sampleFresh [] [])).2 = [none] :=
  ⟨congrArg Prod.snd (c16_waitable_event sampleEnv sampleFresh (.nodeCommissioned "zz" "v=1")
      (sampleManager sampleFresh [] []) _ _ rfl).1,
   congrArg Prod.snd (c16_waitable_event sampleEnv sampleFresh (.nodeCommissioned "n1" "v=1")
      (sampleManager sampleFresh [] []) _ _ rfl).1⟩

/-! ## The event loop (C17) -/

/-- C17: (i) a turn of the loop takes the event at the head of the queue and
leaves the rest of the queue with, at most, one event added at its tail; (ii)
after any number of turns, the events processed, in the order they were
processed, followed by the events still queued are the initial queue followed
by the events added since: every event is processed once, in the order of the
queue, and an event added by a `process` comes after all those that were
queued before it; (iii) on every initial queue that the channel can hold (at
most 100 events) no event is ever stopped at a send, and, whatever errors the
events return, as long as none panics and the loop is given as many turns as
the initial queue has events, every event of the initial queue is processed,
in the order of the queue; (iv) on any list of events taken as the initial
queue, the same holds of the runs in which every `process` returns. -/
theorem c17_event_loop_fifo (K : Env σ) (ords : List (List (String × Node)))
    (m : Manager σ) :
    (∀ ord me rest, m.reqQ = me :: rest →
      ∃ out m1 f, eventLoopStep K ord m = some (me, out, m1) ∧ m1.reqQ = rest ++ f ∧
        f.length ≤ 1) ∧
    (∃ F, (eventLoop K ords m).1.map Prod.fst ++ (eventLoop K ords m).2.reqQ = m.reqQ ++ F) ∧
    (m.reqQ.length ≤ reqQCapacity →
      (∀ p ∈ (eventLoop K ords m).1, p.2 ≠ .blocked) ∧
      ((∀ p ∈ (eventLoop K ords m).1, p.2 ≠ .panicked) → m.reqQ.length ≤ ords.length →
        m.reqQ <+: (eventLoop K ords m).1.map Prod.fst)) ∧
    ((∀ p ∈ (eventLoop K ords m).1, p.2 ≠ .panicked ∧ p.2 ≠ .blocked) →
      m.reqQ.length ≤ ords.length →
      m.reqQ <+: (eventLoop K ords m).1.map Prod.fst) := by
  have hall : (∀ p ∈ (eventLoop K ords m).1, p.2 ≠ .panicked ∧ p.2 ≠ .blocked) →
      m.reqQ.length ≤ ords.length →
      m.reqQ <+: (eventLoop K ords m).1.map Prod.fst := by
    intro hnp hlen
    obtain ⟨F, hF⟩ := eventLoop_trace K ords m
    rcases eventLoop_complete K ords m hnp with h1 | h2
    · have hp1 : m.reqQ <+: m.reqQ ++ F := List.prefix_append _ _
      have hp2 : (eventLoop K ords m).1.map Prod.fst <+: m.reqQ ++ F :=
        ⟨(eventLoop K ords m).2.reqQ, hF⟩
      exact List.prefix_of_prefix_length_le hp1 hp2 (by simp [h1, hlen])
    · rw [h2, List.append_nil] at hF
      exact ⟨F, hF.symm⟩
  refine ⟨?_, eventLoop_trace K ords m, ?_, hall⟩
  · intro ord me rest hq
    have hstep := Event_process_reqQ K ord me { m with reqQ := rest }
    obtain ⟨f, hf⟩ := hstep.1
    have hlen := hstep.2.1
    rw [← hf] at hlen
    simp only [List.length_append] at hlen
    exact ⟨(Event.process K ord me { m with reqQ := rest }).1,
      (Event.process K ord me { m with reqQ := rest }).2, f,
      by simp [eventLoopStep, hq], hf.symm, Nat.le_of_add_le_add_left hlen⟩
  · intro hcap
    have hnb := eventLoop_not_blocked K ords m hcap
    exact ⟨hnb, fun hnp hlen => hall (fun p hp => ⟨hnp p hp, hnb p hp⟩) hlen⟩

/-- C17, at a queue of three events whose second one fails: the three are
processed in the order of the queue, and the events that the first and the
third add are processed after them, in that order. -/
theorem c17_event_loop_fifo_witness :
    sampleQueueManager.reqQ <+:
        (eventLoop sampleEnv (List.replicate 5 sampleFresh) sampleQueueManager).1.map Prod.fst ∧
    (eventLoop sampleEnv (List.replicate 5 sampleFresh) sampleQueueManager).1 =
      [(.nodeCommissioned "n1" "v=1", .returned none),
       (.waitableEvent (.nodeCommissioned "zz" "v=1"),
         .returned (some (sampleEnv.nodeNotExistsError "zz"))),
       (.nodeInMaintenance "n1" "v=1", .returned none),
       (.nodeConfigure "n1" "v=1", .returned none),
       (.nodeUpgrade "n1" "v=1", .returned none)] ∧
    sampleQueueManager.reqQ <+:
        (eventLoop sampleEnv (List.replicate 5 sampleFresh) sampleQueueManager).1.map Prod.fst :=
  ⟨((c17_event_loop_fifo sampleEnv (List.replicate 5 sampleFresh) sampleQueueManager).2.2.1
      (by decide)).2 (by decide) (by decide),
   by decide,
   (c17_event_loop_fifo sampleEnv (List.replicate 5 sampleFresh) sampleQueueManager).2.2.2
      (by decide) (by decide)⟩

/-! ## The asset state machine (C18, C19, C20) -/

/-- C18: let the target `(s', t')` differ from the status and state of the
asset, let the status of the asset to `s'` be on the adjacency table, let
`t'` be permitted for `s'`, and let the call `SetAssetStatus` of the client
return nil.  Then `SetStatus(s', t')` returns nil, makes exactly one call to
the client, `SetAssetStatus(name, s', t', description of t')`, and leaves the
asset with status `s'`, state `t'`, the former status and state as
`prevStatus` and `prevState`, and the same name (the client handle is an
argument of the model and is not written). -/
theorem c18_set_status_applies {γ : Type} (T : AssetTables) (c : Client γ) (a : Asset)
    (s1 : AssetStatus) (t1 : AssetState) (w : γ)
    (hdiff : (a.status, a.state) ≠ (s1, t1))
    (htable : statusTransitionAllowed a.status s1 = true)
    (hstate : T.stateAllowed s1 t1 = true)
    (hclient : (c.SetAssetStatus a.name (T.statusString s1) (T.stateString t1)
      (T.StateDescription t1) w).1 = none) :
    Asset.SetStatus T (some c) a s1 t1 w =
      { outcome := .returned none
        asset := { name := a.name, status := s1, prevStatus := a.status, state := t1,
                   prevState := a.state }
        world := (c.SetAssetStatus a.name (T.statusString s1) (T.stateString t1)
          (T.StateDescription t1) w).2
        calls := [ClientCall.SetAssetStatus a.name (T.statusString s1) (T.stateString t1)
          (T.StateDescription t1)] } := by
  have hne : ¬ (a.status = s1 ∧ a.state = t1) := fun h => hdiff (by rw [h.1, h.2])
  simp [Asset.SetStatus, hne, htable, hstate, hclient]

/-- C18, at the asset `foo` of `TestSetStatus`: Unallocated/Discovered to
Provisioning/Disappeared. -/
theorem c18_set_status_applies_witness :
    Asset.SetStatus sampleTables (some (sampleClient false)) sampleAssetFoo
        AssetStatus.Provisioning AssetState.Disappeared () =
      { outcome := .returned none
        asset := { name := "foo", status := AssetStatus.Provisioning,
                   prevStatus := AssetStatus.Unallocated, state := AssetState.Disappeared,
                   prevState := AssetState.Discovered }
        world := ()
        calls := [ClientCall.SetAssetStatus "foo" "Provisioning" "Disappeared"
          "node is Disappeared"] } :=
  c18_set_status_applies sampleTables (sampleClient false) sampleAssetFoo
    AssetStatus.Provisioning AssetState.Disappeared () (by decide) (by decide) (by decide)
    (by decide)

/-- C19: `SetStatus` with the status and the state the asset already has
returns nil, leaves every field of the asset as it was (`prevStatus` and
`prevState` are not shifted) and makes no call to the client, whether the
asset has a client or not. -/
theorem c19_set_status_same_is_noop {γ : Type} (T : AssetTables) (client : Option (Client γ))
    (a : Asset) (w : γ) :
    Asset.SetStatus T client a a.status a.state w =
      { outcome := .returned none, asset := a, world := w, calls := [] } := by
  simp [Asset.SetStatus]

/-- C20: when the target status `s'` differs from the status `s` of the asset
and `s` to `s'` is not on the adjacency table, `SetStatus(s', t')` returns,
for every state `t'` and with or without a client, an error whose text is
`transition from ... is not allowed`; it makes no call to the client and
leaves every field of the asset as it was. -/
theorem c20_set_status_invalid_transition {γ : Type} (T : AssetTables)
    (client : Option (Client γ)) (a : Asset) (s1 : AssetStatus) (t1 : AssetState) (w : γ)
    (hne : a.status ≠ s1)
    (htable : statusTransitionAllowed a.status s1 = false) :
    ∃ err, Asset.SetStatus T client a s1 t1 w =
        { outcome := .returned (some err), asset := a, world := w, calls := [] } ∧
      ∃ mid, err.Error = "transition from " ++ mid ++ " is not allowed" := by
  refine ⟨errInvalidStatusTransition T a.status s1, ?_,
    T.statusString a.status ++ " to " ++ T.statusString s1, ?_⟩
  · have hne2 : ¬ (a.status = s1 ∧ a.state = t1) := fun h => hne h.1
    simp [Asset.SetStatus, hne2, hne, htable]
  · simp [errInvalidStatusTransition, Errorf_text, String.append_assoc]

/-- C20, at the asset `foo` of `TestSetStatusInvalidStatusTransition`, which
has no client: Unallocated to Cancelled and Unallocated to Decommissioned are
refused. -/
theorem c20_set_status_invalid_transition_witness :
    (∃ err, Asset.SetStatus sampleTables (none : Option (Client Unit)) sampleAssetFoo
        AssetStatus.Cancelled AssetState.Disappeared () =
        { outcome := .returned (some err), asset := sampleAssetFoo, world := (), calls := [] } ∧
      ∃ mid, err.Error = "transition from " ++ mid ++ " is not allowed") ∧
    (∃ err, Asset.SetStatus sampleTables (none : Option (Client Unit)) sampleAssetFoo
        AssetStatus.Decommissioned AssetState.Discovered () =
        { outcome := .returned (some err), asset := sampleAssetFoo, world := (), calls := [] } ∧
      ∃ mid, err.Error = "transition from " ++ mid ++ " is not allowed") :=
  ⟨c20_set_status_invalid_transition sampleTables none sampleAssetFoo
      AssetStatus.Cancelled AssetState.Disappeared () (by decide) (by decide),
   c20_set_status_invalid_transition sampleTables none sampleAssetFoo
      AssetStatus.Decommissioned AssetState.Discovered () (by decide) (by decide)⟩

/-! ## The asset state machine, continued (C21, C22, C23) -/

theorem last_char_append (a b : String) (c : Char) (h : b.data.getLast? = some c) :
    (a ++ b).data.getLast? = some c := by
  have hne : b.data ≠ [] := by
    intro hnil
    rw [hnil] at h
    cases h
  rw [String.data_append, List.getLast?_append_of_ne_nil _ hne, h]

theorem errInvalidStateTransition_ne (T : AssetTables) (s : AssetStatus) (t : AssetState)
    (old new : AssetStatus) :
    errInvalidStateTransition T s t ≠ errInvalidStatusTransition T old new := by
  intro heq
  have htext := congrArg (fun e => e.desc.data.getLast?) heq
  simp only [errInvalidStateTransition, errInvalidStatusTransition, Errorf] at htext
  rw [last_char_append _ " status" 's' (by decide),
    last_char_append _ " is not allowed" 'd' (by decide)] at htext
  exact absurd htext (by decide)

/-- C21: let the target `(s', t')` differ from the status and state of the
asset and pass the status check (the status is kept, or the change is on the
adjacency table), and let `t'` not be permitted for `s'`.  Then `SetStatus`
returns, with or without a client, an error whose text is `... is not a
valid state when asset is in ... status`, which is no invalid-transition
error; it makes no call to the client and leaves every field of the asset
as it was.  A change of state alone, the status being kept, is among these
targets. -/
theorem c21_set_status_invalid_state {γ : Type} (T : AssetTables)
    (client : Option (Client γ)) (a : Asset) (s1 : AssetStatus) (t1 : AssetState) (w : γ)
    (hdiff : (a.status, a.state) ≠ (s1, t1))
    (hstatus : a.status = s1 ∨ statusTransitionAllowed a.status s1 = true)
    (hstate : T.stateAllowed s1 t1 = false) :
    ∃ err, Asset.SetStatus T client a s1 t1 w =
        { outcome := .returned (some err), asset := a, world := w, calls := [] } ∧
      (∃ pre mid, err.Error =
        pre ++ " is not a valid state when asset is in " ++ mid ++ " status") ∧
      ∀ old new, err ≠ errInvalidStatusTransition T old new := by
  refine ⟨errInvalidStateTransition T s1 t1, ?_, ⟨T.stateString t1, T.statusString s1, ?_⟩,
    errInvalidStateTransition_ne T s1 t1⟩
  · have hne : ¬ (a.status = s1 ∧ a.state = t1) := fun h => hdiff (by rw [h.1, h.2])
    rcases hstatus with hkept | hallowed
    · have hst : ¬ a.state = t1 := fun h => hne ⟨hkept, h⟩
      simp [Asset.SetStatus, hkept, hst, hstate]
    · simp [Asset.SetStatus, hne, hallowed, hstate]
  · simp [errInvalidStateTransition, Errorf_text]

/-- C21, at the asset of `TestSetStatusUnallowedState`, which has no client:
Incomplete/Discovered to Incomplete/Disappeared. -/
theorem c21_set_status_invalid_state_witness :
    ∃ err, Asset.SetStatus sampleTables (none : Option (Client Unit)) sampleAssetIncomplete
        AssetStatus.Incomplete AssetState.Disappeared () =
        { outcome := .returned (some err), asset := sampleAssetIncomplete, world := (),
          calls := [] } ∧
      (∃ pre mid, err.Error =
        pre ++ " is not a valid state when asset is in " ++ mid ++ " status") ∧
      ∀ old new, err ≠ errInvalidStatusTransition sampleTables old new :=
  c21_set_status_invalid_state sampleTables none sampleAssetIncomplete
    AssetStatus.Incomplete AssetState.Disappeared () (by decide) (Or.inl rfl) (by decide)

/-- C22: let the target `(s', t')` differ from the status and state of the
asset and be valid (it passes the status check and `t'` is permitted for
`s'`), and let the call `SetAssetStatus` of the client return an error.  Then
`SetStatus` returns a non-nil error (that of the client) after that one call,
and every field of the asset, `status`, `state`, `prevStatus` and `prevState`
among them, is as it was before the call. -/
theorem c22_set_status_client_failure {γ : Type} (T : AssetTables) (c : Client γ)
    (a : Asset) (s1 : AssetStatus) (t1 : AssetState) (w : γ) (e : Error)
    (hdiff : (a.status, a.state) ≠ (s1, t1))
    (hstatus : a.status = s1 ∨ statusTransitionAllowed a.status s1 = true)
    (hstate : T.stateAllowed s1 t1 = true)
    (hclient : (c.SetAssetStatus a.name (T.statusString s1) (T.stateString t1)
      (T.StateDescription t1) w).1 = some e) :
    Asset.SetStatus T (some c) a s1 t1 w =
      { outcome := .returned (some e)
        asset := a
        world := (c.SetAssetStatus a.name (T.statusString s1) (T.stateString t1)
          (T.StateDescription t1) w).2
        calls := [ClientCall.SetAssetStatus a.name (T.statusString s1) (T.stateString t1)
          (T.StateDescription t1)] } := by
  have hne : ¬ (a.status = s1 ∧ a.state = t1) := fun h => hdiff (by rw [h.1, h.2])
  rcases hstatus with hkept | hallowed
  · have hst : ¬ a.state = t1 := fun h => hne ⟨hkept, h⟩
    simp [Asset.SetStatus, hkept, hst, hstate, hclient]
  · simp [Asset.SetStatus, hne, hallowed, hstate, hclient]

/-- C22, at the asset `foo` of `TestSetStatusSetFailure`: Unallocated to
Provisioning with a client that fails. -/
theorem c22_set_status_client_failure_witness :
    Asset.SetStatus sampleTables (some (sampleClient true)) sampleAssetFoo
        AssetStatus.Provisioning AssetState.Discovered () =
      { outcome := .returned (some (Errorf "test failure"))
        asset := sampleAssetFoo
        world := ()
        calls := [ClientCall.SetAssetStatus "foo" "Provisioning" "Discovered"
          "node is Discovered"] } :=
  c22_set_status_client_failure sampleTables (sampleClient true) sampleAssetFoo
    AssetStatus.Provisioning AssetState.Discovered () (Errorf "test failure")
    (by decide) (Or.inr (by decide)) (by decide) (by decide)

/-- C23: `NewAsset(client, name)` first calls `CreateAsset(name, s)` with `s`
the name of the status Unallocated.  If that fails, it returns the error and
no asset, and `SetAssetStatus` is not called.  Otherwise it calls
`SetAssetStatus(name, Unallocated, Discovered, description of Discovered)`:
if that fails it returns the error and no asset; if it succeeds it returns
nil and the asset of that name with status Unallocated, state Discovered,
previous status Incomplete and previous state Unknown (the client handle is
an argument of the model and is not written). -/
theorem c23_new_asset {γ : Type} (T : AssetTables) (c : Client γ) (name : String) (w : γ) :
    (∀ e, (c.CreateAsset name (T.statusString .Unallocated) w).1 = some e →
      NewAsset T (some c) name w =
        { outcome := .returned (some e), asset := none,
          world := (c.CreateAsset name (T.statusString .Unallocated) w).2,
          calls := [ClientCall.CreateAsset name (T.statusString .Unallocated)] }) ∧
    ((c.CreateAsset name (T.statusString .Unallocated) w).1 = none →
      (NewAsset T (some c) name w).calls =
        [ClientCall.CreateAsset name (T.statusString .Unallocated),
         ClientCall.SetAssetStatus name (T.statusString .Unallocated)
           (T.stateString .Discovered) (T.StateDescription .Discovered)] ∧
      (∀ e, (c.SetAssetStatus name (T.statusString .Unallocated) (T.stateString .Discovered)
          (T.StateDescription .Discovered)
          (c.CreateAsset name (T.statusString .Unallocated) w).2).1 = some e →
        (NewAsset T (some c) name w).outcome = .returned (some e) ∧
        (NewAsset T (some c) name w).asset = none) ∧
      ((c.SetAssetStatus name (T.statusString .Unallocated) (T.stateString .Discovered)
          (T.StateDescription .Discovered)
          (c.CreateAsset name (T.statusString .Unallocated) w).2).1 = none →
        (NewAsset T (some c) name w).outcome = .returned none ∧
        (NewAsset T (some c) name w).asset =
          some { name := name, status := .Unallocated, prevStatus := .Incomplete,
                 state := .Discovered, prevState := .Unknown })) := by
  constructor
  · intro e h
    simp [NewAsset, h]
  · intro h
    cases h2 : (c.SetAssetStatus name (T.statusString .Unallocated) (T.stateString .Discovered)
        (T.StateDescription .Discovered)
        (c.CreateAsset name (T.statusString .Unallocated) w).2).1 with
    | none => simp [NewAsset, h, h2]
    | some e2 => simp [NewAsset, h, h2]

/-- C23, at the name `foo` of `asset_test.go`: with a client that fails at
its first call, at its second call, and at none. -/
theorem c23_new_asset_witness :
    NewAsset sampleTables (some (sampleCountingClient [0])) "foo" 0 =
      { outcome := .returned (some (Errorf "test error")), asset := none, world := 1,
        calls := [ClientCall.CreateAsset "foo" "Unallocated"] } ∧
    ((NewAsset sampleTables (some (sampleCountingClient [1])) "foo" 0).outcome =
        .returned (some (Errorf "test error")) ∧
      (NewAsset sampleTables (some (sampleCountingClient [1])) "foo" 0).asset = none) ∧
    ((NewAsset sampleTables (some (sampleCountingClient [])) "foo" 0).outcome =
        .returned none ∧
      (NewAsset sampleTables (some (sampleCountingClient [])) "foo" 0).asset =
        some sampleAssetFoo) :=
  ⟨(c23_new_asset sampleTables (sampleCountingClient [0]) "foo" 0).1 _ (by decide),
   ((c23_new_asset sampleTables (sampleCountingClient [1]) "foo" 0).2 (by decide)).2.1 _
     (by decide),
   ((c23_new_asset sampleTables (sampleCountingClient []) "foo" 0).2 (by decide)).2.2
     (by decide)⟩

/-! ## The helper that logs the output (C26) -/

theorem logOutputAndReturnStatus_loop (errCh : Option Error) :
    ∀ (ticks : Nat) (lines logged : List String),
      logOutputAndReturnStatus.loop errCh ticks lines logged = (logged ++ lines, errCh)
  | 0, _, _ => rfl
  | ticks + 1, [], logged => by
    rw [logOutputAndReturnStatus.loop, logOutputAndReturnStatus_loop errCh ticks [] logged]
  | ticks + 1, line :: lines, logged => by
    rw [logOutputAndReturnStatus.loop,
      logOutputAndReturnStatus_loop errCh ticks lines (logged ++ [line])]
    simp

/-- C26: whatever the reader `r` (nil or not), whatever the number of times
the ticker is served before the error channel delivers, and whatever value
`v` (nil or an error) the error channel delivers, `logOutputAndReturnStatus`
returns exactly `v`.  With a nil reader nothing is read or logged; with a
reader every token the scanner yields is scanned and logged, in order, before
the return.  The value returned does not depend on the content of the
stream, and the whole result is that of the summary used by the `process`
methods. -/
theorem c26_log_output_returns_status (r : Option (List String)) (ticks : Nat)
    (v : Option Error) :
    (logOutputAndReturnStatus.select r ticks v).2 = v ∧
    (r = none → (logOutputAndReturnStatus.select r ticks v).1 = []) ∧
    (∀ lines, r = some lines → (logOutputAndReturnStatus.select r ticks v).1 = lines) ∧
    (∀ (r2 : Option (List String)) (ticks2 : Nat),
      (logOutputAndReturnStatus.select r2 ticks2 v).2 =
        (logOutputAndReturnStatus.select r ticks v).2) ∧
    logOutputAndReturnStatus.select r ticks v = logOutputAndReturnStatus r v := by
  have hsel : ∀ (r1 : Option (List String)) (n : Nat),
      logOutputAndReturnStatus.select r1 n v = logOutputAndReturnStatus r1 v := by
    intro r1 n
    cases r1 with
    | none => rfl
    | some lines =>
      simp [logOutputAndReturnStatus.select, logOutputAndReturnStatus,
        logOutputAndReturnStatus_loop]
  refine ⟨?_, ?_, ?_, ?_, hsel r ticks⟩
  · rw [hsel, logOutputAndReturnStatus_status]
  · intro h
    rw [hsel, h]
    rfl
  · intro lines h
    rw [hsel, h]
    rfl
  · intro r2 ticks2
    rw [hsel, hsel, logOutputAndReturnStatus_status, logOutputAndReturnStatus_status]

/-- C26, at a stream of three lines of which the ticker lets two be read
before the error channel delivers an error, and at a nil reader. -/
theorem c26_log_output_returns_status_witness :
    logOutputAndReturnStatus.select (some ["a", "b", "c"]) 2 (some (Errorf "playbook failure")) =
      (["a", "b", "c"], some (Errorf "playbook failure")) ∧
    (logOutputAndReturnStatus.select none 2 (some (Errorf "playbook failure"))).1 = [] :=
  ⟨((c26_log_output_returns_status (some ["a", "b", "c"]) 2
      (some (Errorf "playbook failure"))).2.2.2.2).trans (by decide),
   (c26_log_output_returns_status none 2 (some (Errorf "playbook failure"))).2.1 rfl⟩

/-! ## Bootstrap discovery leaves the registry as it was (C28) -/

/-- C28: for every registry, every order of the scan, every address and
extra-vars, and on every path of `nodeDiscover.process` (a node has the
address, with or without an inventory view; Configure fails; Configure
succeeds), the registry after process is the registry before it: no node is
created or removed, no view is written, and the temporary host `node1` is not
stored. -/
theorem c28_discover_keeps_registry (K : Env σ) (ord : List (String × Node))
    (addr V : String) (m : Manager σ) :
    (nodeDiscover.process K ord addr V m).2.nodes = m.nodes := by
  cases hfind : findNodeByMgmtAddr K ord addr with
  | ok nd =>
    cases hinv : nd.Inv with
    | none => simp [nodeDiscover.process, hfind, hinv]
    | some a => simp [nodeDiscover.process, hfind, hinv]
  | error err =>
    cases hres : (K.configuration .Configure
        [NewAnsibleHost "node1" addr K.ansibleDiscoverGroupName
          [(K.ansibleNodeNameHostVar, "node1"), (K.ansibleNodeAddrHostVar, addr)]] V
        m.world).1.2 with
    | none => simp [nodeDiscover.process, hfind, runPlaybook_eq, hres]
    | some e => simp [nodeDiscover.process, hfind, runPlaybook_eq, hres]

/-! ## A follow-up is enqueued exactly when process returns nil (C29) -/

/-- C29: each of `nodeCommissioned.process`, `nodeDecommissioned.process`
(whatever the order of its scan) and `nodeInMaintenance.process` ends in one
of three ways.  Either it returns nil, its inventory call (`SetAssetProvisioning`,
`SetAssetCancelled`, `SetAssetInMaintenance`) was the last call made and
returned nil, and the queue is the former queue followed by exactly one
event, the follow-up (`nodeConfigure`, `nodeCleanup`, `nodeUpgrade`) with the
same node and extra-vars.  Or it returns an error and the queue is as it
was.  Or it never returns: its inventory call returned nil, the queue held
all the events the channel can hold and process is stopped at the send, the
queue being as it was.  So the follow-up is in the queue exactly when process
has returned nil.  None of them panics. -/
theorem c29_follow_up_iff_nil (K : Env σ) (ord : List (String × Node)) (N V : String)
    (m : Manager σ) :
    (((nodeCommissioned.process K N V m).1 = .returned none ∧
        (nodeCommissioned.process K N V m).2.reqQ = m.reqQ ++ [Event.nodeConfigure N V] ∧
        (K.inventory .SetAssetProvisioning N m.world).1 = none ∧
        (nodeCommissioned.process K N V m).2.calls =
          m.calls ++ [Call.inv .SetAssetProvisioning N]) ∨
      (∃ e, (nodeCommissioned.process K N V m).1 = .returned (some e) ∧
        (nodeCommissioned.process K N V m).2.reqQ = m.reqQ) ∨
      ((nodeCommissioned.process K N V m).1 = .blocked ∧
        (nodeCommissioned.process K N V m).2.reqQ = m.reqQ ∧
        reqQCapacity ≤ m.reqQ.length ∧
        (K.inventory .SetAssetProvisioning N m.world).1 = none ∧
        (nodeCommissioned.process K N V m).2.calls =
          m.calls ++ [Call.inv .SetAssetProvisioning N])) ∧
    (((nodeDecommissioned.process K ord N V m).1 = .returned none ∧
        (nodeDecommissioned.process K ord N V m).2.reqQ = m.reqQ ++ [Event.nodeCleanup N V] ∧
        (K.inventory .SetAssetCancelled N m.world).1 = none ∧
        (nodeDecommissioned.process K ord N V m).2.calls =
          m.calls ++ [Call.inv .SetAssetCancelled N]) ∨
      (∃ e, (nodeDecommissioned.process K ord N V m).1 = .returned (some e) ∧
        (nodeDecommissioned.process K ord N V m).2.reqQ = m.reqQ) ∨
      ((nodeDecommissioned.process K ord N V m).1 = .blocked ∧
        (nodeDecommissioned.process K ord N V m).2.reqQ = m.reqQ ∧
        reqQCapacity ≤ m.reqQ.length ∧
        (K.inventory .SetAssetCancelled N m.world).1 = none ∧
        (nodeDecommissioned.process K ord N V m).2.calls =
          m.calls ++ [Call.inv .SetAssetCancelled N])) ∧
    (((nodeInMaintenance.process K N V m).1 = .returned none ∧
        (nodeInMaintenance.process K N V m).2.reqQ = m.reqQ ++ [Event.nodeUpgrade N V] ∧
        (K.inventory .SetAssetInMaintenance N m.world).1 = none ∧
        (nodeInMaintenance.process K N V m).2.calls =
          m.calls ++ [Call.inv .SetAssetInMaintenance N]) ∨
      (∃ e, (nodeInMaintenance.process K N V m).1 = .returned (some e) ∧
        (nodeInMaintenance.process K N V m).2.reqQ = m.reqQ) ∨
      ((nodeInMaintenance.process K N V m).1 = .blocked ∧
        (nodeInMaintenance.process K N V m).2.reqQ = m.reqQ ∧
        reqQCapacity ≤ m.reqQ.length ∧
        (K.inventory .SetAssetInMaintenance N m.world).1 = none ∧
        (nodeInMaintenance.process K N V m).2.calls =
          m.calls ++ [Call.inv .SetAssetInMaintenance N])) := by
  refine ⟨?_, ?_, ?_⟩
  · cases hd : K.isDiscoveredNode m.nodes m.world N with
    | error e => exact Or.inr (Or.inl ⟨e, by simp [nodeCommissioned.process, hd]⟩)
    | ok b =>
      cases b with
      | false =>
        exact Or.inr (Or.inl ⟨Errorf ("node " ++ goQuote K.isPrint N ++
          " has disappeared from monitoring subsystem, it can't be commissioned. Please check node's network reachability"),
          by simp [nodeCommissioned.process, hd]⟩)
      | true =>
        cases hinv : (K.inventory .SetAssetProvisioning N m.world).1 with
        | none =>
          by_cases hroom : m.reqQ.length < reqQCapacity
          · exact Or.inl (by
              simp [nodeCommissioned.process, hd, callInventory, hinv, enqueue, hroom])
          · exact Or.inr (Or.inr (by
              simp [nodeCommissioned.process, hd, callInventory, hinv, enqueue, hroom]
              exact Nat.not_lt.1 hroom))
        | some e =>
          exact Or.inr (Or.inl
            ⟨e, by simp [nodeCommissioned.process, hd, callInventory, hinv]⟩)
  · cases hd : K.isMasterNode m.nodes m.world N with
    | error e => exact Or.inr (Or.inl ⟨e, by simp [nodeDecommissioned.process, hd]⟩)
    | ok b =>
      cases hg : (b && nodeDecommissioned.workerRemains K m N ord) with
      | true =>
        exact Or.inr (Or.inl ⟨Errorf (goQuote K.isPrint N ++
          " is a master node and it can only be decommissioned after all worker nodes have been decommissioned"),
          by simp [nodeDecommissioned.process, hd, hg]⟩)
      | false =>
        cases hinv : (K.inventory .SetAssetCancelled N m.world).1 with
        | none =>
          by_cases hroom : m.reqQ.length < reqQCapacity
          · exact Or.inl (by
              simp [nodeDecommissioned.process, hd, hg, callInventory, hinv, enqueue, hroom])
          · exact Or.inr (Or.inr (by
              simp [nodeDecommissioned.process, hd, hg, callInventory, hinv, enqueue, hroom]
              exact Nat.not_lt.1 hroom))
        | some e =>
          exact Or.inr (Or.inl
            ⟨e, by simp [nodeDecommissioned.process, hd, hg, callInventory, hinv]⟩)
  · cases hinv : (K.inventory .SetAssetInMaintenance N m.world).1 with
    | none =>
      by_cases hroom : m.reqQ.length < reqQCapacity
      · exact Or.inl (by simp [nodeInMaintenance.process, callInventory, hinv, enqueue, hroom])
      · exact Or.inr (Or.inr (by
          simp [nodeInMaintenance.process, callInventory, hinv, enqueue, hroom]
          exact Nat.not_lt.1 hroom))
    | some e =>
      exact Or.inr (Or.inl ⟨e, by simp [nodeInMaintenance.process, callInventory, hinv]⟩)

/-! ## A node that is absent or has no configuration view (C30) -/

/-- C30: for each of `nodeConfigure.process` (whatever the order of its
scan), `nodeCleanup.process` and `nodeUpgrade.process` on the node `N`: when
`N` is not in the registry, process returns the error of `findNode`, and when
`N` is there with a nil configuration view, process returns the
node-config-not-exists error; in both cases the manager is left as it was,
so that no operation of the configuration subsystem and no inventory
operation is called (no asset is marked decommissioned) and no host
descriptor is written. -/
theorem c30_absent_or_unconfigured (K : Env σ) (ord : List (String × Node)) (N V : String)
    (m : Manager σ) :
    (lookupNode N m.nodes = none →
      findNode K m N = .error (K.nodeNotExistsError N) ∧
      nodeConfigure.process K ord N V m = (.returned (some (K.nodeNotExistsError N)), m) ∧
      nodeCleanup.process K N V m = (.returned (some (K.nodeNotExistsError N)), m) ∧
      nodeUpgrade.process K N V m = (.returned (some (K.nodeNotExistsError N)), m)) ∧
    (∀ nd, lookupNode N m.nodes = some nd → nd.Cfg = none →
      nodeConfigure.process K ord N V m =
        (.returned (some (K.nodeConfigNotExistsError N)), m) ∧
      nodeCleanup.process K N V m = (.returned (some (K.nodeConfigNotExistsError N)), m) ∧
      nodeUpgrade.process K N V m = (.returned (some (K.nodeConfigNotExistsError N)), m)) := by
  constructor
  · intro h
    refine ⟨by simp [findNode, h], ?_, ?_, ?_⟩
    · simp [nodeConfigure.process, findNode, h]
    · simp [nodeCleanup.process, findNode, h]
    · simp [nodeUpgrade.process, findNode, h]
  · intro nd h hcfg
    refine ⟨?_, ?_, ?_⟩
    · simp [nodeConfigure.process, findNode, h, hcfg]
    · simp [nodeCleanup.process, findNode, h, hcfg]
    · simp [nodeUpgrade.process, findNode, h, hcfg]

/-- C30, at the sample registry: a cleanup of `ghost`, which is not there,
and a cleanup of a node `bare` that has no configuration view. -/
theorem c30_absent_or_unconfigured_witness :
    nodeCleanup.process sampleEnv "ghost" "v=1" (sampleManager sampleTwoNodes [] []) =
      (.returned (some (sampleEnv.nodeNotExistsError "ghost")),
        sampleManager sampleTwoNodes [] []) ∧
    nodeCleanup.process sampleEnv "bare" "v=1" (sampleManager sampleBare [] []) =
      (.returned (some (sampleEnv.nodeConfigNotExistsError "bare")),
        sampleManager sampleBare [] []) :=
  ⟨((c30_absent_or_unconfigured sampleEnv sampleTwoNodes "ghost" "v=1"
      (sampleManager sampleTwoNodes [] [])).1 (by decide)).2.2.1,
   ((c30_absent_or_unconfigured sampleEnv sampleBare "bare" "v=1"
      (sampleManager sampleBare [] [])).2 _ rfl rfl).2.1⟩

/-! ## End to end (C24, C25, C27) -/

/-- A run of the loop in the order of the registry is a run of the loop, for
the orders that are the registries met. -/
theorem eventLoopInOrder_eq_eventLoop (K : Env σ) :
    ∀ (turns : Nat) (m : Manager σ),
      ∃ ords : List (List (String × Node)), ords.length = turns ∧
        eventLoop K ords m = eventLoopInOrder K turns m
  | 0, m => ⟨[], rfl, rfl⟩
  | turns + 1, m => by
    cases hq : m.reqQ with
    | nil =>
      exact ⟨List.replicate (turns + 1) m.nodes, by simp,
        by simp [List.replicate_succ, eventLoop, eventLoopInOrder, eventLoopStep, hq]⟩
    | cons me rest =>
      cases hp : (Event.process K m.nodes me { m with reqQ := rest }).1 with
      | panicked =>
        exact ⟨List.replicate (turns + 1) m.nodes, by simp,
          by simp [List.replicate_succ, eventLoop, eventLoopInOrder, eventLoopStep, hq, hp]⟩
      | blocked =>
        exact ⟨List.replicate (turns + 1) m.nodes, by simp,
          by simp [List.replicate_succ, eventLoop, eventLoopInOrder, eventLoopStep, hq, hp]⟩
      | returned err =>
        obtain ⟨ords, hlen, hrun⟩ := eventLoopInOrder_eq_eventLoop K turns
          (Event.process K m.nodes me { m with reqQ := rest }).2
        exact ⟨m.nodes :: ords, by simp [hlen],
          by simp [eventLoop, eventLoopInOrder, eventLoopStep, hq, hp, hrun]⟩

/-- C24: the registry holds `n1`, whose asset is unallocated and discovered,
and the queue holds only `nodeCommissioned(n1)`; Configure completes with nil
and the inventory succeeds.  The loop processes `nodeCommissioned(n1)` and
then `nodeConfigure(n1)`, both returning nil, and the queue is then empty;
the calls to the inventory are `SetAssetProvisioning(n1)` and then
`SetAssetCommissioned(n1)`; the asset is left with status Commissioned, state
Discovered and previous status Provisioning. -/
theorem c24_commission_end_to_end :
    findAsset "n1" (lifecycleManager lifecycleFresh).world.assets =
      some { name := "n1", status := .Unallocated, prevStatus := .Incomplete,
             state := .Discovered, prevState := .Unknown } ∧
    commissionRun.1 =
      [(.nodeCommissioned "n1" "v=1", .returned none),
       (.nodeConfigure "n1" "v=1", .returned none)] ∧
    commissionRun.2.reqQ = [] ∧
    inventoryCalls commissionRun.2.calls =
      [Call.inv .SetAssetProvisioning "n1", Call.inv .SetAssetCommissioned "n1"] ∧
    findAsset "n1" commissionRun.2.world.assets =
      some { name := "n1", status := .Commissioned, prevStatus := .Provisioning,
             state := .Discovered, prevState := .Discovered } := by
  refine ⟨by decide, by decide, by decide, by decide, by decide⟩

set_option maxRecDepth 100000 in
/-- C25: the registry holds the master `n1` and the worker `n2`, both
discovered and commissioned.  Whichever way the scans visit the two nodes:
`nodeDecommissioned(n1)` returns an error whose text contains `worker nodes
have been decommissioned`, nothing is enqueued and both assets stay
Commissioned; then `nodeDecommissioned(n2)` returns nil and is followed by
`nodeCleanup(n2)`, and then `nodeDecommissioned(n1)` returns nil and is
followed by `nodeCleanup(n1)`; both assets are left with status
Decommissioned. -/
theorem c25_decommission_end_to_end :
    ∀ ord ∈ [sampleTwoNodes, sampleTwoNodes.reverse],
      (∃ err, (decommissionMasterFirst ord).1 =
          [(.nodeDecommissioned "n1" "v=1", .returned (some err))] ∧
        strContains err.Error "worker nodes have been decommissioned") ∧
      (decommissionMasterFirst ord).2.reqQ = [] ∧
      (decommissionMasterFirst ord).2.world.assets.map (fun a => (a.name, a.status)) =
        [("n1", AssetStatus.Commissioned), ("n2", AssetStatus.Commissioned)] ∧
      (decommissionWorker ord).1 =
        [(.nodeDecommissioned "n2" "v=1", .returned none),
         (.nodeCleanup "n2" "v=1", .returned none)] ∧
      (decommissionMasterLast ord).1 =
        [(.nodeDecommissioned "n1" "v=1", .returned none),
         (.nodeCleanup "n1" "v=1", .returned none)] ∧
      (decommissionMasterLast ord).2.world.assets.map (fun a => (a.name, a.status)) =
        [("n1", AssetStatus.Decommissioned), ("n2", AssetStatus.Decommissioned)] := by
  intro ord hord
  simp only [List.mem_cons, List.mem_singleton, List.not_mem_nil, or_false] at hord
  rcases hord with h | h
  · subst h
    refine ⟨⟨Errorf (goQuote lifecycleEnv.isPrint "n1" ++
      " is a master node and it can only be decommissioned after all worker nodes have been decommissioned"),
      by decide, by decide⟩, by decide, by decide, by decide, by decide, by decide⟩
  · subst h
    refine ⟨⟨Errorf (goQuote lifecycleEnv.isPrint "n1" ++
      " is a master node and it can only be decommissioned after all worker nodes have been decommissioned"),
      by decide, by decide⟩, by decide, by decide, by decide, by decide, by decide⟩

/-- C25, for the scans that visit `n2` before `n1`. -/
theorem c25_decommission_end_to_end_witness :
    (∃ err, (decommissionMasterFirst sampleTwoNodes.reverse).1 =
        [(.nodeDecommissioned "n1" "v=1", .returned (some err))] ∧
      strContains err.Error "worker nodes have been decommissioned") ∧
    (decommissionMasterLast sampleTwoNodes.reverse).2.world.assets.map
        (fun a => (a.name, a.status)) =
      [("n1", AssetStatus.Decommissioned), ("n2", AssetStatus.Decommissioned)] :=
  have h := c25_decommission_end_to_end sampleTwoNodes.reverse
    (List.mem_cons_of_mem _ (List.mem_cons_self _ _))
  ⟨h.1, h.2.2.2.2.2⟩

/-- C27 fails on the code.  From an empty registry, `n1-0` and `n2-0` are
discovered and `n1-0` is commissioned: it is configured as the master, and it
is the one node that is discovered and allocated, and a master.  Then a
commission of `n2-0` and a maintenance of `n1-0` are queued.  The loop
processes `nodeCommissioned(n2-0)`, `nodeInMaintenance(n1-0)`,
`nodeConfigure(n2-0)` and `nodeUpgrade(n1-0)`, each returning nil: when
`n2-0` is configured, `n1-0` is in maintenance, hence not allocated, and the
scan finds no master, so that `n2-0` keeps the master group; the upgrade
then sets `n1-0` commissioned again.  Two nodes are left discovered and
allocated, and masters. -/
theorem c27_two_masters_after_maintenance :
    firstMasterRun.1 =
      [(.nodeDiscovered sampleSnapshot, .returned none),
       (.nodeDiscovered sampleSnapshot2, .returned none),
       (.nodeCommissioned "n1-0" "v=1", .returned none),
       (.nodeConfigure "n1-0" "v=1", .returned none)] ∧
    allocatedMasters lifecycleEnv firstMasterRun.2 = ["n1-0"] ∧
    secondMasterRun.1 =
      [(.nodeCommissioned "n2-0" "v=1", .returned none),
       (.nodeInMaintenance "n1-0" "v=1", .returned none),
       (.nodeConfigure "n2-0" "v=1", .returned none),
       (.nodeUpgrade "n1-0" "v=1", .returned none)] ∧
    secondMasterRun.2.reqQ = [] ∧
    allocatedMasters lifecycleEnv secondMasterRun.2 = ["n1-0", "n2-0"] ∧
    secondMasterRun.2.world.assets.map (fun a => (a.name, a.status, a.state)) =
      [("n1-0", AssetStatus.Commissioned, AssetState.Discovered),
       ("n2-0", AssetStatus.Commissioned, AssetState.Discovered)] ∧
    secondMasterRun.2.nodes.map (fun p => (p.1, p.2.Cfg.map (fun h => h.group))) =
      [("n1-0", some "service-master"), ("n2-0", some "service-master")] := by
  refine ⟨by decide, by decide, by decide, by decide, by decide, by decide, by decide⟩

end Cluster
